import Mathlib

/-!
# Extension-sharded file store: public node S1 and shards S2, S3, S4

A shallow embedding of the C sources `s1.c`, `s2.c`, `s3.c`, `s4.c`.

* A C string is the list of its characters before the terminating NUL.
* `long` and `ssize_t` values are `Int`; every sum formed here stays below
  `2^63` (declared lengths are validated against `MAX_FILE_SIZE` before any loop
  runs and a chunk adds at most `BUFFER_SIZE`).
* Socket and file system calls are answered by an explicit environment: the
  results of successive `recv` calls on a connection are a list (a well-formed
  list holds no chunk longer than the buffer of the call), the tested results of
  the other calls are Boolean fields, and `send` either takes all bytes or fails.
  A handler is a function from its environment to the list of calls it makes,
  in order, together with the files it leaves.
* The file system is the map from a path to the content of the regular file
  there; whether a directory exists or can be made is an answer of the
  environment.
* Output written with `printf` is left out.
-/

namespace DFS

/-! ## C strings -/

/-- The characters of a C string, terminator excluded. -/
abbrev CStr := List Char

/-- Index of the last occurrence of `c` in `s`, as `strrchr` finds it. -/
def strrchr : CStr → Char → Option Nat
  | [], _ => none
  | x :: xs, c =>
    match strrchr xs c with
    | some i => some (i + 1)
    | none => if x = c then some 0 else none

/-- The test `strcmp(a, b) == 0`. -/
def strcmpEq (a b : CStr) : Bool := a == b

/-- The test `strncmp(a, b, n) == 0`: the first `n` characters agree. -/
def strncmpEq (a b : CStr) (n : Nat) : Bool := a.take n == b.take n

/-! ## Constants of `s1.c` -/

def PORT : Int := 8080
def S2_PORT : Int := 8081
def S3_PORT : Int := 8082
def S4_PORT : Int := 8083
def BUFFER_SIZE : Nat := 1024
def MAX_PATH_LENGTH : Nat := 1024
def MAX_FILE_SIZE : Int := 104857600

/-! ## Routing resolver -/

/-- The function `getFileExtension` of `s1.c` (the shards carry the same one): the text
after the last dot, or the empty string when there is no dot or the last dot is
the first character. -/
def getFileExtension (filename : CStr) : CStr :=
  match strrchr filename '.' with
  | none => []
  | some 0 => []
  | some (i + 1) => filename.drop (i + 2)

/-- The function `getServerPort` of `s1.c`. -/
def getServerPort (filename : CStr) : Int :=
  let ext := getFileExtension filename
  if strcmpEq ext "pdf".toList then S2_PORT
  else if strcmpEq ext "txt".toList then S3_PORT
  else if strcmpEq ext "zip".toList then S4_PORT
  else -1

/-- The extension as the specification words it: the text after the last dot,
empty when the name has no dot. -/
def textAfterLastDot (filename : CStr) : CStr :=
  match strrchr filename '.' with
  | none => []
  | some i => filename.drop (i + 1)

/-! ## Library functions the handlers call -/

/-- The NUL character. -/
def NUL : Char := Char.ofNat 0

/-- The C string held by a zeroed buffer into which `data` was received: the
characters before the first NUL. -/
def cstrOf (data : List Char) : CStr := data.takeWhile (fun c => c != NUL)

/-- What `snprintf(dst, size, "%s...", ...)` leaves in `dst` when the formatted
text is `s`: at most `size - 1` characters. -/
def snprintf (size : Nat) (s : CStr) : CStr := s.take (size - 1)

/-- The bytes `send(sock, "literal", n, 0)` passes on: the first `n` bytes of the
literal's array, which ends with its NUL. -/
def lit (s : String) (n : Nat) : List Char := (s.toList ++ [NUL]).take n

/-- The test `isspace` in the C locale. -/
def isspace (c : Char) : Bool := c == ' ' || (9 ≤ c.toNat && c.toNat ≤ 13)

/-- The digit loop of `atol`: stops at the first character that is no digit. -/
def atolDigits : CStr → Int → Int
  | [], acc => acc
  | c :: cs, acc =>
    if c.isDigit then atolDigits cs (acc * 10 + ((c.toNat : Int) - 48)) else acc

def LONG_MAX : Int := 9223372036854775807
def LONG_MIN : Int := -9223372036854775808

/-- A value brought into the range of `long`, as `strtol` does. -/
def clampLong (x : Int) : Int := max LONG_MIN (min LONG_MAX x)

/-- The function `atol`: leading white space, an optional sign, decimal digits. -/
def atol (s : CStr) : Int :=
  match s.dropWhile isspace with
  | '-' :: cs => clampLong (- atolDigits cs 0)
  | '+' :: cs => clampLong (atolDigits cs 0)
  | cs => clampLong (atolDigits cs 0)

/-- The text `"%ld"` prints for a non-negative value. -/
def ldText (n : Nat) : CStr := Nat.toDigits 10 n

/-- The text `"%ld"` prints. -/
def ldTextInt (x : Int) : CStr :=
  if x < 0 then '-' :: ldText x.natAbs else ldText x.toNat

/-! ## Sockets, files, events -/

/-- The two connections a handler holds: the requester's (`client_socket`) and,
on S1, the outgoing one to a shard (`sock`). -/
inductive Sock
  | client
  | shard
  deriving DecidableEq, Repr

/-- What one `recv` call returns: `data bs` is the return value `bs.length` with
those bytes in the buffer (`data []` is the return value 0 of a closed
connection), `error` is the return value -1. -/
inductive RecvResult
  | data (bytes : List Char)
  | error
  deriving DecidableEq, Repr

/-- The return value of the `recv` call. -/
def RecvResult.ret : RecvResult → Int
  | .data bs => (bs.length : Int)
  | .error => -1

/-- The bytes the `recv` call put in the buffer. -/
def RecvResult.buf : RecvResult → List Char
  | .data bs => bs
  | .error => []

/-- The result of the next `recv` on a connection whose remaining results are
`script`; once the script is used up the peer has closed and `recv` returns 0. -/
def nextRecv (script : List RecvResult) : RecvResult := script.headD (.data [])

/-- One call a handler makes to the outside. `send` carries the bytes handed to
`send`, `recv` the result of the call; `fopen` opens for writing (`"wb"`),
`fopenRead` for reading (`"rb"`); `system` runs a shell command. -/
inductive Event
  | send (sock : Sock) (bytes : List Char)
  | recv (sock : Sock) (result : RecvResult)
  | socket
  | connect (port : Int)
  | close (sock : Sock)
  | mkdirs (path : CStr)
  | stat (path : CStr)
  | fopen (path : CStr)
  | fopenRead (path : CStr)
  | fwrite (bytes : List Char)
  | fclose
  | remove (path : CStr)
  | system (command : CStr)
  deriving DecidableEq, Repr

/-- The regular files of a node: path to content. -/
abbrev FS := CStr → Option (List Char)

/-- The file system with `path` set to `content` (`none`: removed). -/
def FS.set (fs : FS) (path : CStr) (content : Option (List Char)) : FS :=
  fun p => if p = path then content else fs p

/-- The function `fileExists`: `stat` succeeds on the path. -/
def fileExists (fs : FS) (path : CStr) : Bool := (fs path).isSome

/-- The answers of the outside world to one command handled by a node. -/
structure Env where
  /-- value of `getenv("HOME")` -/
  home : CStr
  /-- text of `strerror(errno)` at the point of a failure -/
  errText : CStr := []
  /-- the files present when the command starts -/
  fs : FS := fun _ => none
  /-- results of the successive `recv` calls on the requester's connection -/
  clientIn : List RecvResult := []
  /-- results of the successive `recv` calls on the shard connection -/
  shardIn : List RecvResult := []
  /-- whether `createDirectories` did not fail -/
  mkdirOk : Bool := true
  /-- whether `stat` found the directory of the target -/
  dirOk : Bool := true
  /-- whether `fopen` returned a stream -/
  fopenOk : Bool := true
  /-- bytes written by the `fwrite` of iteration `i` when asked for `n` -/
  fwriteRet : Nat → Nat → Nat := fun _ n => n
  /-- whether `fflush` and `fclose` both returned 0 -/
  fcloseOk : Bool := true
  /-- whether `fflush` returned 0, read when `fcloseOk` is false: the test is
  `fflush(file) != 0 || fclose(file) != 0`, so `fclose` is called only when it did -/
  fflushOk : Bool := true
  /-- whether `socket` returned a descriptor -/
  socketOk : Bool := true
  /-- whether `inet_pton` accepted the address -/
  inetOk : Bool := true
  /-- whether `connect` succeeded -/
  connectOk : Bool := true
  /-- the `send` of the command line to the shard did not fail -/
  sendCmdOk : Bool := true
  /-- the `send` of the size text did not fail -/
  sendSizeOk : Bool := true
  /-- the `send` of READY to the client did not fail -/
  sendReadyOk : Bool := true
  /-- the `send` of SIZE_ACK did not fail -/
  sendAckOk : Bool := true
  /-- the `send` of the chunk of iteration `i` did not fail -/
  sendChunkOk : Nat → Bool := fun _ => true
  /-- the `send` of the final status did not fail -/
  sendStatusOk : Bool := true
  /-- the iteration, if any, whose `fread` fails and sets the error flag -/
  freadErrAt : Option Nat := none
  /-- whether `remove` returned 0 -/
  removeOk : Bool := true
  /-- return value of `system` -/
  systemRet : Int := 0
  /-- the file at the archive path once `system` has returned (`none`: no file) -/
  tarOut : Option (List Char) := some []

/-- What a handler did: its calls in order and the files afterwards. -/
structure Run where
  events : List Event
  fs : FS

/-- How a receive loop ended. -/
inductive LoopEnd
  | complete
  | recvFailed
  | sinkFailed
  deriving DecidableEq, Repr

/-- A receive loop's calls, the bytes it moved to its sink, the reads it left
unused and how it ended. -/
structure LoopOut where
  events : List Event
  moved : List Char
  rest : List RecvResult
  ending : LoopEnd

/-! ## Receive loops

Every upload loop of the sources has the shape
`while (total_bytes < file_size) { n = recv(client_socket, buffer, BUFFER_SIZE, 0);
if (n <= 0) {...; return;}  <move the n bytes on>;  total_bytes += n; }`.
The loops differ in the call that moves the bytes on, in whether its result is
tested, and in the calls made on each failure. -/

/-- The part of an upload loop that differs between the sources. -/
structure Sink where
  /-- the call that moves a chunk on (`fwrite` or `send` to the shard) -/
  call : List Char → Event
  /-- the loop's test on the result of that call in iteration `i` -/
  fails : Nat → List Char → Bool
  /-- the bytes that call moved in iteration `i` -/
  taken : Nat → List Char → List Char
  /-- the calls made when `recv` returned zero or less -/
  onRecvFail : List Event
  /-- the calls made when the test on the moving call failed -/
  onSinkFail : List Event

/-- The upload loop, run on the remaining `recv` results of the requester with
`total_bytes` and the iteration number. When the results are used up the
requester has closed the connection and `recv` returns 0. -/
def recvLoop (fileSize : Int) (sink : Sink) : List RecvResult → Int → Nat → LoopOut
  | [], total, _ =>
    if total < fileSize then
      ⟨.recv .client (.data []) :: sink.onRecvFail, [], [], .recvFailed⟩
    else ⟨[], [], [], .complete⟩
  | r :: rest, total, i =>
    if total < fileSize then
      if r.ret ≤ 0 then
        ⟨.recv .client r :: sink.onRecvFail, [], rest, .recvFailed⟩
      else if sink.fails i r.buf then
        ⟨.recv .client r :: sink.call r.buf :: sink.onSinkFail, sink.taken i r.buf, rest,
          .sinkFailed⟩
      else
        let out := recvLoop fileSize sink rest (total + r.ret) (i + 1)
        ⟨.recv .client r :: sink.call r.buf :: out.events, sink.taken i r.buf ++ out.moved,
          out.rest, out.ending⟩
    else ⟨[], [], r :: rest, .complete⟩

/-- The sink of `handleUploadLocal` (`s1.c`) and of `handleUpload` in `s4.c`:
`fwrite` with its result compared to the chunk length; `n` is the byte count
given to the `send` of the write error (24 in `s1.c`, 23 in `s4.c`). -/
def checkedFileSink (env : Env) (actual_path : CStr) (n : Nat) : Sink where
  call := .fwrite
  fails := fun i bs => env.fwriteRet i bs.length != bs.length
  taken := fun i bs => bs.take (env.fwriteRet i bs.length)
  onRecvFail := [.fclose, .remove actual_path,
    .send .client (lit "ERROR: File receive error" 25)]
  onSinkFail := [.fclose, .remove actual_path,
    .send .client (lit "ERROR: File write error" n)]

/-- The sink of `handleUpload` in `s2.c` and `s3.c`: `fwrite` with its result
ignored. -/
def uncheckedFileSink (env : Env) (actual_path : CStr) : Sink where
  call := .fwrite
  fails := fun _ _ => false
  taken := fun i bs => bs.take (env.fwriteRet i bs.length)
  onRecvFail := [.fclose, .remove actual_path,
    .send .client (lit "ERROR: File receive error" 25)]
  onSinkFail := []

/-- The sink of `transferFileToServer`: `send` to the shard, failing when it
returns less than zero. -/
def shardSink (env : Env) : Sink where
  call := .send .shard
  fails := fun i _ => !env.sendChunkOk i
  taken := fun i bs => if env.sendChunkOk i then bs else []
  onRecvFail := [.send .shard (lit "ERROR: File receive error" 25), .close .shard]
  onSinkFail := [.send .client (lit "ERROR: File transfer error" 26), .close .shard]

/-! ## S1: local upload -/

/-- The path `actual_path` of `handleUploadLocal` (the same block opens
`handleListLocal`): `~` is replaced by the home directory. -/
def localActualPath (home path : CStr) : CStr :=
  if strncmpEq path "~/S1".toList 3 then
    snprintf MAX_PATH_LENGTH (home ++ path.drop 1)
  else if strncmpEq path "~S1".toList 2 then
    snprintf MAX_PATH_LENGTH (home ++ '/' :: path.drop 2)
  else snprintf MAX_PATH_LENGTH path

/-- The part of `handleUploadLocal` from the `fopen` on. When the test
`fflush(file) != 0 || fclose(file) != 0` fails at `fflush`, `fclose` is not
called. -/
def storeLocal (env : Env) (reads : List RecvResult) (actual_path : CStr)
    (file_size : Int) : Run :=
  if !env.fopenOk then
    let error_msg := snprintf BUFFER_SIZE
      ("ERROR: Could not create file at ".toList ++ actual_path ++ " (".toList
        ++ env.errText ++ ")".toList)
    ⟨[.fopen actual_path, .send .client error_msg], env.fs⟩
  else
    let out := recvLoop file_size (checkedFileSink env actual_path 24) reads 0 0
    let pre := .fopen actual_path :: out.events
    match out.ending with
    | .recvFailed => ⟨pre, env.fs.set actual_path none⟩
    | .sinkFailed => ⟨pre, env.fs.set actual_path none⟩
    | .complete =>
      if !env.fcloseOk then
        if !env.fflushOk then
          ⟨pre ++ [.remove actual_path,
            .send .client (lit "ERROR: Could not finalize file" 31)],
            env.fs.set actual_path none⟩
        else
          ⟨pre ++ [.fclose, .remove actual_path,
            .send .client (lit "ERROR: Could not finalize file" 31)],
            env.fs.set actual_path none⟩
      else
        let fs := env.fs.set actual_path (some out.moved)
        if !fileExists fs actual_path then
          ⟨pre ++ [.fclose, .stat actual_path,
            .send .client (lit "ERROR: File creation failed" 28)], fs⟩
        else
          ⟨pre ++ [.fclose, .stat actual_path, .send .client (lit "SUCCESS" 7)], fs⟩

/-- The function `handleUploadLocal` of `s1.c`, run on the `recv` results `reads`
that remain on the client connection. -/
def handleUploadLocal (env : Env) (reads : List RecvResult) (path : CStr)
    (file_size : Int) : Run :=
  let actual_path := localActualPath env.home path
  let dir_path := snprintf MAX_PATH_LENGTH actual_path
  match strrchr dir_path '/' with
  | none => ⟨[.send .client (lit "ERROR: Invalid file path" 24)], env.fs⟩
  | some k =>
    let dir := dir_path.take k
    let checkDir : List Event := if 0 < dir.length then [.stat dir] else []
    if 0 < dir.length && !env.dirOk then
      ⟨checkDir ++ [.send .client (lit "ERROR: Directory does not exist" 31)], env.fs⟩
    else
      let run := storeLocal env reads actual_path file_size
      ⟨checkDir ++ run.events, run.fs⟩

/-! ## S1: forwarding an upload -/

/-- The part of `transferFileToServer` after the size handshake: the relay loop
and the relay of the shard's final status. -/
def transferPayload (env : Env) (reads : List RecvResult) (file_size : Int) :
    List Event × Int :=
  let out := recvLoop file_size (shardSink env) reads 0 0
  match out.ending with
  | .recvFailed => (out.events, -1)
  | .sinkFailed => (out.events, -1)
  | .complete =>
    let r3 := nextRecv env.shardIn.tail.tail
    let e7 := out.events ++ [.recv .shard r3]
    if r3.ret ≤ 0 then
      (e7 ++ [.send .client (lit "ERROR: No status from target server" 35), .close .shard], -1)
    else
    let status := cstrOf r3.buf
    let e8 := e7 ++ [.send .client status]
    if !env.sendStatusOk then (e8 ++ [.close .shard], -1)
    else (e8 ++ [.close .shard], if strncmpEq status "SUCCESS".toList 7 then 0 else -1)

/-- The function `transferFileToServer` of `s1.c`, run on the `recv` results
`reads` that remain on the client connection: its calls and its return value. -/
def transferFileToServer (env : Env) (reads : List RecvResult) (dest_path : CStr)
    (server_port : Int) (file_size : Int) : List Event × Int :=
  if !env.socketOk then
    ([.socket, .send .client (lit "ERROR: Could not create socket" 29)], -1)
  else if !env.inetOk then
    ([.socket, .send .client (lit "ERROR: Invalid server address" 28), .close .shard], -1)
  else if !env.connectOk then
    ([.socket, .connect server_port,
      .send .client (lit "ERROR: Could not connect to target server" 40), .close .shard], -1)
  else
  let cmd := snprintf BUFFER_SIZE ("UPLOAD ".toList ++ dest_path)
  let e1 : List Event := [.socket, .connect server_port, .send .shard cmd]
  if !env.sendCmdOk then
    (e1 ++ [.send .client (lit "ERROR: Failed to send to target server" 38), .close .shard], -1)
  else
  let r1 := nextRecv env.shardIn
  let e2 := e1 ++ [.recv .shard r1]
  if r1.ret ≤ 0 || !strncmpEq (cstrOf r1.buf) "READY".toList 5 then
    (e2 ++ [.send .client (lit "ERROR: Target server not ready" 30), .close .shard], -1)
  else
  let e3 := e2 ++ [.send .shard (snprintf BUFFER_SIZE (ldTextInt file_size))]
  if !env.sendSizeOk then
    (e3 ++ [.send .client (lit "ERROR: Failed to send file size" 31), .close .shard], -1)
  else
  let r2 := nextRecv env.shardIn.tail
  let e4 := e3 ++ [.recv .shard r2]
  if r2.ret ≤ 0 || !strcmpEq (cstrOf r2.buf) "SIZE_ACK".toList then
    (e4 ++ [.send .client (lit "ERROR: Size acknowledgment failed" 33), .close .shard], -1)
  else
  let e5 := e4 ++ [.send .client (lit "SIZE_ACK" 8)]
  if !env.sendAckOk then (e5 ++ [.close .shard], -1)
  else
    let pay := transferPayload env reads file_size
    (e5 ++ pay.1, pay.2)

/-! ## S1: the `uploadf` command -/

/-- The parsed request: `Command` of `s1.c`. -/
structure Command where
  command : CStr
  arg1 : CStr
  arg2 : CStr
  deriving DecidableEq

/-- The file name `processClientCommand` takes from the client's path: the text
after the last slash when there is a slash with text after it, else the whole
path. -/
def uploadFilename (client_file : CStr) : CStr :=
  match strrchr client_file '/' with
  | some k =>
    if (client_file.drop (k + 1)).length ≠ 0 then
      snprintf MAX_PATH_LENGTH (client_file.drop (k + 1))
    else snprintf MAX_PATH_LENGTH client_file
  | none => snprintf MAX_PATH_LENGTH client_file

/-- The path `dest_path` that `processClientCommand` hands to
`transferFileToServer` for a file whose extension is `ext`. The source leaves
`dest_path` unset when `ext` is none of the three; that case is not reached,
since the port is then -1, and is given the empty path here. -/
def uploadDestPath (server_path filename ext : CStr) : CStr :=
  let offset := if strncmpEq server_path "~/S1".toList 3 then 4 else 3
  if strcmpEq ext "pdf".toList then
    snprintf MAX_PATH_LENGTH ("~/S2".toList ++ server_path.drop offset ++ '/' :: filename)
  else if strcmpEq ext "txt".toList then
    snprintf MAX_PATH_LENGTH ("~/S3".toList ++ server_path.drop offset ++ '/' :: filename)
  else if strcmpEq ext "zip".toList then
    snprintf MAX_PATH_LENGTH ("~/S4".toList ++ server_path.drop offset ++ '/' :: filename)
  else []

/-- The directory `actual_dir` that the `uploadf` branch creates for a server
path that passed its test. -/
def uploadActualDir (home server_path : CStr) : CStr :=
  if strncmpEq server_path "~/S1".toList 3 then
    snprintf MAX_PATH_LENGTH (home ++ server_path.drop 1)
  else snprintf MAX_PATH_LENGTH (home ++ '/' :: server_path.drop 2)

/-- The `uploadf` branch from the routing decision on, entered once the size
passed its test: forward to the owning shard, or acknowledge the size and store
locally. -/
def uploadTransfer (env : Env) (server_path filename : CStr) (file_size : Int) : Run :=
  let full_server_path := snprintf MAX_PATH_LENGTH (server_path ++ '/' :: filename)
  let ext := getFileExtension filename
  let server_port := getServerPort filename
  if server_port ≠ -1 then
    let dest_path := uploadDestPath server_path filename ext
    ⟨(transferFileToServer env env.clientIn.tail dest_path server_port file_size).1, env.fs⟩
  else if !env.sendAckOk then ⟨[.send .client (lit "SIZE_ACK" 8)], env.fs⟩
  else
    let run := handleUploadLocal env env.clientIn.tail full_server_path file_size
    ⟨.send .client (lit "SIZE_ACK" 8) :: run.events, run.fs⟩

/-- The reply to a size that is zero, negative or above `MAX_FILE_SIZE`. -/
def invalidSize : Event := .send .client (lit "ERROR: Invalid file size" 24)

/-- The `uploadf` branch of `processClientCommand` in `s1.c`. The source tests the
server path while it builds `actual_dir` (first `~/S1` on 3 characters, then `~S1`
on 2, else the error reply); here the error case is split off first. -/
def processUploadf (env : Env) (cmd : Command) : Run :=
  let client_file := snprintf MAX_PATH_LENGTH cmd.arg1
  let server_path := snprintf MAX_PATH_LENGTH cmd.arg2
  let filename := uploadFilename client_file
  if !(strncmpEq server_path "~/S1".toList 3 || strncmpEq server_path "~S1".toList 2) then
    ⟨[.send .client (lit "ERROR: Invalid path, must start with ~/S1 or ~S1" 47)], env.fs⟩
  else
  let actual_dir := uploadActualDir env.home server_path
  if !env.mkdirOk then
    ⟨[.mkdirs actual_dir, .send .client (lit "ERROR: Could not create directory" 33)], env.fs⟩
  else
  let e1 : List Event := [.mkdirs actual_dir, .send .client (lit "READY" 5)]
  if !env.sendReadyOk then ⟨e1, env.fs⟩
  else
  let r := nextRecv env.clientIn
  let e2 := e1 ++ [.recv .client r]
  if r.ret ≤ 0 then
    ⟨e2 ++ [.send .client (lit "ERROR: Could not receive file size" 33)], env.fs⟩
  else
  let file_size := atol (cstrOf r.buf)
  if file_size ≤ 0 || file_size > MAX_FILE_SIZE then ⟨e2 ++ [invalidSize], env.fs⟩
  else
    let run := uploadTransfer env server_path filename file_size
    ⟨e2 ++ run.events, run.fs⟩

/-! ## Shards: the `UPLOAD` command -/

/-- The three storage shards. -/
inductive Shard
  | s2
  | s3
  | s4
  deriving DecidableEq, Repr

/-- The shard's `PORT`. -/
def Shard.port : Shard → Int
  | .s2 => 8081
  | .s3 => 8082
  | .s4 => 8083

/-- The namespace marker a shard's handlers compare the path with. -/
def Shard.marker : Shard → CStr
  | .s2 => "~/S2".toList
  | .s3 => "~/S3".toList
  | .s4 => "~/S4".toList

/-- The extension a shard's `handleUpload` asks for. -/
def Shard.ext : Shard → CStr
  | .s2 => "pdf".toList
  | .s3 => "txt".toList
  | .s4 => "zip".toList

/-- The message of `handleUpload` for a path outside the shard's namespace. -/
def Shard.prefixError : Shard → String
  | .s2 => "ERROR: Path must start with ~/S2"
  | .s3 => "ERROR: Path must start with ~/S3"
  | .s4 => "ERROR: Path must start with ~/S4"

/-- The message of `handleUpload` for a file of another class. -/
def Shard.extError : Shard → String
  | .s2 => "ERROR: File must have .pdf extension"
  | .s3 => "ERROR: File must have .txt extension"
  | .s4 => "ERROR: File must have .zip extension"

/-- The part of a shard's `handleUpload` from the `fopen` on: `s2.c` and `s3.c`
ignore the results of `fwrite` and `fclose`, `s4.c` tests them as `s1.c` does. -/
def Shard.receiveFile (sh : Shard) (env : Env) (reads : List RecvResult)
    (actual_path : CStr) (file_size : Int) : Run :=
  if !env.fopenOk then
    let error_msg := snprintf BUFFER_SIZE
      ("ERROR: Could not create file at ".toList ++ actual_path ++ " (".toList
        ++ env.errText ++ ")".toList)
    ⟨[.fopen actual_path, .send .client error_msg], env.fs⟩
  else
  match sh with
  | .s4 =>
    let out := recvLoop file_size (checkedFileSink env actual_path 23) reads 0 0
    let pre := .fopen actual_path :: out.events
    match out.ending with
    | .recvFailed => ⟨pre, env.fs.set actual_path none⟩
    | .sinkFailed => ⟨pre, env.fs.set actual_path none⟩
    | .complete =>
      if !env.fcloseOk then
        if !env.fflushOk then
          ⟨pre ++ [.remove actual_path,
            .send .client (lit "ERROR: Could not finalize file" 30)],
            env.fs.set actual_path none⟩
        else
          ⟨pre ++ [.fclose, .remove actual_path,
            .send .client (lit "ERROR: Could not finalize file" 30)],
            env.fs.set actual_path none⟩
      else
        let fs := env.fs.set actual_path (some out.moved)
        if !fileExists fs actual_path then
          ⟨pre ++ [.fclose, .stat actual_path,
            .send .client (lit "ERROR: File creation failed" 27)], fs⟩
        else
          ⟨pre ++ [.fclose, .stat actual_path, .send .client (lit "SUCCESS" 7)], fs⟩
  | _ =>
    let out := recvLoop file_size (uncheckedFileSink env actual_path) reads 0 0
    let pre := .fopen actual_path :: out.events
    match out.ending with
    | .recvFailed => ⟨pre, env.fs.set actual_path none⟩
    | .sinkFailed => ⟨pre, env.fs.set actual_path none⟩
    | .complete =>
      ⟨pre ++ [.fclose, .send .client (lit "SUCCESS" 7)],
        env.fs.set actual_path (some out.moved)⟩

/-- The directory part `dir_path` of a path: the text before its last slash,
empty when it has no slash. -/
def dirPart (actual_path : CStr) : CStr :=
  match strrchr actual_path '/' with
  | some k => actual_path.take k
  | none => []

/-- The function `handleUpload` of `s2.c`, `s3.c` and `s4.c`. The result is `none`
when `sprintf` would write past the 1024 bytes of `actual_path`. -/
def Shard.handleUpload (sh : Shard) (env : Env) (path : CStr) : Option Run :=
  if !strncmpEq path sh.marker 4 then
    some ⟨[.send .client (lit sh.prefixError 32)], env.fs⟩
  else if !strcmpEq (getFileExtension path) sh.ext then
    some ⟨[.send .client (lit sh.extError 36)], env.fs⟩
  else
  let actual_path := env.home ++ path.drop 1
  if MAX_PATH_LENGTH ≤ actual_path.length then none
  else
  let dir_path := dirPart actual_path
  let e0 : List Event := if 0 < dir_path.length then [.mkdirs dir_path] else []
  if 0 < dir_path.length && !env.mkdirOk then
    let error_msg := snprintf BUFFER_SIZE
      ("ERROR: Could not create directory ".toList ++ dir_path ++ " (".toList
        ++ env.errText ++ ")".toList)
    some ⟨e0 ++ [.send .client error_msg], env.fs⟩
  else
  let r := nextRecv env.clientIn
  let e1 := e0 ++ [.send .client (lit "READY" 5), .recv .client r]
  if r.ret ≤ 0 then
    some ⟨e1 ++ [.send .client (lit "ERROR: Could not receive file size" 33)], env.fs⟩
  else
  let file_size := atol (cstrOf r.buf)
  if file_size ≤ 0 || file_size > MAX_FILE_SIZE then
    some ⟨e1 ++ [invalidSize], env.fs⟩
  else
  let e2 := e1 ++ [.send .client (lit "SIZE_ACK" 8)]
  let run := sh.receiveFile env env.clientIn.tail actual_path file_size
  some ⟨e2 ++ run.events, run.fs⟩

/-! ## S1: forwarding a download -/

/-- The relay loop of `forwardDownloadRequest`:
`while ((n = recv(sock, buffer, BUFFER_SIZE, 0)) > 0) { send(client_socket, ...) }`,
run on the remaining `recv` results of the shard connection; the Boolean tells
whether the loop ran to its end. -/
def relayLoop (env : Env) : List RecvResult → Nat → List Event × Bool
  | [], _ => ([.recv .shard (.data [])], true)
  | r :: rest, i =>
    if 0 < r.ret then
      if !env.sendChunkOk i then
        ([.recv .shard r, .send .client r.buf, .close .shard], false)
      else
        let out := relayLoop env rest (i + 1)
        (.recv .shard r :: .send .client r.buf :: out.1, out.2)
    else ([.recv .shard r], true)

/-- The function `forwardDownloadRequest` of `s1.c`. -/
def forwardDownloadRequest (env : Env) (path : CStr) (server_port : Int) : List Event :=
  if !env.socketOk then
    [.socket, .send .client (lit "ERROR: Could not create socket" 29)]
  else if !env.inetOk then
    [.socket, .send .client (lit "ERROR: Invalid server address" 28), .close .shard]
  else if !env.connectOk then
    [.socket, .connect server_port,
      .send .client (lit "ERROR: Could not connect to target server" 40), .close .shard]
  else
  let cmd := snprintf BUFFER_SIZE ("DOWNLOAD ".toList ++ path)
  let e1 : List Event := [.socket, .connect server_port, .send .shard cmd]
  if !env.sendCmdOk then
    e1 ++ [.send .client (lit "ERROR: Failed to send to target server" 38), .close .shard]
  else
  let r1 := nextRecv env.shardIn
  let e2 := e1 ++ [.recv .shard r1]
  if r1.ret ≤ 0 then
    e2 ++ [.send .client (lit "ERROR: Target server error" 26), .close .shard]
  else
  let reply := cstrOf r1.buf
  if strncmpEq reply "ERROR".toList 5 then
    e2 ++ [.send .client reply, .close .shard]
  else
  let e3 := e2 ++ [.send .client reply]
  if !env.sendSizeOk then e3 ++ [.close .shard]
  else
  let r2 := nextRecv env.clientIn
  let e4 := e3 ++ [.recv .client r2]
  if r2.ret ≤ 0 || !strcmpEq (cstrOf r2.buf) "SIZE_ACK".toList then e4 ++ [.close .shard]
  else
  let e5 := e4 ++ [.send .shard (lit "SIZE_ACK" 8)]
  if !env.sendAckOk then e5 ++ [.close .shard]
  else
  let out := relayLoop env env.shardIn.tail 0
  if !out.2 then e5 ++ out.1
  else e5 ++ out.1 ++ [.send .shard (lit "SUCCESS" 7), .close .shard]

/-! ## S1: the `downlf` command -/

/-- The path under which a download or removal is handed to the owning shard:
the block of `handleDownloadLocal` that rewrites `~/S1/rest` and `~S1/rest`
(the same block stands in `handleRemoveLocal` and in the `removef` branch). -/
def redirectPath (path ext : CStr) : Option CStr :=
  if strncmpEq path "~/S1/".toList 5 then
    let remaining_path := path.drop 5
    if strcmpEq ext "txt".toList then
      some (snprintf MAX_PATH_LENGTH ("~/S3/".toList ++ remaining_path))
    else if strcmpEq ext "pdf".toList then
      some (snprintf MAX_PATH_LENGTH ("~/S2/".toList ++ remaining_path))
    else if strcmpEq ext "zip".toList then
      some (snprintf MAX_PATH_LENGTH ("~/S4/".toList ++ remaining_path))
    else none
  else if strncmpEq path "~S1/".toList 4 then
    let remaining_path := path.drop 4
    if strcmpEq ext "txt".toList then
      some (snprintf MAX_PATH_LENGTH ("~S3/".toList ++ remaining_path))
    else if strcmpEq ext "pdf".toList then
      some (snprintf MAX_PATH_LENGTH ("~S2/".toList ++ remaining_path))
    else if strcmpEq ext "zip".toList then
      some (snprintf MAX_PATH_LENGTH ("~S4/".toList ++ remaining_path))
    else none
  else none

/-- The send loop of `handleDownloadLocal`:
`while ((n = fread(buffer, 1, BUFFER_SIZE, file)) > 0) { send(client_socket, ...) }`
on the unread rest of the file. Each turn with `n > 0` shortens the rest, so a
fuel above its length is never used up. -/
def freadLoop (env : Env) : Nat → List Char → Nat → List Event × LoopEnd
  | 0, _, _ => ([], .complete)
  | fuel + 1, unread, i =>
    if env.freadErrAt = some i then ([], .recvFailed)
    else
      let chunk := unread.take BUFFER_SIZE
      if chunk.length = 0 then ([], .complete)
      else if !env.sendChunkOk i then ([.send .client chunk, .fclose], .sinkFailed)
      else
        let out := freadLoop env fuel (unread.drop BUFFER_SIZE) (i + 1)
        (.send .client chunk :: out.1, out.2)

/-- The function `handleDownloadLocal` of `s1.c`. -/
def handleDownloadLocal (env : Env) (path : CStr) : List Event :=
  let filename : CStr :=
    match strrchr path '/' with
    | some k => (path.drop (k + 1)).take (MAX_PATH_LENGTH - 1)
    | none => path.take (MAX_PATH_LENGTH - 1)
  let ext := getFileExtension filename
  let server_port := getServerPort filename
  let redirect : Option CStr := if server_port ≠ -1 then redirectPath path ext else none
  match redirect with
  | some modified_path => forwardDownloadRequest env modified_path server_port
  | none =>
    let actual_path :=
      if strncmpEq path "~/S1/".toList 5 then
        snprintf MAX_PATH_LENGTH (env.home ++ path.drop 1)
      else if strncmpEq path "~S1/".toList 4 then
        snprintf MAX_PATH_LENGTH (env.home ++ '/' :: path.drop 2)
      else snprintf MAX_PATH_LENGTH path
    match env.fs actual_path with
    | none => [.stat actual_path, .send .client (lit "ERROR: File not found" 21)]
    | some content =>
      if !env.fopenOk then
        [.stat actual_path, .fopenRead actual_path,
          .send .client (lit "ERROR: Could not open file" 26)]
      else
      let e1 : List Event := [.stat actual_path, .fopenRead actual_path,
        .send .client (snprintf BUFFER_SIZE (ldText content.length))]
      if !env.sendSizeOk then e1 ++ [.fclose]
      else
      let r := nextRecv env.clientIn
      let e2 := e1 ++ [.recv .client r]
      if r.ret ≤ 0 || !strcmpEq (cstrOf r.buf) "SIZE_ACK".toList then e2 ++ [.fclose]
      else
      let out := freadLoop env (content.length + 1) content 0
      match out.2 with
      | .sinkFailed => e2 ++ out.1
      | .recvFailed => e2 ++ out.1 ++ [.fclose]
      | .complete =>
        e2 ++ out.1 ++ [.fclose, .recv .client (nextRecv env.clientIn.tail)]

/-! ## Observations on traces, used to state the properties -/

/-- The bound on what an upload loop moves: at most 1023 bytes above a positive
declared length, nothing for a declared length of zero or less. -/
def movedWithin (L : Int) (out : LoopOut) : Prop :=
  (0 < L → (out.moved.length : Int) ≤ L + 1023) ∧ (L ≤ 0 → out.moved = [])

/-- The calls of the loop turns that move the chunks `chunks` on: a `recv`
returning the chunk, then the sink's call with it. -/
def chunkEvents (sink : Sink) (chunks : List (List Char)) : List Event :=
  chunks.flatMap (fun c => [Event.recv .client (.data c), sink.call c])

/-- The bytes an event hands to `send` on the shard connection. -/
def Event.toShard : Event → Option (List Char)
  | .send .shard bs => some bs
  | _ => none

/-- The bytes an event receives from the client connection. -/
def Event.fromClient : Event → Option (List Char)
  | .recv .client r => some r.buf
  | _ => none

/-- All bytes handed to `send` on the shard connection, in order. -/
def shardBytes (evs : List Event) : List Char := (evs.filterMap Event.toShard).flatten

/-- All bytes received from the client connection, in order. -/
def clientBytes (evs : List Event) : List Char := (evs.filterMap Event.fromClient).flatten

/-- Whether some `recv` on the client connection returned zero or less. -/
def clientReadFailed (evs : List Event) : Prop :=
  ∃ r : RecvResult, Event.recv .client r ∈ evs ∧ r.ret ≤ 0

/-- A trace on which the client gets no SIZE_ACK and no `recv` is made on the
client connection. -/
def quietTowardsClient (tr : List Event) : Prop :=
  Event.send .client "SIZE_ACK".toList ∉ tr ∧ ∀ r : RecvResult, Event.recv .client r ∉ tr

/-- The test of `transferFileToServer` on the shard's first reply, as a
proposition: something was received and its text begins with READY. -/
def readyReply (r : RecvResult) : Prop :=
  0 < r.ret ∧ List.IsPrefix "READY".toList (cstrOf r.buf)

/-- The test of `transferFileToServer` on the shard's second reply, as a
proposition: something was received and its text is SIZE_ACK. -/
def sizeAckReply (r : RecvResult) : Prop :=
  0 < r.ret ∧ cstrOf r.buf = "SIZE_ACK".toList

/-- Whether an event opens a file for writing or writes to it. -/
def Event.writesFile : Event → Bool
  | .fopen _ => true
  | .fwrite _ => true
  | _ => false

/-- Whether no event of the trace opens a file for writing or writes to one. -/
def noFileWrite (evs : List Event) : Bool := evs.all (fun e => !e.writesFile)

/-- The directory of a shard namespace under the home directory. -/
def Shard.dirName : Shard → CStr
  | .s2 => "/S2".toList
  | .s3 => "/S3".toList
  | .s4 => "/S4".toList

/-- The bytes an event hands to `send` on the client connection. -/
def Event.toClient : Event → Option (List Char)
  | .send .client bs => some bs
  | _ => none

/-- All bytes handed to `send` on the client connection, in order. -/
def sentToClient (evs : List Event) : List Char := (evs.filterMap Event.toClient).flatten

/-- The bytes of the reads that come before the first read returning zero or
less. -/
def readsUntilClosed (reads : List RecvResult) : List Char :=
  ((reads.takeWhile (fun r => decide (0 < r.ret))).map RecvResult.buf).flatten

/-! ## S1: translating a path for a shard -/

/-- Index of the first occurrence of `needle` in `hay`, as `strstr` finds it. -/
def strstr : CStr → CStr → Option Nat
  | [], needle => if needle.isEmpty then some 0 else none
  | c :: cs, needle =>
    if needle.isPrefixOf (c :: cs) then some 0 else (strstr cs needle).map (fun k => k + 1)

/-- The function `modifyPathForServer` of `s1.c`: the content of `modified_path`
after the call, `modified_path` being its content before (no branch writes it
when the marker is not found). -/
def modifyPathForServer (home s1_path modified_path : CStr) (server_num : Int) : CStr :=
  if strncmpEq s1_path home home.length then
    match strstr s1_path "/S1/".toList with
    | some k =>
      snprintf MAX_PATH_LENGTH
        ("~/S".toList ++ ldTextInt server_num ++ '/' :: s1_path.drop (k + 4))
    | none => modified_path
  else if strncmpEq s1_path "~/S1/".toList 5 then
    snprintf MAX_PATH_LENGTH ("~/S".toList ++ ldTextInt server_num ++ '/' :: s1_path.drop 5)
  else if strncmpEq s1_path "~S1/".toList 4 then
    snprintf MAX_PATH_LENGTH ("~S".toList ++ ldTextInt server_num ++ '/' :: s1_path.drop 4)
  else
    match strstr s1_path "/S1/".toList with
    | some k =>
      snprintf MAX_PATH_LENGTH
        ("~/S".toList ++ ldTextInt server_num ++ '/' :: s1_path.drop (k + 4))
    | none => modified_path

/-- Modelled on the wording "replacing S<n> by S1": the text with the first
occurrence of `pat` replaced by `rep`. -/
def replaceFirst (pat rep : CStr) : CStr → CStr
  | [] => []
  | c :: cs =>
    if pat.isPrefixOf (c :: cs) then rep ++ (c :: cs).drop pat.length
    else c :: replaceFirst pat rep cs

/-! ## S1: the `removef` command -/

/-- The function `forwardRemoveRequest` of `s1.c`. -/
def forwardRemoveRequest (env : Env) (path : CStr) (server_port : Int) : List Event :=
  if !env.socketOk then
    [.socket, .send .client (lit "ERROR: Could not create socket" 29)]
  else if !env.inetOk then
    [.socket, .send .client (lit "ERROR: Invalid server address" 28), .close .shard]
  else if !env.connectOk then
    [.socket, .connect server_port,
      .send .client (lit "ERROR: Could not connect to target server" 40), .close .shard]
  else
  let cmd := snprintf BUFFER_SIZE ("REMOVE ".toList ++ path)
  let e1 : List Event := [.socket, .connect server_port, .send .shard cmd]
  if !env.sendCmdOk then
    e1 ++ [.send .client (lit "ERROR: Failed to send to target server" 38), .close .shard]
  else
  let r := nextRecv env.shardIn
  let e2 := e1 ++ [.recv .shard r]
  if r.ret ≤ 0 then
    e2 ++ [.send .client (lit "ERROR: Target server error" 26), .close .shard]
  else e2 ++ [.send .client (cstrOf r.buf), .close .shard]

/-- The file name the `downlf` and `removef` handlers take from a path: the text
after its last slash, the whole path when it has none, cut to
`MAX_PATH_LENGTH - 1` bytes by `strncpy`. -/
def pathFilename (path : CStr) : CStr :=
  match strrchr path '/' with
  | some k => (path.drop (k + 1)).take (MAX_PATH_LENGTH - 1)
  | none => path.take (MAX_PATH_LENGTH - 1)

/-- The `removef` branch of `processClientCommand` in `s1.c`. -/
def processRemovef (env : Env) (cmd : Command) : Run :=
  let path := cmd.arg1.take (MAX_PATH_LENGTH - 1)
  let filename := pathFilename path
  let ext := getFileExtension filename
  let server_port := getServerPort filename
  let redirect : Option CStr := if server_port ≠ -1 then redirectPath path ext else none
  match redirect with
  | some modified_path => ⟨forwardRemoveRequest env modified_path server_port, env.fs⟩
  | none =>
    let actual_path :=
      if strncmpEq path "~/".toList 2 then snprintf MAX_PATH_LENGTH (env.home ++ path.drop 1)
      else if path.head? = some '~' then
        snprintf MAX_PATH_LENGTH (env.home ++ '/' :: path.drop 1)
      else snprintf MAX_PATH_LENGTH path
    if !fileExists env.fs actual_path then
      ⟨[.stat actual_path, .send .client (lit "ERROR: File not found" 21)], env.fs⟩
    else if env.removeOk then
      ⟨[.stat actual_path, .remove actual_path, .send .client (lit "SUCCESS" 7)],
        env.fs.set actual_path none⟩
    else
      ⟨[.stat actual_path, .remove actual_path,
        .send .client (lit "ERROR: Failed to remove file" 28)], env.fs⟩

/-! ## Observations on forwarding -/

/-- Whether an event is a call on a connection to a shard. -/
def Event.contactsShard : Event → Bool
  | .socket => true
  | .connect _ => true
  | .send .shard _ => true
  | .recv .shard _ => true
  | _ => false

/-- Whether no event of the trace is a call on a connection to a shard. -/
def noShardContact (evs : List Event) : Bool := evs.all (fun e => !e.contactsShard)

/-! ## S1 and the shards: listing a directory -/

/-- The sign of the result of `strcmp`: 0 for equal strings, else -1 or 1 as the
first byte that differs is smaller or greater in the first string (a string
that has ended is the smaller one). -/
def strcmp : CStr → CStr → Int
  | [], [] => 0
  | [], _ :: _ => -1
  | _ :: _, [] => 1
  | a :: as, b :: bs => if a = b then strcmp as bs else if a < b then -1 else 1

/-- The pieces of a text between the occurrences of `delim`, empty pieces
included. -/
def splitRuns (delim : Char) : CStr → List CStr
  | [] => [[]]
  | c :: cs =>
    if c = delim then [] :: splitRuns delim cs
    else
      match splitRuns delim cs with
      | [] => [[c]]
      | t :: ts => (c :: t) :: ts

/-- The tokens the loop `strtok(s, delim)`, `strtok(NULL, delim)`, ... yields for a
one-character delimiter: the non-empty pieces between delimiters, in order. -/
def strtokAll (delim : Char) (s : CStr) : List CStr :=
  (splitRuns delim s).filter (fun t => !t.isEmpty)

/-- The test `strstr(name, marker) != NULL`. -/
def containsMarker (marker : String) (name : CStr) : Bool := (strstr name marker.toList).isSome

/-- The inner loop `for (j = i + 1; j < file_count; j++) if (test(a[i], a[j])) swap`
of the listing sorts, on the entry `x` at position `i` and the entries after it:
the entry left at position `i` and the entries after it. -/
def exchangeMin (test : CStr → CStr → Bool) (x : CStr) : List CStr → CStr × List CStr
  | [] => (x, [])
  | y :: ys =>
    if test x y then
      let r := exchangeMin test y ys
      (r.1, x :: r.2)
    else
      let r := exchangeMin test x ys
      (r.1, y :: r.2)

/-- The outer loop `for (i = 0; i < file_count; i++)` of the listing sorts with
`n` turns left, on the entries from position `i` on (a turn no longer touches
the positions before `i`). -/
def exchangeSort (test : CStr → CStr → Bool) : Nat → List CStr → List CStr
  | 0, a => a
  | _ + 1, [] => []
  | n + 1, x :: xs =>
    let r := exchangeMin test x xs
    r.1 :: exchangeSort test n r.2

/-- The swap test of `handleListLocal`: same extension and out of order. -/
def listSwapTest (x y : CStr) : Bool :=
  strcmpEq (getFileExtension x) (getFileExtension y) && decide (0 < strcmp x y)

/-- The swap test of a shard's `handleList`: out of order. -/
def shardSwapTest (x y : CStr) : Bool := decide (0 < strcmp x y)

/-- One step of the display loops of `handleListLocal`: a newline when the
response is not empty, then the name. -/
def appendName (response name : CStr) : CStr :=
  (if 0 < response.length then response ++ ['\n'] else response) ++ name

/-- One display loop of `handleListLocal`: every entry that contains the marker is
added to the response. -/
def emitPass (marker : String) (all_files : List CStr) (response : CStr) : CStr :=
  all_files.foldl (fun resp f => if containsMarker marker f then appendName resp f else resp)
    response

/-- The sort and the four display loops of `handleListLocal` on the gathered
names: the response text. -/
def listingOf (all_files : List CStr) : CStr :=
  let sorted := exchangeSort listSwapTest all_files.length all_files
  emitPass ".zip" sorted (emitPass ".txt" sorted (emitPass ".pdf" sorted
    (emitPass ".c" sorted [])))

/-- The answers of one shard to a `LIST` request of S1. -/
structure ShardLink where
  /-- whether `socket` returned a descriptor -/
  socketOk : Bool := true
  /-- whether `inet_pton` accepted the address -/
  inetOk : Bool := true
  /-- whether `connect` succeeded -/
  connectOk : Bool := true
  /-- the `send` of the command line did not fail -/
  sendCmdOk : Bool := true
  /-- result of the `recv` of the shard's reply -/
  reply : RecvResult := .data []

/-- The answers of the outside world to one `dispfnames` command. -/
structure ListEnv where
  /-- value of `getenv("HOME")` -/
  home : CStr
  /-- whether `stat` finds a directory at the path -/
  isDir : Bool := true
  /-- the names `readdir` returns, in its order; `none` when `opendir` fails -/
  entries : Option (List CStr) := some []
  /-- the connection to S2 -/
  s2 : ShardLink := {}
  /-- the connection to S3 -/
  s3 : ShardLink := {}
  /-- the connection to S4 -/
  s4 : ShardLink := {}

/-- The function `forwardListRequest` of `s1.c`: its calls and the content of
`response` after it. -/
def forwardListRequest (link : ShardLink) (path : CStr) (server_port : Int)
    (response : CStr) (response_size : Nat) : List Event × CStr :=
  if !link.socketOk then ([.socket], response)
  else if !link.inetOk then ([.socket, .close .shard], response)
  else if !link.connectOk then ([.socket, .connect server_port, .close .shard], response)
  else
  let cmd := snprintf BUFFER_SIZE ("LIST ".toList ++ path)
  let e1 : List Event := [.socket, .connect server_port, .send .shard cmd]
  if !link.sendCmdOk then (e1 ++ [.close .shard], response)
  else
  let r := link.reply
  let e2 := e1 ++ [.recv .shard r, .close .shard]
  if r.ret ≤ 0 then (e2, response)
  else
  let buffer := cstrOf r.buf
  if strncmpEq buffer "ERROR".toList 5 then (e2, response)
  else if 0 < buffer.length then
    let response1 := response ++ buffer.take (response_size - response.length - 1)
    if response1.length < response_size - 1 then (e2, response1 ++ ['\n'])
    else (e2, response1)
  else (e2, response)

/-- The names `handleListLocal` takes from a shard's answer `temp_response`: the
tokens between newlines that contain the marker. -/
def namesFrom (marker : String) (temp_response : CStr) : List CStr :=
  if 0 < temp_response.length then
    (strtokAll '\n' temp_response).filter (containsMarker marker)
  else []

/-- The directory `handleListLocal` lists on S1. -/
def listActualPath (home path : CStr) : CStr :=
  if strncmpEq path "~/S1".toList 3 then snprintf MAX_PATH_LENGTH (home ++ path.drop 1)
  else if strncmpEq path "~S1".toList 2 then
    snprintf MAX_PATH_LENGTH (home ++ '/' :: path.drop 2)
  else snprintf MAX_PATH_LENGTH path

/-- The names `handleListLocal` takes from the local directory. -/
def localNames (env : ListEnv) : List CStr :=
  if env.isDir then
    match env.entries with
    | some ents => ents.filter (containsMarker ".c")
    | none => []
  else []

/-- What a `dispfnames` command did: its calls in order and the names gathered
in `all_files` before the sort. -/
structure ListRun where
  events : List Event
  gathered : List CStr
  deriving DecidableEq

/-- The function `handleListLocal` of `s1.c`. The result is `none` when more than
the 1000 names of `all_files` are gathered or the response outgrows its
`BUFFER_SIZE * 10` bytes. -/
def handleListLocal (env : ListEnv) (path : CStr) : Option ListRun :=
  let actual_path := listActualPath env.home path
  let s2_path := modifyPathForServer env.home path [] 2
  let s3_path := modifyPathForServer env.home path [] 3
  let s4_path := modifyPathForServer env.home path [] 4
  let files1 := localNames env
  let out2 := forwardListRequest env.s2 s2_path S2_PORT [] (BUFFER_SIZE * 10)
  let files2 := namesFrom ".pdf" out2.2
  let out3 := forwardListRequest env.s3 s3_path S3_PORT [] (BUFFER_SIZE * 10)
  let files3 := namesFrom ".txt" out3.2
  let out4 := forwardListRequest env.s4 s4_path S4_PORT [] (BUFFER_SIZE * 10)
  let files4 := namesFrom ".zip" out4.2
  let all_files := files1 ++ files2 ++ files3 ++ files4
  if 1000 < all_files.length then none
  else
  let response := listingOf all_files
  if BUFFER_SIZE * 10 ≤ response.length then none
  else
    some ⟨[.stat actual_path] ++ out2.1 ++ out3.1 ++ out4.1 ++ [.send .client response],
      all_files⟩

/-- The `dispfnames` branch of `processClientCommand` in `s1.c`. -/
def processDispfnames (env : ListEnv) (cmd : Command) : Option ListRun :=
  handleListLocal env (snprintf MAX_PATH_LENGTH cmd.arg1)

/-- The number `handleListLocal` passes to `modifyPathForServer` for a shard. -/
def Shard.number : Shard → Int
  | .s2 => 2
  | .s3 => 3
  | .s4 => 4

/-- The marker a shard's `handleList` looks for in a name. -/
def Shard.listMarker : Shard → String
  | .s2 => ".pdf"
  | .s3 => ".txt"
  | .s4 => ".zip"

/-- The response a shard's `handleList` builds: the names, a newline between
two of them. -/
def joinLines : List CStr → CStr
  | [] => []
  | [f] => f
  | f :: g :: fs => f ++ '\n' :: joinLines (g :: fs)

/-- The function `handleList` of `s2.c`, `s3.c` and `s4.c`, on a directory for
which `stat` answers `isDir` and `readdir` returns `entries` (`none`: `opendir`
fails). The result is `none` when `sprintf` would write past `actual_path` or
the names outgrow the response. -/
def Shard.handleList (sh : Shard) (home : CStr) (isDir : Bool)
    (entries : Option (List CStr)) (path : CStr) : Option (List Event) :=
  if !strncmpEq path sh.marker 4 then some [.send .client (lit sh.prefixError 32)]
  else
  let actual_path := home ++ path.drop 1
  if MAX_PATH_LENGTH ≤ actual_path.length then none
  else if !isDir then some [.stat actual_path, .send .client []]
  else
    match entries with
    | none => some [.stat actual_path, .send .client []]
    | some ents =>
      let files := ents.filter (containsMarker sh.listMarker)
      let sorted := exchangeSort shardSwapTest files.length files
      let response := joinLines sorted
      if BUFFER_SIZE * 10 ≤ response.length then none
      else some [.stat actual_path, .send .client response]

/-! ## Observations on listings -/

/-- Names of equal extension stand in ascending order. -/
def ClassSorted (l : List CStr) : Prop :=
  l.Pairwise (fun a b => getFileExtension a = getFileExtension b → strcmp a b ≤ 0)

/-- The names the four display loops of `handleListLocal` emit, in order. -/
def listedNames (all_files : List CStr) : List CStr :=
  let sorted := exchangeSort listSwapTest all_files.length all_files
  sorted.filter (containsMarker ".c") ++ sorted.filter (containsMarker ".pdf") ++
    sorted.filter (containsMarker ".txt") ++ sorted.filter (containsMarker ".zip")

/-- The sorted names whose extension is `ext`. -/
def classNames (ext : String) (all_files : List CStr) : List CStr :=
  (exchangeSort listSwapTest all_files.length all_files).filter
    (fun n => strcmpEq (getFileExtension n) ext.toList)

/-- Whether a name contains, of the four markers, the one of its own extension
and no other. -/
def ownMarkerOnly (n : CStr) : Bool :=
  (containsMarker ".c" n == strcmpEq (getFileExtension n) "c".toList) &&
  (containsMarker ".pdf" n == strcmpEq (getFileExtension n) "pdf".toList) &&
  (containsMarker ".txt" n == strcmpEq (getFileExtension n) "txt".toList) &&
  (containsMarker ".zip" n == strcmpEq (getFileExtension n) "zip".toList)

/-- Whether the extension of a name is one of the four listed classes. -/
def listedClass (n : CStr) : Bool :=
  strcmpEq (getFileExtension n) "c".toList || strcmpEq (getFileExtension n) "pdf".toList ||
  strcmpEq (getFileExtension n) "txt".toList || strcmpEq (getFileExtension n) "zip".toList

/-! ## S1: the `downltar` command -/

/-- The part of `forwardTarRequest` after SIZE_ACK was handed on to the shard: the
relay loop, then the relay of the client's SUCCESS. -/
def tarPayload (env : Env) : List Event :=
  let out := relayLoop env env.shardIn.tail 0
  if !out.2 then out.1
  else
  let r3 := nextRecv env.clientIn.tail
  if 0 < r3.ret && strcmpEq (cstrOf r3.buf) "SUCCESS".toList then
    out.1 ++ [.recv .client r3, .send .shard (lit "SUCCESS" 7), .close .shard]
  else out.1 ++ [.recv .client r3, .close .shard]

/-- The part of `forwardTarRequest` after the shard's first reply `reply` was
received: the relay of an error or of the size, the client's SIZE_ACK and the
payload. -/
def tarSizeExchange (env : Env) (reply : CStr) : List Event :=
  if strncmpEq reply "ERROR".toList 5 then [.send .client reply, .close .shard]
  else if !env.sendSizeOk then [.send .client reply, .close .shard]
  else
  let r2 := nextRecv env.clientIn
  if r2.ret ≤ 0 || !strcmpEq (cstrOf r2.buf) "SIZE_ACK".toList then
    [.send .client reply, .recv .client r2, .close .shard]
  else if !env.sendAckOk then
    [.send .client reply, .recv .client r2, .send .shard (lit "SIZE_ACK" 8), .close .shard]
  else
    [.send .client reply, .recv .client r2, .send .shard (lit "SIZE_ACK" 8)] ++ tarPayload env

/-- The function `forwardTarRequest` of `s1.c`. -/
def forwardTarRequest (env : Env) (filetype : CStr) (server_port : Int) : List Event :=
  if !env.socketOk then
    [.socket, .send .client (lit "ERROR: Could not create socket" 29)]
  else if !env.inetOk then
    [.socket, .send .client (lit "ERROR: Invalid server address" 28), .close .shard]
  else if !env.connectOk then
    [.socket, .connect server_port,
      .send .client (lit "ERROR: Could not connect to target server" 40), .close .shard]
  else
  let cmd := snprintf BUFFER_SIZE ("TAR ".toList ++ filetype)
  let e1 : List Event := [.socket, .connect server_port, .send .shard cmd]
  if !env.sendCmdOk then
    e1 ++ [.send .client (lit "ERROR: Failed to send to target server" 38), .close .shard]
  else
  let r1 := nextRecv env.shardIn
  if r1.ret ≤ 0 then
    e1 ++ [.recv .shard r1, .send .client (lit "ERROR: Target server error" 26), .close .shard]
  else e1 ++ .recv .shard r1 :: tarSizeExchange env (cstrOf r1.buf)

/-- The archive path `tar_path` of `handleTarLocal`. -/
def tarPath : CStr := snprintf MAX_PATH_LENGTH "/tmp/c_files.tar".toList

/-- The shell command `tar_command` of `handleTarLocal`. -/
def tarCommand (home : CStr) : CStr :=
  snprintf (MAX_PATH_LENGTH * 2)
    ("find ".toList ++ home ++ "/S1 -name \"*.c\" -type f | tar -cf ".toList ++ tarPath ++
      " -T -".toList)

/-- The function `handleTarLocal` of `s1.c`, which `processClientCommand` calls with
the first argument of a `downltar` request. -/
def handleTarLocal (env : Env) (filetype : CStr) : List Event :=
  if strcmpEq filetype "c".toList then
    let e0 : List Event := [.system (tarCommand env.home)]
    if env.systemRet ≠ 0 then
      e0 ++ [.send .client (lit "ERROR: Failed to create tar file" 32)]
    else
    match env.tarOut with
    | none => e0 ++ [.stat tarPath, .send .client (lit "ERROR: Failed to create tar file" 32)]
    | some content =>
      let e1 := e0 ++ [.stat tarPath, .fopenRead tarPath]
      if !env.fopenOk then e1 ++ [.send .client (lit "ERROR: Could not open tar file" 30)]
      else
      let e2 := e1 ++ [.send .client (snprintf BUFFER_SIZE (ldText content.length))]
      if !env.sendSizeOk then e2 ++ [.fclose, .remove tarPath]
      else
      let r := nextRecv env.clientIn
      let e3 := e2 ++ [.recv .client r]
      if r.ret ≤ 0 || !strcmpEq (cstrOf r.buf) "SIZE_ACK".toList then
        e3 ++ [.fclose, .remove tarPath,
          .send .client (lit "ERROR: Size acknowledgment failed" 33)]
      else
      let out := freadLoop env (content.length + 1) content 0
      match out.2 with
      | .sinkFailed =>
        e3 ++ out.1 ++ [.remove tarPath, .send .client (lit "ERROR: Failed to send file" 26)]
      | .recvFailed =>
        e3 ++ out.1 ++ [.fclose, .remove tarPath,
          .send .client (lit "ERROR: File read error" 23)]
      | .complete =>
        e3 ++ out.1 ++ [.fclose, .remove tarPath,
          .recv .client (nextRecv env.clientIn.tail)]
  else if strcmpEq filetype "txt".toList then forwardTarRequest env filetype S3_PORT
  else if strcmpEq filetype "pdf".toList then forwardTarRequest env filetype S2_PORT
  else if strcmpEq filetype "zip".toList then
    [.send .client (lit "ERROR: ZIP file archiving not supported" 38)]
  else [.send .client (lit "ERROR: Only .c, .txt, and .pdf file types are supported" 54)]

/-! ## Shards: the `REMOVE` and `DOWNLOAD` commands -/

/-- The number of characters a shard's `handleRemove` compares with its marker:
4 in `s2.c` and `s4.c`, 3 in `s3.c`. -/
def Shard.removePrefixLen : Shard → Nat
  | .s2 => 4
  | .s3 => 3
  | .s4 => 4

/-- The function `handleRemove` of `s2.c`, `s3.c` and `s4.c`. The result is `none`
when `sprintf` would write past the 1024 bytes of `actual_path`. -/
def Shard.handleRemove (sh : Shard) (env : Env) (path : CStr) : Option Run :=
  if !strncmpEq path sh.marker sh.removePrefixLen then
    some ⟨[.send .client (lit sh.prefixError 32)], env.fs⟩
  else
  let actual_path := env.home ++ path.drop 1
  if MAX_PATH_LENGTH ≤ actual_path.length then none
  else if !fileExists env.fs actual_path then
    some ⟨[.stat actual_path, .send .client (lit "ERROR: File not found" 21)], env.fs⟩
  else if env.removeOk then
    some ⟨[.stat actual_path, .remove actual_path, .send .client (lit "SUCCESS" 7)],
      env.fs.set actual_path none⟩
  else
    some ⟨[.stat actual_path, .remove actual_path,
      .send .client (lit "ERROR: Failed to remove file" 28)], env.fs⟩

/-- The message of `handleDownload` for a path outside the shard's namespace. -/
def Shard.downloadPrefixError : Shard → String
  | .s2 => "ERROR: Path must start with ~/S2/"
  | .s3 => "ERROR: Path must start with ~/S3/"
  | .s4 => "ERROR: Path must start with ~/S4/"

/-- The path test of a shard's `handleDownload`: the marker, then a slash or the
end of the path. -/
def Shard.downloadPathOk (sh : Shard) (path : CStr) : Bool :=
  strncmpEq path sh.marker 4 && (path.get? 4 == some '/' || path.get? 4 == none)

/-- The function `handleDownload` of `s2.c`, `s3.c` and `s4.c`. The result is
`none` when `sprintf` would write past the 1024 bytes of `actual_path`. -/
def Shard.handleDownload (sh : Shard) (env : Env) (path : CStr) : Option (List Event) :=
  if !sh.downloadPathOk path then some [.send .client (lit sh.downloadPrefixError 32)]
  else
  let actual_path := env.home ++ path.drop 1
  if MAX_PATH_LENGTH ≤ actual_path.length then none
  else
  match env.fs actual_path with
  | none => some [.stat actual_path, .send .client (lit "ERROR: File not found" 21)]
  | some content =>
    if !env.fopenOk then
      some [.stat actual_path, .fopenRead actual_path,
        .send .client (lit "ERROR: Could not open file" 26)]
    else
    let r := nextRecv env.clientIn
    let e1 : List Event := [.stat actual_path, .fopenRead actual_path,
      .send .client (ldText content.length), .recv .client r]
    if r.ret ≤ 0 || !strcmpEq (cstrOf r.buf) "SIZE_ACK".toList then
      some (e1 ++ [.fclose, .send .client (lit "ERROR: Size acknowledgment failed" 33)])
    else
    let out := freadLoop env (content.length + 1) content 0
    match out.2 with
    | .sinkFailed => some (e1 ++ out.1 ++ [.send .client (lit "ERROR: Failed to send file" 26)])
    | _ => some (e1 ++ out.1 ++ [.fclose, .recv .client (nextRecv env.clientIn.tail)])

/-! ## S1: parsing the request -/

/-- One call of `strtok` with the delimiters `delims` on the text not yet scanned:
the token found and the text left after it, `none` when no token is left. -/
def strtok (delims : List Char) (s : CStr) : Option (CStr × CStr) :=
  let s1 := s.dropWhile (fun c => delims.contains c)
  if s1.isEmpty then none
  else
    some (s1.takeWhile (fun c => !delims.contains c),
      (s1.dropWhile (fun c => !delims.contains c)).drop 1)

/-- The function `parseCommand` of `s1.c`. -/
def parseCommand (input : CStr) : Command :=
  match strtok " \n".toList input with
  | none => ⟨[], [], []⟩
  | some (t1, r1) =>
    match strtok " \n".toList r1 with
    | none => ⟨t1.take 19, [], []⟩
    | some (t2, r2) =>
      match strtok " \n".toList r2 with
      | none => ⟨t1.take 19, t2.take (MAX_PATH_LENGTH - 1), []⟩
      | some (t3, _) =>
        ⟨t1.take 19, t2.take (MAX_PATH_LENGTH - 1), t3.take (MAX_PATH_LENGTH - 1)⟩

/-- Modelled on the wording "a token being a maximal run of characters other than
space and newline": the pieces of the text between separators, empty pieces
included. -/
def runsBetween (isSep : Char → Bool) : CStr → List CStr
  | [] => [[]]
  | c :: cs =>
    if isSep c then [] :: runsBetween isSep cs
    else
      match runsBetween isSep cs with
      | [] => [[c]]
      | t :: ts => (c :: t) :: ts

/-- Modelled on the wording of the claim: the tokens of a line, its maximal
non-empty runs of characters other than space and newline. -/
def lineTokens (input : CStr) : List CStr :=
  (runsBetween (fun c => c == ' ' || c == '\n') input).filter (fun t => !t.isEmpty)

/-! ## Observations on archive requests, closed connections and error replies -/

/-- The ports of the `connect` calls of a trace, in order. -/
def connectPorts (evs : List Event) : List Int :=
  evs.filterMap (fun e => match e with
    | .connect p => some p
    | _ => none)

/-- The commands run with `system` in a trace, in order. -/
def systemCalls (evs : List Event) : List CStr :=
  evs.filterMap (fun e => match e with
    | .system c => some c
    | _ => none)

/-- The fixed error messages `s1.c` sends to the requester, each with the byte
count it passes to `send`. -/
def s1FixedErrors : List (String × Nat) := [
  ("ERROR: Could not create socket", 29),
  ("ERROR: Invalid server address", 28),
  ("ERROR: Could not connect to target server", 40),
  ("ERROR: Failed to send to target server", 38),
  ("ERROR: Target server not ready", 30),
  ("ERROR: Failed to send file size", 31),
  ("ERROR: Size acknowledgment failed", 33),
  ("ERROR: File transfer error", 26),
  ("ERROR: No status from target server", 35),
  ("ERROR: Directory does not exist", 31),
  ("ERROR: Invalid file path", 24),
  ("ERROR: File receive error", 25),
  ("ERROR: File write error", 24),
  ("ERROR: Could not finalize file", 31),
  ("ERROR: File creation failed", 28),
  ("ERROR: Target server error", 26),
  ("ERROR: File not found", 21),
  ("ERROR: Could not open file", 26),
  ("ERROR: Failed to remove file", 28),
  ("ERROR: Failed to create tar file", 32),
  ("ERROR: Could not open tar file", 30),
  ("ERROR: Failed to send file", 26),
  ("ERROR: File read error", 23),
  ("ERROR: ZIP file archiving not supported", 38),
  ("ERROR: Only .c, .txt, and .pdf file types are supported", 54),
  ("ERROR: Invalid path, must start with ~/S1 or ~S1", 47),
  ("ERROR: Could not create directory", 33),
  ("ERROR: Could not receive file size", 33),
  ("ERROR: Invalid file size", 24),
  ("ERROR: Unknown command", 22)]

/-- Whether the last call of a trace is the `close` of the shard connection. -/
def closesShard (evs : List Event) : Prop := evs.getLast? = some (Event.close .shard)

/-- Whether some message handed to `send` on the client connection begins with
the marker "ERROR: ". -/
def errorReported (evs : List Event) : Bool :=
  evs.any (fun e =>
    match e.toClient with
    | some bs => "ERROR: ".toList.isPrefixOf bs
    | none => false)

/-- The shard leg of a forwarding function fails before the shard has answered:
`socket`, `inet_pton`, `connect` or the `send` of the command fails, or the
first `recv` returns zero or less. -/
def shardLegFails (env : Env) : Prop :=
  ¬ (env.socketOk = true ∧ env.inetOk = true ∧ env.connectOk = true ∧
    env.sendCmdOk = true ∧ 0 < (nextRecv env.shardIn).ret)

/-- An `uploadf` request fails before the transfer: the server path is rejected,
the directory cannot be created, or, READY having been sent, no size arrives or
the size does not pass the test. -/
def uploadRefused (env : Env) (cmd : Command) : Prop :=
  (strncmpEq (snprintf MAX_PATH_LENGTH cmd.arg2) "~/S1".toList 3 = false ∧
    strncmpEq (snprintf MAX_PATH_LENGTH cmd.arg2) "~S1".toList 2 = false) ∨
  env.mkdirOk = false ∨
  (env.sendReadyOk = true ∧
    ((nextRecv env.clientIn).ret ≤ 0 ∨ atol (cstrOf (nextRecv env.clientIn).buf) ≤ 0 ∨
      MAX_FILE_SIZE < atol (cstrOf (nextRecv env.clientIn).buf)))

/-- A `downltar` request fails before the archive is sent: the class is none of c,
txt and pdf, or, for the class c, `system` fails, leaves no archive, or the
archive cannot be opened. -/
def archiveRefused (env : Env) (filetype : CStr) : Prop :=
  (filetype ≠ "c".toList ∧ filetype ≠ "txt".toList ∧ filetype ≠ "pdf".toList) ∨
  (filetype = "c".toList ∧ (env.systemRet ≠ 0 ∨ env.tarOut = none ∨ env.fopenOk = false))

/-! ## S1: the dispatch of a request -/

/-- Whether `bs` was handed to `send` on the client connection. -/
def sentClient (evs : List Event) (bs : List Char) : Bool :=
  decide (Event.send .client bs ∈ evs)

/-- Whether `bs` was handed to `send` on the shard connection. -/
def sentShard (evs : List Event) (bs : List Char) : Bool :=
  decide (Event.send .shard bs ∈ evs)

/-- The shard's reply `r` was handed on to the requester and is not an error
message: something was received, its text does not begin with "ERROR: ", and
that text was handed to `send` on the client connection. -/
def relayedNonError (evs : List Event) (r : RecvResult) : Bool :=
  decide (0 < r.ret) && !("ERROR: ".toList.isPrefixOf (cstrOf r.buf)) &&
    sentClient evs (cstrOf r.buf)

theorem strrchr_eq_none {s : CStr} {c : Char} (h : c ∉ s) : strrchr s c = none := by
  induction s with
  | nil => rfl
  | cons x xs ih =>
    have hx : ¬ x = c := fun e => h (by simp [e])
    have hxs : c ∉ xs := fun m => h (List.mem_cons_of_mem _ m)
    simp [strrchr, ih hxs, hx]

theorem strrchr_append_cons (pre suf : CStr) (c : Char) (h : c ∉ suf) :
    strrchr (pre ++ c :: suf) c = some pre.length := by
  induction pre with
  | nil => simp [strrchr, strrchr_eq_none h]
  | cons x xs ih => simp [strrchr, ih]

theorem textAfterLastDot_append (pre suf : CStr) (h : '.' ∉ suf) :
    textAfterLastDot (pre ++ '.' :: suf) = suf := by
  simp [textAfterLastDot, strrchr_append_cons pre suf '.' h]

theorem getFileExtension_append (pre suf : CStr) (h : '.' ∉ suf) (hpre : pre ≠ []) :
    getFileExtension (pre ++ '.' :: suf) = suf := by
  cases pre with
  | nil => exact absurd rfl hpre
  | cons x xs =>
    have := strrchr_append_cons (x :: xs) suf '.' h
    simp only [List.length_cons, List.cons_append] at this
    simp [getFileExtension, this]

/-! ## C1, C2: the routing resolver -/

/-- C1: `getServerPort` gives 8081 exactly for the extension "pdf", 8082 exactly
for "txt", 8083 exactly for "zip" and -1 for every other extension, the empty one
included; two file names with the same extension get the same port. -/
theorem getServerPort_by_extension (f g : CStr) :
    (getServerPort f = 8081 ↔ getFileExtension f = "pdf".toList) ∧
    (getServerPort f = 8082 ↔ getFileExtension f = "txt".toList) ∧
    (getServerPort f = 8083 ↔ getFileExtension f = "zip".toList) ∧
    (getServerPort f = -1 ↔ (getFileExtension f ≠ "pdf".toList ∧
      getFileExtension f ≠ "txt".toList ∧ getFileExtension f ≠ "zip".toList)) ∧
    (getFileExtension f = [] → getServerPort f = -1) ∧
    (getFileExtension f = getFileExtension g → getServerPort f = getServerPort g) := by
  have key : ∀ e : CStr,
      ((if strcmpEq e "pdf".toList then S2_PORT
        else if strcmpEq e "txt".toList then S3_PORT
        else if strcmpEq e "zip".toList then S4_PORT else -1) = 8081 ↔ e = "pdf".toList) ∧
      ((if strcmpEq e "pdf".toList then S2_PORT
        else if strcmpEq e "txt".toList then S3_PORT
        else if strcmpEq e "zip".toList then S4_PORT else -1) = 8082 ↔ e = "txt".toList) ∧
      ((if strcmpEq e "pdf".toList then S2_PORT
        else if strcmpEq e "txt".toList then S3_PORT
        else if strcmpEq e "zip".toList then S4_PORT else -1) = 8083 ↔ e = "zip".toList) ∧
      ((if strcmpEq e "pdf".toList then S2_PORT
        else if strcmpEq e "txt".toList then S3_PORT
        else if strcmpEq e "zip".toList then S4_PORT else -1) = -1 ↔
          (e ≠ "pdf".toList ∧ e ≠ "txt".toList ∧ e ≠ "zip".toList)) := by
    intro e
    by_cases h1 : e = "pdf".toList
    · subst h1; decide
    · by_cases h2 : e = "txt".toList
      · subst h2; decide
      · by_cases h3 : e = "zip".toList
        · subst h3; decide
        · have h1' : ¬ e = ['p', 'd', 'f'] := h1
          have h2' : ¬ e = ['t', 'x', 't'] := h2
          have h3' : ¬ e = ['z', 'i', 'p'] := h3
          simp [strcmpEq, h1', h2', h3']
  refine ⟨(key _).1, (key _).2.1, (key _).2.2.1, (key _).2.2.2, ?_, ?_⟩
  · intro h
    exact (key _).2.2.2.2 (by rw [h]; decide)
  · intro h
    simp only [getServerPort, h]

/-- C1 at concrete names: "a.pdf" and "b.v2.pdf" share the extension and the port. -/
theorem getServerPort_by_extension_witness :
    getServerPort "a.pdf".toList = 8081 ∧ getServerPort "notes".toList = -1 ∧
    getServerPort "a.pdf".toList = getServerPort "b.v2.pdf".toList :=
  ⟨(getServerPort_by_extension "a.pdf".toList "b.v2.pdf".toList).1.2 (by decide),
   (getServerPort_by_extension "notes".toList []).2.2.2.2.1 (by decide),
   (getServerPort_by_extension "a.pdf".toList "b.v2.pdf".toList).2.2.2.2.2 (by decide)⟩

/-- C2 as stated fails on the name ".pdf": the text after its last dot is "pdf",
but `getFileExtension` returns the empty string because the dot is the first
character. -/
theorem getFileExtension_leading_dot :
    textAfterLastDot ".pdf".toList = "pdf".toList ∧
    getFileExtension ".pdf".toList = [] ∧
    getFileExtension ".pdf".toList ≠ textAfterLastDot ".pdf".toList := by
  decide

/-- C2 amended: `getFileExtension` returns the empty string for a name without a
dot, the text after the last dot when that dot is not the first character, and
the empty string when the last dot is the first character. -/
theorem getFileExtension_spec (f : CStr) :
    ('.' ∉ f → getFileExtension f = []) ∧
    (∀ pre suf : CStr, f = pre ++ '.' :: suf → '.' ∉ suf → pre ≠ [] →
      getFileExtension f = suf) ∧
    (∀ suf : CStr, f = '.' :: suf → '.' ∉ suf → getFileExtension f = []) := by
  refine ⟨?_, ?_, ?_⟩
  · intro h
    simp [getFileExtension, strrchr_eq_none h]
  · intro pre suf hf hsuf hpre
    rw [hf]
    exact getFileExtension_append pre suf hsuf hpre
  · intro suf hf hsuf
    have := strrchr_append_cons [] suf '.' hsuf
    simp only [List.nil_append, List.length_nil] at this
    simp [hf, getFileExtension, this]

/-- C2 amended, at concrete names. -/
theorem getFileExtension_spec_witness :
    getFileExtension "notes".toList = [] ∧
    getFileExtension "a.tar.gz".toList = "gz".toList ∧
    getFileExtension ".bashrc".toList = [] :=
  ⟨(getFileExtension_spec "notes".toList).1 (by decide),
   (getFileExtension_spec "a.tar.gz".toList).2.1 "a.tar".toList "gz".toList
     (by decide) (by decide) (by decide),
   (getFileExtension_spec ".bashrc".toList).2.2 "bashrc".toList (by decide) (by decide)⟩

/-! ## Facts about the handlers -/

theorem transferFileToServer_head (env : Env) (reads : List RecvResult) (dest : CStr)
    (port n : Int) : (transferFileToServer env reads dest port n).1.head? = some .socket := by
  unfold transferFileToServer
  dsimp only
  split_ifs <;> rfl

theorem uploadTransfer_head (env : Env) (sp fn : CStr) (n : Int) :
    (uploadTransfer env sp fn n).events.head? ≠ some invalidSize := by
  unfold uploadTransfer
  dsimp only
  split_ifs
  · simp only [transferFileToServer_head]; decide
  · show ([Event.send Sock.client (lit "SIZE_ACK" 8)] : List Event).head? ≠ _
    decide
  · simp only [List.head?_cons]; decide

theorem size_test (n : Int) :
    (decide (n ≤ 0) || decide (n > MAX_FILE_SIZE)) = !decide (0 < n ∧ n ≤ 104857600) := by
  by_cases h : 0 < n ∧ n ≤ 104857600
  · have h1 : ¬ n ≤ 0 := by omega
    have h2 : ¬ n > MAX_FILE_SIZE := by simp only [MAX_FILE_SIZE]; omega
    simp [h, h1, h2]
  · have h3 : n ≤ 0 ∨ n > MAX_FILE_SIZE := by simp only [MAX_FILE_SIZE]; omega
    rcases h3 with h3 | h3 <;> simp [h, h3]

theorem processUploadf_events (n : Int) (env : Env) (cmd : Command)
    (hpath : (strncmpEq (snprintf MAX_PATH_LENGTH cmd.arg2) "~/S1".toList 3
      || strncmpEq (snprintf MAX_PATH_LENGTH cmd.arg2) "~S1".toList 2) = true)
    (hmk : env.mkdirOk = true) (hready : env.sendReadyOk = true)
    (hrecv : 0 < (nextRecv env.clientIn).ret)
    (hn : atol (cstrOf (nextRecv env.clientIn).buf) = n) :
    (processUploadf env cmd).events =
      [.mkdirs (uploadActualDir env.home (snprintf MAX_PATH_LENGTH cmd.arg2)),
        .send .client (lit "READY" 5), .recv .client (nextRecv env.clientIn)] ++
      (if 0 < n ∧ n ≤ 104857600 then
        (uploadTransfer env (snprintf MAX_PATH_LENGTH cmd.arg2)
          (uploadFilename (snprintf MAX_PATH_LENGTH cmd.arg1)) n).events
      else [invalidSize]) := by
  have hrecv' : ¬ (nextRecv env.clientIn).ret ≤ 0 := not_le.mpr hrecv
  unfold processUploadf
  simp only [hpath, hmk, hready, hrecv', hn, Bool.not_true, Bool.false_eq_true, if_false,
    size_test]
  by_cases hv : 0 < n ∧ n ≤ 104857600 <;> simp [hv]

theorem processUploadf_fs (n : Int) (env : Env) (cmd : Command)
    (hpath : (strncmpEq (snprintf MAX_PATH_LENGTH cmd.arg2) "~/S1".toList 3
      || strncmpEq (snprintf MAX_PATH_LENGTH cmd.arg2) "~S1".toList 2) = true)
    (hmk : env.mkdirOk = true) (hready : env.sendReadyOk = true)
    (hrecv : 0 < (nextRecv env.clientIn).ret)
    (hn : atol (cstrOf (nextRecv env.clientIn).buf) = n) (hv : 0 < n ∧ n ≤ 104857600) :
    (processUploadf env cmd).fs =
      (uploadTransfer env (snprintf MAX_PATH_LENGTH cmd.arg2)
        (uploadFilename (snprintf MAX_PATH_LENGTH cmd.arg1)) n).fs := by
  have hrecv' : ¬ (nextRecv env.clientIn).ret ≤ 0 := not_le.mpr hrecv
  unfold processUploadf
  simp only [hpath, hmk, hready, hrecv', hn, Bool.not_true, Bool.false_eq_true, if_false,
    size_test]
  simp [hv]

theorem shard_handleUpload_events (n : Int) (sh : Shard) (env : Env) (path : CStr)
    (hpre : strncmpEq path sh.marker 4 = true)
    (hext : strcmpEq (getFileExtension path) sh.ext = true)
    (hfit : (env.home ++ path.drop 1).length < MAX_PATH_LENGTH)
    (hmk : env.mkdirOk = true)
    (hrecv : 0 < (nextRecv env.clientIn).ret)
    (hn : atol (cstrOf (nextRecv env.clientIn).buf) = n) :
    (sh.handleUpload env path).map Run.events = some (
      (if 0 < (dirPart (env.home ++ path.drop 1)).length
        then [.mkdirs (dirPart (env.home ++ path.drop 1))] else []) ++
      [.send .client (lit "READY" 5), .recv .client (nextRecv env.clientIn)] ++
      (if 0 < n ∧ n ≤ 104857600 then
        .send .client (lit "SIZE_ACK" 8) ::
          (sh.receiveFile env env.clientIn.tail (env.home ++ path.drop 1) n).events
      else [invalidSize])) := by
  have hrecv' : ¬ (nextRecv env.clientIn).ret ≤ 0 := not_le.mpr hrecv
  have hfit' : ¬ MAX_PATH_LENGTH ≤ (env.home ++ path.drop 1).length := not_le.mpr hfit
  unfold Shard.handleUpload
  simp only [hpre, hext, hfit', hmk, hrecv', hn, Bool.not_true, Bool.false_eq_true, if_false,
    size_test, Bool.and_false]
  by_cases hv : 0 < n ∧ n ≤ 104857600 <;> simp [hv]

/-! ## C3: the size test -/

/-- C3: with `n` the declared length read by `atol`, the `uploadf` branch of S1 and
the `handleUpload` of every shard continue with their transfer stage (S1: the
forwarding or the local store; shard: SIZE_ACK and the receiving of the file)
exactly when `0 < n ≤ 104857600`; otherwise the only call after the read of the
size is the reply "ERROR: Invalid file size", so no payload byte is read. The
transfer stage never begins with that reply. -/
theorem upload_size_validation (n : Int) :
    (∀ (env : Env) (cmd : Command),
      (strncmpEq (snprintf MAX_PATH_LENGTH cmd.arg2) "~/S1".toList 3
        || strncmpEq (snprintf MAX_PATH_LENGTH cmd.arg2) "~S1".toList 2) = true →
      env.mkdirOk = true → env.sendReadyOk = true →
      0 < (nextRecv env.clientIn).ret →
      atol (cstrOf (nextRecv env.clientIn).buf) = n →
      (processUploadf env cmd).events =
        [.mkdirs (uploadActualDir env.home (snprintf MAX_PATH_LENGTH cmd.arg2)),
          .send .client (lit "READY" 5), .recv .client (nextRecv env.clientIn)] ++
        (if 0 < n ∧ n ≤ 104857600 then
          (uploadTransfer env (snprintf MAX_PATH_LENGTH cmd.arg2)
            (uploadFilename (snprintf MAX_PATH_LENGTH cmd.arg1)) n).events
        else [invalidSize])) ∧
    (∀ (env : Env) (sp fn : CStr),
      (uploadTransfer env sp fn n).events.head? ≠ some invalidSize) ∧
    (∀ (sh : Shard) (env : Env) (path : CStr),
      strncmpEq path sh.marker 4 = true →
      strcmpEq (getFileExtension path) sh.ext = true →
      (env.home ++ path.drop 1).length < MAX_PATH_LENGTH →
      env.mkdirOk = true →
      0 < (nextRecv env.clientIn).ret →
      atol (cstrOf (nextRecv env.clientIn).buf) = n →
      (sh.handleUpload env path).map Run.events = some (
        (if 0 < (dirPart (env.home ++ path.drop 1)).length
          then [.mkdirs (dirPart (env.home ++ path.drop 1))] else []) ++
        [.send .client (lit "READY" 5), .recv .client (nextRecv env.clientIn)] ++
        (if 0 < n ∧ n ≤ 104857600 then
          .send .client (lit "SIZE_ACK" 8) ::
            (sh.receiveFile env env.clientIn.tail (env.home ++ path.drop 1) n).events
        else [invalidSize]))) :=
  ⟨fun env cmd h1 h2 h3 h4 h5 => processUploadf_events n env cmd h1 h2 h3 h4 h5,
   fun env sp fn => uploadTransfer_head env sp fn n,
   fun sh env path h1 h2 h3 h4 h5 h6 => shard_handleUpload_events n sh env path h1 h2 h3 h4 h5 h6⟩

/-- C3 at the boundary: S1 rejects the declared sizes 0 and 104857601 and accepts
104857600; shard S2 rejects 104857601. -/
theorem upload_size_validation_witness :
    (processUploadf { home := "/h".toList, clientIn := [.data "0".toList] }
      ⟨"uploadf".toList, "a.c".toList, "~/S1".toList⟩).events =
      [.mkdirs "/h/S1".toList, .send .client "READY".toList,
        .recv .client (.data "0".toList),
        .send .client "ERROR: Invalid file size".toList] ∧
    (processUploadf { home := "/h".toList, clientIn := [.data "104857601".toList] }
      ⟨"uploadf".toList, "a.c".toList, "~/S1".toList⟩).events =
      [.mkdirs "/h/S1".toList, .send .client "READY".toList,
        .recv .client (.data "104857601".toList),
        .send .client "ERROR: Invalid file size".toList] ∧
    (processUploadf { home := "/h".toList, clientIn := [.data "104857600".toList] }
      ⟨"uploadf".toList, "a.c".toList, "~/S1".toList⟩).events =
      [.mkdirs "/h/S1".toList, .send .client "READY".toList,
        .recv .client (.data "104857600".toList)] ++
      (uploadTransfer { home := "/h".toList, clientIn := [.data "104857600".toList] }
        "~/S1".toList "a.c".toList 104857600).events ∧
    (Shard.s2.handleUpload { home := "/h".toList, clientIn := [.data "104857601".toList] }
      "~/S2/a.pdf".toList).map Run.events =
      some [.mkdirs "/h/S2".toList, .send .client "READY".toList,
        .recv .client (.data "104857601".toList),
        .send .client "ERROR: Invalid file size".toList] := by
  refine ⟨?_, ?_, ?_, ?_⟩
  · exact ((upload_size_validation 0).1
      { home := "/h".toList, clientIn := [.data "0".toList] }
      ⟨"uploadf".toList, "a.c".toList, "~/S1".toList⟩
      (by decide) rfl rfl (by decide) (by decide)).trans (by decide)
  · exact ((upload_size_validation 104857601).1
      { home := "/h".toList, clientIn := [.data "104857601".toList] }
      ⟨"uploadf".toList, "a.c".toList, "~/S1".toList⟩
      (by decide) rfl rfl (by decide) (by decide)).trans (by decide)
  · exact ((upload_size_validation 104857600).1
      { home := "/h".toList, clientIn := [.data "104857600".toList] }
      ⟨"uploadf".toList, "a.c".toList, "~/S1".toList⟩
      (by decide) rfl rfl (by decide) (by decide)).trans (by decide)
  · exact ((upload_size_validation 104857601).2.2 .s2
      { home := "/h".toList, clientIn := [.data "104857601".toList] }
      "~/S2/a.pdf".toList (by decide) (by decide) (by decide) rfl (by decide)
      (by decide)).trans (by decide)

/-! ## Facts about the receive loop -/

theorem RecvResult.ret_pos {r : RecvResult} (h : ¬ r.ret ≤ 0) :
    r = .data r.buf ∧ r.ret = (r.buf.length : Int) ∧ r.buf ≠ [] := by
  cases r with
  | data bs =>
    refine ⟨rfl, rfl, ?_⟩
    intro hbs
    simp only [RecvResult.buf] at hbs
    simp [RecvResult.ret, hbs] at h
  | error => simp [RecvResult.ret] at h

theorem recvLoop_moved_bound (L : Int) (sink : Sink)
    (htaken : ∀ i bs, (sink.taken i bs).length ≤ bs.length) :
    ∀ (reads : List RecvResult), (∀ r ∈ reads, r.buf.length ≤ BUFFER_SIZE) →
    ∀ (total : Int) (i : Nat),
      (total < L → ((recvLoop L sink reads total i).moved.length : Int) ≤ L - total + 1023) ∧
      (L ≤ total → (recvLoop L sink reads total i).moved = []) := by
  intro reads
  induction reads with
  | nil =>
    intro _ total i
    constructor
    · intro h
      simp only [recvLoop, h, if_true, List.length_nil]
      push_cast
      omega
    · intro h
      have h' : ¬ total < L := not_lt.mpr h
      simp only [recvLoop, h', if_false]
  | cons r rest ih =>
    intro hcap total i
    have hr : r.buf.length ≤ BUFFER_SIZE := hcap r (List.mem_cons_self _ _)
    have hrest : ∀ x ∈ rest, x.buf.length ≤ BUFFER_SIZE :=
      fun x hx => hcap x (List.mem_cons_of_mem _ hx)
    constructor
    · intro h
      simp only [recvLoop, h, if_true]
      by_cases h0 : r.ret ≤ 0
      · simp only [h0, if_true, List.length_nil]
        push_cast
        omega
      · obtain ⟨_, hret, _⟩ := RecvResult.ret_pos h0
        have ht := htaken i r.buf
        simp only [BUFFER_SIZE] at hr
        simp only [h0, if_false]
        rcases Bool.eq_false_or_eq_true (sink.fails i r.buf) with hf | hf
        · simp only [hf, if_true]
          omega
        · simp only [hf, Bool.false_eq_true, if_false]
          have ih' := ih hrest (total + r.ret) (i + 1)
          by_cases hlt : total + r.ret < L
          · have := ih'.1 hlt
            rw [List.length_append]
            push_cast
            omega
          · have := ih'.2 (not_lt.mp hlt)
            rw [this, List.append_nil]
            omega
    · intro h
      have h' : ¬ total < L := not_lt.mpr h
      simp only [recvLoop, h', if_false]

theorem checkedFileSink_taken (env : Env) (p : CStr) (k : Nat) (i : Nat) (bs : List Char) :
    ((checkedFileSink env p k).taken i bs).length ≤ bs.length := by
  simp only [checkedFileSink, List.length_take]
  omega

theorem uncheckedFileSink_taken (env : Env) (p : CStr) (i : Nat) (bs : List Char) :
    ((uncheckedFileSink env p).taken i bs).length ≤ bs.length := by
  simp only [uncheckedFileSink, List.length_take]
  omega

theorem shardSink_taken (env : Env) (i : Nat) (bs : List Char) :
    ((shardSink env).taken i bs).length ≤ bs.length := by
  simp only [shardSink]
  split_ifs <;> simp

/-! ## C4: bytes moved against the declared length -/

/-- C4 as stated fails: with the declared length 1 and one chunk of two bytes,
`handleUploadLocal` after its `fopen`, a shard's `handleUpload` after its `fopen`
and the relay of `transferFileToServer` each move two bytes, and the two upload
handlers still reply SUCCESS. -/
theorem upload_loop_overshoot :
    (storeLocal { home := "/h".toList } [.data "ab".toList] "/h/S1/a.c".toList 1).fs
      "/h/S1/a.c".toList = some "ab".toList ∧
    (storeLocal { home := "/h".toList } [.data "ab".toList] "/h/S1/a.c".toList 1).events =
      [.fopen "/h/S1/a.c".toList, .recv .client (.data "ab".toList), .fwrite "ab".toList,
        .fclose, .stat "/h/S1/a.c".toList, .send .client "SUCCESS".toList] ∧
    (Shard.s2.receiveFile { home := "/h".toList } [.data "ab".toList] "/h/S2/a.pdf".toList 1).fs
      "/h/S2/a.pdf".toList = some "ab".toList ∧
    (transferPayload { home := "/h".toList, shardIn := [.data "READY".toList,
        .data "SIZE_ACK".toList, .data "SUCCESS".toList] } [.data "ab".toList] 1).1 =
      [.recv .client (.data "ab".toList), .send .shard "ab".toList,
        .recv .shard (.data "SUCCESS".toList), .send .client "SUCCESS".toList,
        .close .shard] ∧
    ¬ (((recvLoop 1 (shardSink { home := "/h".toList }) [.data "ab".toList] 0 0).moved.length
        : Int) ≤ 1) := by
  decide

/-- C4 amended: for every declared length `L` and every sequence of reads whose
chunks have at most 1024 bytes, each upload loop (file sink with tested or
untested `fwrite`, shard relay) moves at most `L + 1023` bytes when `L` is
positive and none otherwise: a further chunk is taken only while fewer than `L`
bytes have been counted, and it is moved whole. -/
theorem upload_loops_moved_bound (L : Int) (env : Env) (path : CStr) (k : Nat)
    (reads : List RecvResult) (hcap : ∀ r ∈ reads, r.buf.length ≤ BUFFER_SIZE) :
    movedWithin L (recvLoop L (checkedFileSink env path k) reads 0 0) ∧
    movedWithin L (recvLoop L (uncheckedFileSink env path) reads 0 0) ∧
    movedWithin L (recvLoop L (shardSink env) reads 0 0) := by
  have key : ∀ sink : Sink, (∀ i bs, (sink.taken i bs).length ≤ bs.length) →
      movedWithin L (recvLoop L sink reads 0 0) := by
    intro sink ht
    have h := recvLoop_moved_bound L sink ht reads hcap 0 0
    refine ⟨fun hpos => ?_, fun hneg => h.2 hneg⟩
    have := h.1 hpos
    omega
  exact ⟨key _ (checkedFileSink_taken env path k), key _ (uncheckedFileSink_taken env path),
    key _ (shardSink_taken env)⟩

/-- C4 amended, at the declared length 1 with one chunk of two bytes. -/
theorem upload_loops_moved_bound_witness :
    movedWithin 1 (recvLoop 1 (checkedFileSink { home := "/h".toList } "/h/S1/a.c".toList 24)
      [.data "ab".toList] 0 0) ∧
    movedWithin 1 (recvLoop 1 (uncheckedFileSink { home := "/h".toList } "/h/S1/a.c".toList)
      [.data "ab".toList] 0 0) ∧
    movedWithin 1 (recvLoop 1 (shardSink { home := "/h".toList }) [.data "ab".toList] 0 0) :=
  upload_loops_moved_bound 1 { home := "/h".toList } "/h/S1/a.c".toList 24
    [.data "ab".toList] (by decide)

/-! ## Facts about loops that run to their end or stop at a failed read -/

theorem recvLoop_complete (L : Int) (sink : Sink)
    (hok : ∀ i bs, sink.fails i bs = false) (hall : ∀ i bs, sink.taken i bs = bs) :
    ∀ (chunks : List (List Char)) (rest : List RecvResult) (total : Int) (i : Nat),
      (∀ c ∈ chunks, c ≠ []) → total + (chunks.flatten.length : Int) = L →
      recvLoop L sink (chunks.map .data ++ rest) total i =
        ⟨chunkEvents sink chunks, chunks.flatten, rest, .complete⟩ := by
  intro chunks
  induction chunks with
  | nil =>
    intro rest total i _ hsum
    have h : ¬ total < L := by simp at hsum; omega
    cases rest with
    | nil => simp [recvLoop, h, chunkEvents]
    | cons r rs => simp [recvLoop, h, chunkEvents]
  | cons c cs ih =>
    intro rest total i hne hsum
    have hc : c ≠ [] := hne c (List.mem_cons_self _ _)
    have hcs : ∀ x ∈ cs, x ≠ [] := fun x hx => hne x (List.mem_cons_of_mem _ hx)
    have hlen : 0 < c.length := List.length_pos.mpr hc
    simp only [List.flatten_cons, List.length_append] at hsum
    push_cast at hsum
    have h : total < L := by omega
    have h0 : ¬ (RecvResult.data c).ret ≤ 0 := by simp only [RecvResult.ret]; omega
    have ih' := ih rest (total + (RecvResult.data c).ret) (i + 1) hcs
      (by simp only [RecvResult.ret]; omega)
    simp only [List.map_cons, List.cons_append, recvLoop, h, if_true, h0, if_false, hok,
      Bool.false_eq_true, RecvResult.buf, hall, List.append_eq]
    rw [ih']
    simp only [chunkEvents, List.flatMap_cons, List.flatten_cons, List.cons_append,
      List.nil_append]

theorem recvLoop_recv_fails (L : Int) (sink : Sink)
    (hok : ∀ i bs, sink.fails i bs = false) (hall : ∀ i bs, sink.taken i bs = bs) :
    ∀ (good : List (List Char)) (bad : RecvResult) (rest : List RecvResult)
      (total : Int) (i : Nat),
      (∀ c ∈ good, c ≠ []) → total + (good.flatten.length : Int) < L → bad.ret ≤ 0 →
      recvLoop L sink (good.map .data ++ bad :: rest) total i =
        ⟨chunkEvents sink good ++ .recv .client bad :: sink.onRecvFail, good.flatten, rest,
          .recvFailed⟩ := by
  intro good
  induction good with
  | nil =>
    intro bad rest total i _ hsum hbad
    have h : total < L := by simp at hsum; omega
    simp [recvLoop, h, hbad, chunkEvents]
  | cons c cs ih =>
    intro bad rest total i hne hsum hbad
    have hc : c ≠ [] := hne c (List.mem_cons_self _ _)
    have hcs : ∀ x ∈ cs, x ≠ [] := fun x hx => hne x (List.mem_cons_of_mem _ hx)
    have hlen : 0 < c.length := List.length_pos.mpr hc
    simp only [List.flatten_cons, List.length_append] at hsum
    push_cast at hsum
    have h : total < L := by omega
    have h0 : ¬ (RecvResult.data c).ret ≤ 0 := by simp only [RecvResult.ret]; omega
    have ih' := ih bad rest (total + (RecvResult.data c).ret) (i + 1) hcs
      (by simp only [RecvResult.ret]; omega) hbad
    simp only [List.map_cons, List.cons_append, recvLoop, h, if_true, h0, if_false, hok,
      Bool.false_eq_true, RecvResult.buf, hall, List.append_eq]
    rw [ih']
    simp only [chunkEvents, List.flatMap_cons, List.flatten_cons, List.cons_append,
      List.nil_append]

theorem checkedFileSink_complete (env : Env) (p : CStr) (k : Nat)
    (hw : ∀ i n, env.fwriteRet i n = n) :
    (∀ i bs, (checkedFileSink env p k).fails i bs = false) ∧
    (∀ i bs, (checkedFileSink env p k).taken i bs = bs) := by
  constructor <;> intro i bs <;> simp [checkedFileSink, hw]

theorem uncheckedFileSink_complete (env : Env) (p : CStr)
    (hw : ∀ i n, env.fwriteRet i n = n) :
    (∀ i bs, (uncheckedFileSink env p).fails i bs = false) ∧
    (∀ i bs, (uncheckedFileSink env p).taken i bs = bs) := by
  constructor <;> intro i bs <;> simp [uncheckedFileSink, hw]

/-! ## C5, C6: the upload handlers from the `fopen` on -/

/-- C5: when the requester's reads are chunks of at least one byte whose lengths
add up to the declared length `L`, and the file system takes every write,
`handleUploadLocal` (from its `fopen` on) and every shard's `handleUpload` (from
its `fopen` on) write each chunk as it arrives, leave the concatenation of the
chunks as the content of the target file, and end with the reply "SUCCESS". -/
theorem upload_stores_exact_bytes (env : Env) (sh : Shard) (chunks : List (List Char))
    (rest : List RecvResult) (actual_path : CStr) (L : Int)
    (hne : ∀ c ∈ chunks, c ≠ []) (hsum : (chunks.flatten.length : Int) = L)
    (hopen : env.fopenOk = true) (hw : ∀ i n, env.fwriteRet i n = n)
    (hclose : env.fcloseOk = true) :
    (storeLocal env (chunks.map .data ++ rest) actual_path L).events =
      .fopen actual_path ::
        chunks.flatMap (fun c => [Event.recv .client (.data c), Event.fwrite c]) ++
        [.fclose, .stat actual_path, .send .client "SUCCESS".toList] ∧
    (storeLocal env (chunks.map .data ++ rest) actual_path L).fs actual_path =
      some chunks.flatten ∧
    (sh.receiveFile env (chunks.map .data ++ rest) actual_path L).events =
      .fopen actual_path ::
        chunks.flatMap (fun c => [Event.recv .client (.data c), Event.fwrite c]) ++
        (match sh with
          | .s4 => [.fclose, .stat actual_path, .send .client "SUCCESS".toList]
          | _ => [.fclose, .send .client "SUCCESS".toList]) ∧
    (sh.receiveFile env (chunks.map .data ++ rest) actual_path L).fs actual_path =
      some chunks.flatten := by
  have hlit : lit "SUCCESS" 7 = "SUCCESS".toList := by decide
  have hc := fun k => recvLoop_complete L (checkedFileSink env actual_path k)
    (checkedFileSink_complete env actual_path k hw).1
    (checkedFileSink_complete env actual_path k hw).2 chunks rest 0 0 hne (by omega)
  have hu := recvLoop_complete L (uncheckedFileSink env actual_path)
    (uncheckedFileSink_complete env actual_path hw).1
    (uncheckedFileSink_complete env actual_path hw).2 chunks rest 0 0 hne (by omega)
  have hex : ∀ c : List Char, fileExists (env.fs.set actual_path (some c)) actual_path = true := by
    intro c; simp [fileExists, FS.set]
  have hget : ∀ c : Option (List Char), (env.fs.set actual_path c) actual_path = c := by
    intro c; simp [FS.set]
  refine ⟨?_, ?_, ?_, ?_⟩
  · simp only [storeLocal, hopen, hclose, hc, hex, Bool.not_true, Bool.false_eq_true, if_false]
    simp [hlit, chunkEvents, checkedFileSink]
  · simp only [storeLocal, hopen, hclose, hc, hex, Bool.not_true, Bool.false_eq_true, if_false,
      hget]
  · cases sh <;>
      simp only [Shard.receiveFile, hopen, hclose, hc, hu, hex, Bool.not_true,
        Bool.false_eq_true, if_false] <;>
      simp [hlit, chunkEvents, checkedFileSink, uncheckedFileSink]
  · cases sh <;>
      simp only [Shard.receiveFile, hopen, hclose, hc, hu, hex, Bool.not_true,
        Bool.false_eq_true, if_false, hget]

/-- C5 at three bytes sent as the chunks "ab" and "c". -/
theorem upload_stores_exact_bytes_witness :
    (storeLocal { home := "/h".toList } [.data "ab".toList, .data "c".toList]
      "/h/S1/a.c".toList 3).events =
      [.fopen "/h/S1/a.c".toList, .recv .client (.data "ab".toList), .fwrite "ab".toList,
        .recv .client (.data "c".toList), .fwrite "c".toList,
        .fclose, .stat "/h/S1/a.c".toList, .send .client "SUCCESS".toList] ∧
    (storeLocal { home := "/h".toList } [.data "ab".toList, .data "c".toList]
      "/h/S1/a.c".toList 3).fs "/h/S1/a.c".toList = some "abc".toList ∧
    (Shard.s4.receiveFile { home := "/h".toList } [.data "ab".toList, .data "c".toList]
      "/h/S1/a.c".toList 3).events =
      [.fopen "/h/S1/a.c".toList, .recv .client (.data "ab".toList), .fwrite "ab".toList,
        .recv .client (.data "c".toList), .fwrite "c".toList,
        .fclose, .stat "/h/S1/a.c".toList, .send .client "SUCCESS".toList] ∧
    (Shard.s4.receiveFile { home := "/h".toList } [.data "ab".toList, .data "c".toList]
      "/h/S1/a.c".toList 3).fs "/h/S1/a.c".toList = some "abc".toList :=
  upload_stores_exact_bytes { home := "/h".toList } .s4 ["ab".toList, "c".toList] []
    "/h/S1/a.c".toList 3 (by decide) (by decide) rfl (fun _ _ => rfl) rfl

/-- C6: when a read returns zero or less after chunks that add up to fewer than
the declared length `L` (the file system taking every write), `handleUploadLocal`
(from its `fopen` on) and every shard's `handleUpload` (from its `fopen` on) make
no further read, close and remove the target file, reply
"ERROR: File receive error", and reply "SUCCESS" nowhere. -/
theorem upload_aborts_on_failed_read (env : Env) (sh : Shard) (good : List (List Char))
    (bad : RecvResult) (rest : List RecvResult) (actual_path : CStr) (L : Int)
    (hne : ∀ c ∈ good, c ≠ []) (hsum : (good.flatten.length : Int) < L)
    (hbad : bad.ret ≤ 0)
    (hopen : env.fopenOk = true) (hw : ∀ i n, env.fwriteRet i n = n) :
    (storeLocal env (good.map .data ++ bad :: rest) actual_path L).events =
      .fopen actual_path ::
        good.flatMap (fun c => [Event.recv .client (.data c), Event.fwrite c]) ++
        [.recv .client bad, .fclose, .remove actual_path,
          .send .client "ERROR: File receive error".toList] ∧
    (storeLocal env (good.map .data ++ bad :: rest) actual_path L).fs actual_path = none ∧
    Event.send .client "SUCCESS".toList ∉
      (storeLocal env (good.map .data ++ bad :: rest) actual_path L).events ∧
    (sh.receiveFile env (good.map .data ++ bad :: rest) actual_path L).events =
      .fopen actual_path ::
        good.flatMap (fun c => [Event.recv .client (.data c), Event.fwrite c]) ++
        [.recv .client bad, .fclose, .remove actual_path,
          .send .client "ERROR: File receive error".toList] ∧
    (sh.receiveFile env (good.map .data ++ bad :: rest) actual_path L).fs actual_path = none ∧
    Event.send .client "SUCCESS".toList ∉
      (sh.receiveFile env (good.map .data ++ bad :: rest) actual_path L).events := by
  have hlit : lit "ERROR: File receive error" 25 = "ERROR: File receive error".toList := by
    decide
  have hdiff : ¬ "SUCCESS".toList = "ERROR: File receive error".toList := by decide
  have hc := fun k => recvLoop_recv_fails L (checkedFileSink env actual_path k)
    (checkedFileSink_complete env actual_path k hw).1
    (checkedFileSink_complete env actual_path k hw).2 good bad rest 0 0 hne (by omega) hbad
  have hu := recvLoop_recv_fails L (uncheckedFileSink env actual_path)
    (uncheckedFileSink_complete env actual_path hw).1
    (uncheckedFileSink_complete env actual_path hw).2 good bad rest 0 0 hne (by omega) hbad
  have hget : ∀ c : Option (List Char), (env.fs.set actual_path c) actual_path = c := by
    intro c; simp [FS.set]
  have e1 : (storeLocal env (good.map .data ++ bad :: rest) actual_path L).events =
      .fopen actual_path ::
        good.flatMap (fun c => [Event.recv .client (.data c), Event.fwrite c]) ++
        [.recv .client bad, .fclose, .remove actual_path,
          .send .client "ERROR: File receive error".toList] := by
    simp only [storeLocal, hopen, hc, Bool.not_true, Bool.false_eq_true, if_false]
    simp [hlit, chunkEvents, checkedFileSink]
  have e2 : (sh.receiveFile env (good.map .data ++ bad :: rest) actual_path L).events =
      .fopen actual_path ::
        good.flatMap (fun c => [Event.recv .client (.data c), Event.fwrite c]) ++
        [.recv .client bad, .fclose, .remove actual_path,
          .send .client "ERROR: File receive error".toList] := by
    cases sh <;>
      simp only [Shard.receiveFile, hopen, hc, hu, Bool.not_true, Bool.false_eq_true,
        if_false] <;>
      simp [hlit, chunkEvents, checkedFileSink, uncheckedFileSink]
  have hnot : Event.send .client "SUCCESS".toList ∉
      .fopen actual_path ::
        good.flatMap (fun c => [Event.recv .client (.data c), Event.fwrite c]) ++
        [.recv .client bad, .fclose, .remove actual_path,
          .send .client "ERROR: File receive error".toList] := by
    simp only [List.mem_cons, List.mem_append, List.mem_flatMap, List.mem_singleton,
      List.not_mem_nil, not_or]
    refine ⟨⟨by simp, ?_⟩, by simp, by simp, by simp, ?_, by simp⟩
    · rintro ⟨c, _, h | h | h⟩ <;> simp at h
    · intro h
      exact hdiff (Event.send.inj h).2
  refine ⟨e1, ?_, ?_, e2, ?_, ?_⟩
  · simp only [storeLocal, hopen, hc, Bool.not_true, Bool.false_eq_true, if_false, hget]
  · rw [e1]; exact hnot
  · cases sh <;>
      simp only [Shard.receiveFile, hopen, hc, hu, Bool.not_true, Bool.false_eq_true,
        if_false, hget]
  · rw [e2]; exact hnot

/-- C6 with one chunk "ab" of a declared length 3 followed by a closed connection. -/
theorem upload_aborts_on_failed_read_witness :
    (storeLocal { home := "/h".toList } [.data "ab".toList, .data []] "/h/S1/a.c".toList
      3).events =
      [.fopen "/h/S1/a.c".toList, .recv .client (.data "ab".toList), .fwrite "ab".toList,
        .recv .client (.data []), .fclose, .remove "/h/S1/a.c".toList,
        .send .client "ERROR: File receive error".toList] ∧
    (storeLocal { home := "/h".toList } [.data "ab".toList, .data []] "/h/S1/a.c".toList
      3).fs "/h/S1/a.c".toList = none ∧
    Event.send .client "SUCCESS".toList ∉
      (storeLocal { home := "/h".toList } [.data "ab".toList, .data []] "/h/S1/a.c".toList
        3).events ∧
    (Shard.s3.receiveFile { home := "/h".toList } [.data "ab".toList, .data []]
      "/h/S1/a.c".toList 3).events =
      [.fopen "/h/S1/a.c".toList, .recv .client (.data "ab".toList), .fwrite "ab".toList,
        .recv .client (.data []), .fclose, .remove "/h/S1/a.c".toList,
        .send .client "ERROR: File receive error".toList] ∧
    (Shard.s3.receiveFile { home := "/h".toList } [.data "ab".toList, .data []]
      "/h/S1/a.c".toList 3).fs "/h/S1/a.c".toList = none ∧
    Event.send .client "SUCCESS".toList ∉
      (Shard.s3.receiveFile { home := "/h".toList } [.data "ab".toList, .data []]
        "/h/S1/a.c".toList 3).events :=
  upload_aborts_on_failed_read { home := "/h".toList } .s3 ["ab".toList] (.data []) []
    "/h/S1/a.c".toList 3 (by decide) (by decide) (by decide) rfl (fun _ _ => rfl)

/-! ## Facts about the relay loop -/

theorem RecvResult.buf_of_ret_le {r : RecvResult} (h : r.ret ≤ 0) : r.buf = [] := by
  cases r with
  | data bs =>
    simp only [RecvResult.ret] at h
    have : bs.length = 0 := by omega
    simpa [RecvResult.buf] using this
  | error => rfl

theorem shardBytes_append (a b : List Event) :
    shardBytes (a ++ b) = shardBytes a ++ shardBytes b := by
  simp [shardBytes]

theorem clientBytes_append (a b : List Event) :
    clientBytes (a ++ b) = clientBytes a ++ clientBytes b := by
  simp [clientBytes]

theorem clientReadFailed_append (a b : List Event) :
    clientReadFailed (a ++ b) ↔ clientReadFailed a ∨ clientReadFailed b := by
  simp only [clientReadFailed, List.mem_append]
  constructor
  · rintro ⟨r, hr | hr, hle⟩
    · exact Or.inl ⟨r, hr, hle⟩
    · exact Or.inr ⟨r, hr, hle⟩
  · rintro (⟨r, hr, hle⟩ | ⟨r, hr, hle⟩)
    · exact ⟨r, Or.inl hr, hle⟩
    · exact ⟨r, Or.inr hr, hle⟩

theorem relayLoop_bytes (L : Int) (env : Env) :
    ∀ (reads : List RecvResult) (total : Int) (i : Nat),
      (shardBytes (recvLoop L (shardSink env) reads total i).events =
        clientBytes (recvLoop L (shardSink env) reads total i).events ++
          (if (recvLoop L (shardSink env) reads total i).ending = .recvFailed
            then lit "ERROR: File receive error" 25 else [])) ∧
      ((recvLoop L (shardSink env) reads total i).ending = .recvFailed ↔
        clientReadFailed (recvLoop L (shardSink env) reads total i).events) := by
  intro reads
  induction reads with
  | nil =>
    intro total i
    by_cases h : total < L
    · simp only [recvLoop, h, if_true]
      refine ⟨by simp [shardBytes, clientBytes, shardSink, Event.toShard, Event.fromClient,
        RecvResult.buf], ?_⟩
      simp only [true_iff]
      exact ⟨.data [], by simp, by simp [RecvResult.ret]⟩
    · simp [recvLoop, h, shardBytes, clientBytes, clientReadFailed]
  | cons r rest ih =>
    intro total i
    by_cases h : total < L
    · by_cases h0 : r.ret ≤ 0
      · have hb := RecvResult.buf_of_ret_le h0
        simp only [recvLoop, h, if_true, h0]
        refine ⟨by simp [shardBytes, clientBytes, shardSink, Event.toShard, Event.fromClient,
          hb], ?_⟩
        simp only [true_iff]
        exact ⟨r, by simp, h0⟩
      · rcases Bool.eq_false_or_eq_true ((shardSink env).fails i r.buf) with hf | hf
        · simp only [recvLoop, h, if_true, h0, if_false, hf]
          refine ⟨by simp [shardBytes, clientBytes, shardSink, Event.toShard,
            Event.fromClient], ?_⟩
          simp only [clientReadFailed, shardSink, List.mem_cons, List.mem_singleton]
          constructor
          · intro hh; cases hh
          · rintro ⟨r', hr', hle⟩
            rcases hr' with hr' | hr' | hr' | hr' | hr'
            · cases hr'; exact absurd hle h0
            all_goals cases hr'
        · obtain ⟨ih1, ih2⟩ := ih (total + r.ret) (i + 1)
          simp only [recvLoop, h, if_true, h0, if_false, hf, Bool.false_eq_true]
          constructor
          · have e1 : shardBytes (Event.recv Sock.client r :: (shardSink env).call r.buf ::
                (recvLoop L (shardSink env) rest (total + r.ret) (i + 1)).events) =
                r.buf ++ shardBytes (recvLoop L (shardSink env) rest (total + r.ret)
                  (i + 1)).events := by
              simp [shardBytes, shardSink, Event.toShard]
            have e2 : clientBytes (Event.recv Sock.client r :: (shardSink env).call r.buf ::
                (recvLoop L (shardSink env) rest (total + r.ret) (i + 1)).events) =
                r.buf ++ clientBytes (recvLoop L (shardSink env) rest (total + r.ret)
                  (i + 1)).events := by
              simp [clientBytes, shardSink, Event.fromClient]
            rw [e1, e2, ih1, List.append_assoc]
          · rw [ih2]
            simp only [clientReadFailed, shardSink, List.mem_cons]
            constructor
            · rintro ⟨r', hr', hle⟩
              exact ⟨r', Or.inr (Or.inr hr'), hle⟩
            · rintro ⟨r', hr', hle⟩
              rcases hr' with hr' | hr' | hr'
              · cases hr'; exact absurd hle h0
              · cases hr'
              · exact ⟨r', hr', hle⟩
    · simp [recvLoop, h, shardBytes, clientBytes, clientReadFailed]

/-! ## C9: what the relay hands to the shard -/

/-- C9 as stated fails: with the declared length 5, the chunk "ab" and then a
failed read, `transferFileToServer` hands the shard "ab" followed by the 25
bytes "ERROR: File receive error", which it never read from the client. -/
theorem relay_adds_error_text :
    (transferPayload { home := "/h".toList } [.data "ab".toList, .error] 5).1 =
      [.recv .client (.data "ab".toList), .send .shard "ab".toList, .recv .client .error,
        .send .shard "ERROR: File receive error".toList, .close .shard] ∧
    clientBytes (transferPayload { home := "/h".toList } [.data "ab".toList, .error] 5).1 =
      "ab".toList ∧
    shardBytes (transferPayload { home := "/h".toList } [.data "ab".toList, .error] 5).1 =
      "abERROR: File receive error".toList ∧
    shardBytes (transferPayload { home := "/h".toList } [.data "ab".toList, .error] 5).1 ≠
      clientBytes (transferPayload { home := "/h".toList } [.data "ab".toList, .error] 5).1 := by
  decide

/-- C9 amended: after the size handshake the bytes `transferFileToServer` hands to
`send` on the shard connection are the bytes it received from the client, in
the same order, on every run on which no client read returns zero or less; on a
run on which a client read does, they are those bytes followed by the text
"ERROR: File receive error". -/
theorem relay_bytes_preserved (env : Env) (reads : List RecvResult) (L : Int) :
    (¬ clientReadFailed (transferPayload env reads L).1 →
      shardBytes (transferPayload env reads L).1 =
        clientBytes (transferPayload env reads L).1) ∧
    (clientReadFailed (transferPayload env reads L).1 →
      shardBytes (transferPayload env reads L).1 =
        clientBytes (transferPayload env reads L).1 ++
          "ERROR: File receive error".toList) := by
  have hlit : lit "ERROR: File receive error" 25 = "ERROR: File receive error".toList := by
    decide
  obtain ⟨k1, k2⟩ := relayLoop_bytes L env reads 0 0
  unfold transferPayload
  dsimp only
  rcases hend : (recvLoop L (shardSink env) reads 0 0).ending with _ | _ | _
  · -- complete
    rw [hend] at k1 k2
    have hnf : ¬ clientReadFailed (recvLoop L (shardSink env) reads 0 0).events :=
      fun h => by have := k2.mpr h; cases this
    simp only [if_neg (show ¬ LoopEnd.complete = LoopEnd.recvFailed by decide),
      List.append_nil] at k1
    split_ifs
    all_goals
      simp only [shardBytes_append, clientBytes_append, clientReadFailed_append, k1]
      simp [shardBytes, clientBytes, clientReadFailed, Event.toShard, Event.fromClient]
      simpa [clientReadFailed] using hnf
  · -- recvFailed
    rw [hend] at k1 k2
    simp only [if_true, hlit] at k1
    exact ⟨fun h => absurd (k2.mp rfl) h, fun _ => k1⟩
  · -- sinkFailed
    rw [hend] at k1 k2
    have hnf : ¬ clientReadFailed (recvLoop L (shardSink env) reads 0 0).events :=
      fun h => by have := k2.mpr h; cases this
    simp only [if_neg (show ¬ LoopEnd.sinkFailed = LoopEnd.recvFailed by decide),
      List.append_nil] at k1
    exact ⟨fun _ => k1, fun h => absurd h hnf⟩

/-- C9 amended, on a run whose reads all succeed and on a run with a failed read. -/
theorem relay_bytes_preserved_witness :
    shardBytes (transferPayload { home := "/h".toList, shardIn := [.data "READY".toList,
      .data "SIZE_ACK".toList, .data "SUCCESS".toList] }
      [.data "ab".toList, .data "c".toList] 3).1 = "abc".toList ∧
    shardBytes (transferPayload { home := "/h".toList } [.data "ab".toList, .error] 5).1 =
      "ab".toList ++ "ERROR: File receive error".toList := by
  constructor
  · refine ((relay_bytes_preserved { home := "/h".toList, shardIn := [.data "READY".toList,
      .data "SIZE_ACK".toList, .data "SUCCESS".toList] }
      [.data "ab".toList, .data "c".toList] 3).1 ?_).trans (by decide)
    have hev : (transferPayload { home := "/h".toList, shardIn := [.data "READY".toList,
        .data "SIZE_ACK".toList, .data "SUCCESS".toList] }
        [.data "ab".toList, .data "c".toList] 3).1 =
        [.recv .client (.data "ab".toList), .send .shard "ab".toList,
          .recv .client (.data "c".toList), .send .shard "c".toList,
          .recv .shard (.data "SUCCESS".toList), .send .client "SUCCESS".toList,
          .close .shard] := by decide
    rw [hev]
    rintro ⟨r, hr, hle⟩
    simp only [List.mem_cons, List.mem_singleton, List.not_mem_nil, or_false] at hr
    rcases hr with hr | hr | hr | hr | hr | hr | hr
    all_goals first
      | (cases hr; revert hle; decide)
      | cases hr
  · exact ((relay_bytes_preserved { home := "/h".toList } [.data "ab".toList, .error] 5).2
      ⟨.error, by decide, by decide⟩).trans (by decide)

/-! ## Facts about the handshake of `transferFileToServer` -/

theorem ready_test (r : RecvResult) :
    (decide (r.ret ≤ 0) || !strncmpEq (cstrOf r.buf) "READY".toList 5) = false ↔
      readyReply r := by
  have hp : strncmpEq (cstrOf r.buf) "READY".toList 5 = true ↔
      List.IsPrefix "READY".toList (cstrOf r.buf) := by
    rw [List.prefix_iff_eq_take]
    simp only [strncmpEq, beq_iff_eq]
    have : ("READY".toList).take 5 = "READY".toList := by decide
    rw [this]
    have : "READY".toList.length = 5 := by decide
    rw [this]
    exact eq_comm
  simp only [readyReply, Bool.or_eq_false_iff, decide_eq_false_iff_not, not_le,
    Bool.not_eq_false', hp]

theorem ack_test (r : RecvResult) :
    (decide (r.ret ≤ 0) || !strcmpEq (cstrOf r.buf) "SIZE_ACK".toList) = false ↔
      sizeAckReply r := by
  simp only [sizeAckReply, Bool.or_eq_false_iff, decide_eq_false_iff_not, not_le,
    Bool.not_eq_false', strcmpEq, beq_iff_eq]

theorem transfer_handshake_failed (env : Env) (reads : List RecvResult) (dest : CStr)
    (port L : Int)
    (h : ¬ (env.socketOk = true ∧ env.inetOk = true ∧ env.connectOk = true ∧
      env.sendCmdOk = true ∧ readyReply (nextRecv env.shardIn) ∧ env.sendSizeOk = true ∧
      sizeAckReply (nextRecv env.shardIn.tail))) :
    quietTowardsClient (transferFileToServer env reads dest port L).1 := by
  unfold transferFileToServer
  dsimp only
  split_ifs with h1 h2 h3 h4 h5 h6 h7 h8
  all_goals first
    | (exfalso
       apply h
       rw [← ready_test, ← ack_test]
       exact ⟨by simpa using h1, by simpa using h2, by simpa using h3, by simpa using h4,
         by simpa using h5, by simpa using h6, by simpa using h7⟩)
    | (constructor
       · simp only [List.mem_cons, List.mem_append, List.mem_singleton, List.not_mem_nil,
           or_false, not_or]
         simp
         try decide
       · intro r
         simp)

theorem transfer_handshake_passed (env : Env) (reads : List RecvResult) (dest : CStr)
    (port L : Int)
    (h : env.socketOk = true ∧ env.inetOk = true ∧ env.connectOk = true ∧
      env.sendCmdOk = true ∧ readyReply (nextRecv env.shardIn) ∧ env.sendSizeOk = true ∧
      sizeAckReply (nextRecv env.shardIn.tail)) :
    ∃ rest : List Event, (transferFileToServer env reads dest port L).1 =
      [.socket, .connect port, .send .shard (snprintf BUFFER_SIZE ("UPLOAD ".toList ++ dest)),
        .recv .shard (nextRecv env.shardIn),
        .send .shard (snprintf BUFFER_SIZE (ldTextInt L)),
        .recv .shard (nextRecv env.shardIn.tail),
        .send .client "SIZE_ACK".toList] ++ rest := by
  obtain ⟨h1, h2, h3, h4, h5, h6, h7⟩ := h
  rw [← ready_test] at h5
  rw [← ack_test] at h7
  unfold transferFileToServer
  simp only [h1, h2, h3, h4, h5, h6, h7, Bool.not_true, Bool.false_eq_true, if_false]
  split_ifs
  · exact ⟨_, rfl⟩
  · exact ⟨_, rfl⟩

/-! ## C10: SIZE_ACK to the client comes after the shard's two replies -/

/-- C10 as stated fails: the shard's first reply "READYX" is not READY, yet
`transferFileToServer` goes on, sends SIZE_ACK to the client and reads a payload
chunk from the client. -/
theorem size_ack_after_wrong_ready :
    (transferFileToServer { home := "/h".toList, shardIn := [.data "READYX".toList,
        .data "SIZE_ACK".toList, .data "SUCCESS".toList] }
      [.data "a".toList] "~/S2/a.pdf".toList 8081 1).1 =
      [.socket, .connect 8081, .send .shard "UPLOAD ~/S2/a.pdf".toList,
        .recv .shard (.data "READYX".toList), .send .shard "1".toList,
        .recv .shard (.data "SIZE_ACK".toList), .send .client "SIZE_ACK".toList,
        .recv .client (.data "a".toList), .send .shard "a".toList,
        .recv .shard (.data "SUCCESS".toList), .send .client "SUCCESS".toList,
        .close .shard] ∧
    cstrOf (RecvResult.data "READYX".toList).buf ≠ "READY".toList := by
  decide

/-- C10 amended: on every run of `transferFileToServer` on which the shard's first
reply is missing or does not begin with READY, or its second reply is missing
or is not SIZE_ACK, the client is sent no SIZE_ACK and nothing is read from the
client; and on every run on which the client is sent SIZE_ACK or is read from,
both replies passed those tests and the run begins with the UPLOAD command, the
first reply, the forwarded size and the second reply, in this order, before the
SIZE_ACK to the client. -/
theorem size_ack_only_after_handshake (env : Env) (reads : List RecvResult) (dest : CStr)
    (port L : Int) :
    (¬ (readyReply (nextRecv env.shardIn) ∧ sizeAckReply (nextRecv env.shardIn.tail)) →
      quietTowardsClient (transferFileToServer env reads dest port L).1) ∧
    ((Event.send .client "SIZE_ACK".toList ∈ (transferFileToServer env reads dest port L).1 ∨
        ∃ r : RecvResult,
          Event.recv .client r ∈ (transferFileToServer env reads dest port L).1) →
      readyReply (nextRecv env.shardIn) ∧ sizeAckReply (nextRecv env.shardIn.tail) ∧
      ∃ rest : List Event, (transferFileToServer env reads dest port L).1 =
        [.socket, .connect port,
          .send .shard (snprintf BUFFER_SIZE ("UPLOAD ".toList ++ dest)),
          .recv .shard (nextRecv env.shardIn),
          .send .shard (snprintf BUFFER_SIZE (ldTextInt L)),
          .recv .shard (nextRecv env.shardIn.tail),
          .send .client "SIZE_ACK".toList] ++ rest) := by
  constructor
  · intro h
    exact transfer_handshake_failed env reads dest port L
      (fun hh => h ⟨hh.2.2.2.2.1, hh.2.2.2.2.2.2⟩)
  · intro h
    by_cases hok : env.socketOk = true ∧ env.inetOk = true ∧ env.connectOk = true ∧
        env.sendCmdOk = true ∧ readyReply (nextRecv env.shardIn) ∧ env.sendSizeOk = true ∧
        sizeAckReply (nextRecv env.shardIn.tail)
    · exact ⟨hok.2.2.2.2.1, hok.2.2.2.2.2.2,
        transfer_handshake_passed env reads dest port L hok⟩
    · have hq := transfer_handshake_failed env reads dest port L hok
      rcases h with h | ⟨r, hr⟩
      · exact absurd h hq.1
      · exact absurd hr (hq.2 r)

/-- C10 amended, on a run whose handshake passes and on a run whose first shard
reply is "NOPE". -/
theorem size_ack_only_after_handshake_witness :
    (∃ rest : List Event, (transferFileToServer { home := "/h".toList, shardIn := [.data "READY".toList,
        .data "SIZE_ACK".toList, .data "SUCCESS".toList] }
      [.data "a".toList] "~/S2/a.pdf".toList 8081 1).1 =
      [.socket, .connect 8081, .send .shard "UPLOAD ~/S2/a.pdf".toList,
        .recv .shard (.data "READY".toList), .send .shard "1".toList,
        .recv .shard (.data "SIZE_ACK".toList), .send .client "SIZE_ACK".toList] ++ rest) ∧
    quietTowardsClient (transferFileToServer { home := "/h".toList, shardIn := [.data "NOPE".toList,
        .data "SIZE_ACK".toList] }
      [.data "a".toList] "~/S2/a.pdf".toList 8081 1).1 :=
  ⟨((size_ack_only_after_handshake { home := "/h".toList, shardIn := [.data "READY".toList,
        .data "SIZE_ACK".toList, .data "SUCCESS".toList] }
      [.data "a".toList] "~/S2/a.pdf".toList 8081 1).2 (Or.inl (by decide))).2.2,
   (size_ack_only_after_handshake { home := "/h".toList, shardIn := [.data "NOPE".toList,
        .data "SIZE_ACK".toList] }
      [.data "a".toList] "~/S2/a.pdf".toList 8081 1).1
      (fun h => absurd h.1.2 (by decide))⟩

/-! ## Facts about paths and about the forwarding of an upload -/

theorem snprintf_of_length {n : Nat} {s : CStr} (h : s.length < n) : snprintf n s = s := by
  unfold snprintf
  exact List.take_of_length_le (by omega)

theorem strrchr_append_some (pre f : CStr) (c : Char) (j : Nat) (h : strrchr f c = some j) :
    strrchr (pre ++ f) c = some (pre.length + j) := by
  induction pre with
  | nil => simpa using h
  | cons x xs ih =>
    rw [List.cons_append, strrchr, ih]
    simp only [List.length_cons, Option.some.injEq]
    omega

theorem getFileExtension_append_left (pre f : CStr) (h : getFileExtension f ≠ []) :
    getFileExtension (pre ++ f) = getFileExtension f := by
  unfold getFileExtension at h ⊢
  cases hs : strrchr f '.' with
  | none => simp [hs] at h
  | some j =>
    cases j with
    | zero => simp [hs] at h
    | succ i =>
      have := strrchr_append_some pre f '.' (i + 1) hs
      have e : pre.length + (i + 1) = (pre.length + i) + 1 := by omega
      rw [e] at this
      simp only [this]
      have e2 : pre.length + i + 2 = pre.length + (i + 2) := by omega
      rw [e2, List.drop_append]

theorem uploadFilename_length (a : CStr) : (uploadFilename a).length ≤ a.length := by
  unfold uploadFilename snprintf
  split
  · split_ifs <;> simp only [List.length_take, List.length_drop] <;> omega
  · simp only [List.length_take]; omega

theorem noFileWrite_append (a b : List Event) :
    noFileWrite (a ++ b) = (noFileWrite a && noFileWrite b) := by
  simp [noFileWrite, List.all_append]

theorem recvLoop_shardSink_noWrite (L : Int) (env : Env) :
    ∀ (reads : List RecvResult) (total : Int) (i : Nat),
      noFileWrite (recvLoop L (shardSink env) reads total i).events = true := by
  intro reads
  induction reads with
  | nil =>
    intro total i
    unfold recvLoop
    split_ifs <;> simp [noFileWrite, shardSink, Event.writesFile]
  | cons r rest ih =>
    intro total i
    have := ih (total + r.ret) (i + 1)
    unfold recvLoop
    split_ifs
    · simp [noFileWrite, shardSink, Event.writesFile]
    · simp [noFileWrite, shardSink, Event.writesFile]
    · simp only [noFileWrite, List.all_cons] at this ⊢
      rw [this]
      simp [shardSink, Event.writesFile]
    · simp [noFileWrite]

theorem transferPayload_noWrite (env : Env) (reads : List RecvResult) (L : Int) :
    noFileWrite (transferPayload env reads L).1 = true := by
  have hl := recvLoop_shardSink_noWrite L env reads 0 0
  unfold transferPayload
  dsimp only
  split
  · exact hl
  · exact hl
  · split_ifs <;>
      simp only [noFileWrite_append, hl, Bool.true_and] <;>
      simp [noFileWrite, Event.writesFile]

theorem transferFileToServer_noWrite (env : Env) (reads : List RecvResult) (dest : CStr)
    (port L : Int) :
    noFileWrite (transferFileToServer env reads dest port L).1 = true := by
  have hp := transferPayload_noWrite env reads L
  unfold transferFileToServer
  dsimp only
  split_ifs <;>
    simp only [noFileWrite_append, hp, Bool.and_true] <;>
    simp [noFileWrite, Event.writesFile]

theorem transferFileToServer_start (env : Env) (reads : List RecvResult) (dest : CStr)
    (port L : Int) (h1 : env.socketOk = true) (h2 : env.inetOk = true)
    (h3 : env.connectOk = true) :
    ∃ rest : List Event, (transferFileToServer env reads dest port L).1 =
      [.socket, .connect port, .send .shard (snprintf BUFFER_SIZE ("UPLOAD ".toList ++ dest))]
        ++ rest := by
  unfold transferFileToServer
  simp only [h1, h2, h3, Bool.not_true, Bool.false_eq_true, if_false]
  split_ifs <;> exact ⟨_, rfl⟩

theorem uploadDestPath_eq (sh : Shard) (d f : CStr) (hext : getFileExtension f = sh.ext)
    (hlen : (sh.marker ++ d ++ '/' :: f).length < MAX_PATH_LENGTH) :
    uploadDestPath ("~/S1".toList ++ d) f (getFileExtension f) = sh.marker ++ d ++ '/' :: f := by
  have h3 : strncmpEq ("~/S1".toList ++ d) "~/S1".toList 3 = true := by
    simp [strncmpEq]
  have hd : ("~/S1".toList ++ d).drop 4 = d := by simp
  unfold uploadDestPath
  simp only [h3, if_true, hd, hext]
  cases sh
  · have : strcmpEq Shard.s2.ext "pdf".toList = true := by decide
    simp only [this, if_true]
    exact snprintf_of_length hlen
  · have h1 : strcmpEq Shard.s3.ext "pdf".toList = false := by decide
    have h2 : strcmpEq Shard.s3.ext "txt".toList = true := by decide
    simp only [h1, h2, if_true, Bool.false_eq_true, if_false]
    exact snprintf_of_length hlen
  · have h1 : strcmpEq Shard.s4.ext "pdf".toList = false := by decide
    have h2 : strcmpEq Shard.s4.ext "txt".toList = false := by decide
    have h4 : strcmpEq Shard.s4.ext "zip".toList = true := by decide
    simp only [h1, h2, h4, if_true, Bool.false_eq_true, if_false]
    exact snprintf_of_length hlen

theorem getServerPort_of_ext (sh : Shard) (f : CStr) (hext : getFileExtension f = sh.ext) :
    getServerPort f = sh.port := by
  unfold getServerPort
  simp only [hext]
  cases sh <;> decide

theorem shard_accepts_dest (sh : Shard) (d f : CStr) (hext : getFileExtension f = sh.ext) :
    strncmpEq (sh.marker ++ d ++ '/' :: f) sh.marker 4 = true ∧
    strcmpEq (getFileExtension (sh.marker ++ d ++ '/' :: f)) sh.ext = true ∧
    (sh.marker ++ d ++ '/' :: f).drop 1 = sh.dirName ++ d ++ '/' :: f := by
  have hne : getFileExtension f ≠ [] := by
    rw [hext]; cases sh <;> decide
  have he : getFileExtension (sh.marker ++ d ++ '/' :: f) = sh.ext := by
    have := getFileExtension_append_left (sh.marker ++ d ++ ['/']) f hne
    simp only [List.append_assoc, List.singleton_append] at this
    rw [List.append_assoc, this, hext]
  refine ⟨?_, ?_, ?_⟩
  · cases sh <;> simp [strncmpEq, Shard.marker]
  · rw [he]; simp [strcmpEq]
  · cases sh <;> simp [Shard.marker, Shard.dirName]

/-! ## C8: an upload of a remote class goes to the owning shard -/

/-- C8: let `uploadf` name the server directory `~/S1` followed by `d` and a file
whose name `f` has the extension of shard `sh` (the two arguments coming from one
command line of at most 1023 bytes). Then on every run S1 writes no file and
leaves its files as they were; on every run that gets as far as the shard
connection S1 connects to the port of `sh` and first sends it `UPLOAD` with the
path made of the marker of `sh`, `d`, a slash and `f`; and `handleUpload` of `sh`
passes that path through both of its tests and receives the file at the home
directory followed by the directory of `sh`, `d`, a slash and `f`. -/
theorem upload_forwarded_to_owning_shard (sh : Shard) (cmd : Command) (d f : CStr)
    (harg2 : cmd.arg2 = "~/S1".toList ++ d)
    (hf : uploadFilename cmd.arg1 = f)
    (hext : getFileExtension f = sh.ext)
    (hlen : cmd.arg1.length + cmd.arg2.length ≤ 1014) :
    (∀ env : Env, (processUploadf env cmd).fs = env.fs ∧
      noFileWrite (processUploadf env cmd).events = true) ∧
    (∀ env : Env, env.mkdirOk = true → env.sendReadyOk = true →
      0 < (nextRecv env.clientIn).ret →
      (0 < atol (cstrOf (nextRecv env.clientIn).buf) ∧
        atol (cstrOf (nextRecv env.clientIn).buf) ≤ 104857600) →
      env.socketOk = true → env.inetOk = true → env.connectOk = true →
      ∃ rest : List Event, (processUploadf env cmd).events =
        [.mkdirs (uploadActualDir env.home cmd.arg2), .send .client "READY".toList,
          .recv .client (nextRecv env.clientIn), .socket, .connect sh.port,
          .send .shard ("UPLOAD ".toList ++ (sh.marker ++ d ++ '/' :: f))] ++ rest) ∧
    (strncmpEq (sh.marker ++ d ++ '/' :: f) sh.marker 4 = true ∧
      strcmpEq (getFileExtension (sh.marker ++ d ++ '/' :: f)) sh.ext = true) ∧
    (∀ (env : Env) (n : Int),
      (env.home ++ (sh.dirName ++ d ++ '/' :: f)).length < MAX_PATH_LENGTH →
      env.mkdirOk = true → 0 < (nextRecv env.clientIn).ret →
      atol (cstrOf (nextRecv env.clientIn).buf) = n → (0 < n ∧ n ≤ 104857600) →
      (sh.handleUpload env (sh.marker ++ d ++ '/' :: f)).map Run.events = some (
        (if 0 < (dirPart (env.home ++ (sh.dirName ++ d ++ '/' :: f))).length
          then [.mkdirs (dirPart (env.home ++ (sh.dirName ++ d ++ '/' :: f)))] else []) ++
        [.send .client "READY".toList, .recv .client (nextRecv env.clientIn),
          .send .client "SIZE_ACK".toList] ++
        (sh.receiveFile env env.clientIn.tail
          (env.home ++ (sh.dirName ++ d ++ '/' :: f)) n).events)) := by
  have hfl : f.length ≤ cmd.arg1.length := hf ▸ uploadFilename_length cmd.arg1
  have hmark : sh.marker.length = 4 := by cases sh <;> rfl
  have h2len : cmd.arg2.length = 4 + d.length := by
    rw [harg2]; simp; omega
  have hdestlen : (sh.marker ++ d ++ '/' :: f).length ≤ 1015 := by
    simp only [List.length_append, List.length_cons, hmark]; omega
  have ha1 : snprintf MAX_PATH_LENGTH cmd.arg1 = cmd.arg1 :=
    snprintf_of_length (by simp only [MAX_PATH_LENGTH]; omega)
  have ha2 : snprintf MAX_PATH_LENGTH cmd.arg2 = cmd.arg2 :=
    snprintf_of_length (by simp only [MAX_PATH_LENGTH]; omega)
  have hsp : (strncmpEq cmd.arg2 "~/S1".toList 3 || strncmpEq cmd.arg2 "~S1".toList 2) = true := by
    rw [harg2]; simp [strncmpEq]
  have hport : getServerPort f = sh.port := getServerPort_of_ext sh f hext
  have hport' : getServerPort f ≠ -1 := by rw [hport]; cases sh <;> decide
  have hdest : uploadDestPath cmd.arg2 f (getFileExtension f) = sh.marker ++ d ++ '/' :: f := by
    rw [harg2]
    exact uploadDestPath_eq sh d f hext (by simp only [MAX_PATH_LENGTH]; omega)
  have hcmd : snprintf BUFFER_SIZE ("UPLOAD ".toList ++ (sh.marker ++ d ++ '/' :: f)) =
      "UPLOAD ".toList ++ (sh.marker ++ d ++ '/' :: f) :=
    snprintf_of_length (by
      have : "UPLOAD ".toList.length = 7 := by decide
      rw [List.length_append, this]; simp only [BUFFER_SIZE]; omega)
  have hlitR : lit "READY" 5 = "READY".toList := by decide
  have hlitA : lit "SIZE_ACK" 8 = "SIZE_ACK".toList := by decide
  have htrans : ∀ (env : Env) (n : Int), uploadTransfer env cmd.arg2 f n =
      ⟨(transferFileToServer env env.clientIn.tail (sh.marker ++ d ++ '/' :: f) sh.port n).1,
        env.fs⟩ := by
    intro env n
    have hp2 : ¬ sh.port = -1 := by cases sh <;> decide
    unfold uploadTransfer
    simp only [hdest, hport, if_true, ne_eq, not_false_eq_true, hp2]
  obtain ⟨hs1, hs2, hs3⟩ := shard_accepts_dest sh d f hext
  refine ⟨?_, ?_, ⟨hs1, hs2⟩, ?_⟩
  · intro env
    unfold processUploadf
    simp only [ha1, ha2, hsp, hf, htrans, Bool.not_true, Bool.false_eq_true, if_false]
    split_ifs <;>
      (try simp only [noFileWrite_append, transferFileToServer_noWrite, Bool.and_true]) <;>
      simp [noFileWrite, Event.writesFile, invalidSize]
  · intro env hmk hready hrecv hv hso hin hco
    have hev := processUploadf_events _ env cmd (by rw [ha2]; exact hsp) hmk hready hrecv rfl
    rw [if_pos hv, ha1, ha2, hf, htrans] at hev
    obtain ⟨rest, hrest⟩ := transferFileToServer_start env env.clientIn.tail
      (sh.marker ++ d ++ '/' :: f) sh.port (atol (cstrOf (nextRecv env.clientIn).buf)) hso hin hco
    refine ⟨rest, ?_⟩
    rw [hev]
    simp only [hrest, hcmd, hlitR]
    rfl
  · intro env n hfit hmk hrecv hn hv
    have hev := shard_handleUpload_events n sh env (sh.marker ++ d ++ '/' :: f) hs1 hs2
      (by rw [hs3]; exact hfit) hmk hrecv hn
    rw [if_pos hv, hs3, hlitR, hlitA] at hev
    rw [hev]
    simp

/-- C8 for `uploadf docs/a.pdf ~/S1/x` with a declared size of 3 bytes. -/
theorem upload_forwarded_to_owning_shard_witness :
    noFileWrite (processUploadf { home := "/h".toList, clientIn := [.data "3".toList] }
      ⟨"uploadf".toList, "docs/a.pdf".toList, "~/S1/x".toList⟩).events = true ∧
    (∃ rest : List Event,
      (processUploadf { home := "/h".toList, clientIn := [.data "3".toList] }
        ⟨"uploadf".toList, "docs/a.pdf".toList, "~/S1/x".toList⟩).events =
      [.mkdirs "/h/S1/x".toList, .send .client "READY".toList,
        .recv .client (.data "3".toList), .socket, .connect 8081,
        .send .shard "UPLOAD ~/S2/x/a.pdf".toList] ++ rest) ∧
    (Shard.s2.handleUpload { home := "/h".toList, clientIn := [.data "3".toList,
        .data "abc".toList] } "~/S2/x/a.pdf".toList).map Run.events =
      some [.mkdirs "/h/S2/x".toList, .send .client "READY".toList,
        .recv .client (.data "3".toList), .send .client "SIZE_ACK".toList,
        .fopen "/h/S2/x/a.pdf".toList, .recv .client (.data "abc".toList),
        .fwrite "abc".toList, .fclose, .send .client "SUCCESS".toList] := by
  have T := upload_forwarded_to_owning_shard .s2
    ⟨"uploadf".toList, "docs/a.pdf".toList, "~/S1/x".toList⟩ "/x".toList "a.pdf".toList
    rfl (by decide) (by decide) (by decide)
  refine ⟨(T.1 _).2, ?_, ?_⟩
  · exact T.2.1 { home := "/h".toList, clientIn := [.data "3".toList] } rfl rfl
      (by decide) (by decide) rfl rfl rfl
  · exact (T.2.2.2 { home := "/h".toList, clientIn := [.data "3".toList,
      .data "abc".toList] } 3 (by decide) rfl (by decide) (by decide) (by decide)).trans
      (by decide)

/-! ## Facts about the local store and the local download -/

theorem storeLocal_complete (env : Env) (chunks : List (List Char)) (rest : List RecvResult)
    (p : CStr) (L : Int)
    (hne : ∀ c ∈ chunks, c ≠ []) (hsum : (chunks.flatten.length : Int) = L)
    (hopen : env.fopenOk = true) (hw : ∀ i n, env.fwriteRet i n = n)
    (hclose : env.fcloseOk = true) :
    (storeLocal env (chunks.map .data ++ rest) p L).events =
      .fopen p :: chunkEvents (checkedFileSink env p 24) chunks ++
        [.fclose, .stat p, .send .client "SUCCESS".toList] ∧
    (storeLocal env (chunks.map .data ++ rest) p L).fs = env.fs.set p (some chunks.flatten) := by
  have hlit : lit "SUCCESS" 7 = "SUCCESS".toList := by decide
  have hc := recvLoop_complete L (checkedFileSink env p 24)
    (checkedFileSink_complete env p 24 hw).1
    (checkedFileSink_complete env p 24 hw).2 chunks rest 0 0 hne (by omega)
  have hex : ∀ c : List Char, fileExists (env.fs.set p (some c)) p = true := by
    intro c; simp [fileExists, FS.set]
  constructor
  · simp only [storeLocal, hopen, hclose, hc, hex, Bool.not_true, Bool.false_eq_true, if_false,
      hlit, List.cons_append]
  · simp only [storeLocal, hopen, hclose, hc, hex, Bool.not_true, Bool.false_eq_true, if_false]

theorem ldText_fits (n : Nat) (h : n ≤ 104857600) :
    snprintf BUFFER_SIZE (ldText n) = ldText n := by
  apply snprintf_of_length
  have := Nat.toDigitsCore_length 10 (by decide) (n + 1) n 9 (by omega) (by decide)
  simp only [ldText, Nat.toDigits, BUFFER_SIZE]
  omega

theorem freadLoop_complete (env : Env) (hs : ∀ i, env.sendChunkOk i = true)
    (hr : env.freadErrAt = none) :
    ∀ (fuel : Nat) (unread : List Char) (i : Nat), unread.length ≤ fuel →
      ∃ sends : List (List Char), sends.flatten = unread ∧
        freadLoop env fuel unread i = (sends.map (Event.send .client), .complete) := by
  intro fuel
  induction fuel with
  | zero =>
    intro unread i h
    have : unread = [] := List.length_eq_zero.mp (by omega)
    exact ⟨[], by simp [this], by simp [freadLoop]⟩
  | succ fuel ih =>
    intro unread i h
    by_cases hu : unread = []
    · exact ⟨[], by simp [hu], by simp [freadLoop, hr, hu]⟩
    · have hpos : 0 < unread.length := List.length_pos.mpr hu
      have hlen : (unread.drop BUFFER_SIZE).length ≤ fuel := by
        simp only [List.length_drop, BUFFER_SIZE]; omega
      obtain ⟨sends, hflat, hloop⟩ := ih (unread.drop BUFFER_SIZE) (i + 1) hlen
      refine ⟨unread.take BUFFER_SIZE :: sends, ?_, ?_⟩
      · simp [hflat]
      · have hc : ¬ (unread.take BUFFER_SIZE).length = 0 := by
          simp only [List.length_take, BUFFER_SIZE]; omega
        simp only [freadLoop, hr, hs, hc, hloop, if_false, Bool.not_true, Bool.false_eq_true,
          List.map_cons]
        simp

theorem handleUploadLocal_eq (env : Env) (reads : List RecvResult) (d f : CStr) (L : Int)
    (hslash : '/' ∉ f)
    (hfit : (env.home ++ "/S1".toList ++ d ++ '/' :: f).length < MAX_PATH_LENGTH)
    (hdir : env.dirOk = true) :
    (handleUploadLocal env reads ("~/S1".toList ++ d ++ '/' :: f) L).events =
      .stat (env.home ++ "/S1".toList ++ d) ::
        (storeLocal env reads (env.home ++ "/S1".toList ++ d ++ '/' :: f) L).events ∧
    (handleUploadLocal env reads ("~/S1".toList ++ d ++ '/' :: f) L).fs =
      (storeLocal env reads (env.home ++ "/S1".toList ++ d ++ '/' :: f) L).fs := by
  have h3 : strncmpEq ("~/S1".toList ++ d ++ '/' :: f) "~/S1".toList 3 = true := by
    simp [strncmpEq]
  have hdrop : env.home ++ ("~/S1".toList ++ d ++ '/' :: f).drop 1 =
      env.home ++ "/S1".toList ++ d ++ '/' :: f := by simp
  have hP : localActualPath env.home ("~/S1".toList ++ d ++ '/' :: f) =
      env.home ++ "/S1".toList ++ d ++ '/' :: f := by
    unfold localActualPath
    rw [if_pos h3, hdrop]
    exact snprintf_of_length hfit
  have hstr := strrchr_append_cons (env.home ++ "/S1".toList ++ d) f '/' hslash
  have htake : (env.home ++ "/S1".toList ++ d ++ '/' :: f).take
      (env.home ++ "/S1".toList ++ d).length = env.home ++ "/S1".toList ++ d :=
    List.take_left' rfl
  have hpos : 0 < (env.home ++ "/S1".toList ++ d).length := by simp
  unfold handleUploadLocal
  simp only [hP, snprintf_of_length hfit, hstr, htake, hpos, hdir, if_true, Bool.not_true,
    Bool.and_false, Bool.false_eq_true, if_false, List.singleton_append, and_self]

theorem downloadLocal_path (home d f : CStr) (hd : d = [] ∨ d.head? = some '/')
    (hslash : '/' ∉ f)
    (hfit : (home ++ "/S1".toList ++ d ++ '/' :: f).length < MAX_PATH_LENGTH) :
    strrchr ("~/S1".toList ++ d ++ '/' :: f) '/' = some ("~/S1".toList ++ d).length ∧
    (if strncmpEq ("~/S1".toList ++ d ++ '/' :: f) "~/S1/".toList 5 then
        snprintf MAX_PATH_LENGTH (home ++ ("~/S1".toList ++ d ++ '/' :: f).drop 1)
      else if strncmpEq ("~/S1".toList ++ d ++ '/' :: f) "~S1/".toList 4 then
        snprintf MAX_PATH_LENGTH (home ++ '/' :: ("~/S1".toList ++ d ++ '/' :: f).drop 2)
      else snprintf MAX_PATH_LENGTH ("~/S1".toList ++ d ++ '/' :: f)) =
      home ++ "/S1".toList ++ d ++ '/' :: f := by
  constructor
  · exact strrchr_append_cons ("~/S1".toList ++ d) f '/' hslash
  · have h5 : strncmpEq ("~/S1".toList ++ d ++ '/' :: f) "~/S1/".toList 5 = true := by
      rcases hd with hd | hd
      · subst hd; simp [strncmpEq]
      · cases d with
        | nil => simp at hd
        | cons x xs =>
          simp only [List.head?_cons, Option.some.injEq] at hd
          subst hd
          simp [strncmpEq]
    have hdrop : home ++ ("~/S1".toList ++ d ++ '/' :: f).drop 1 =
        home ++ "/S1".toList ++ d ++ '/' :: f := by simp
    rw [if_pos h5, hdrop]
    exact snprintf_of_length hfit

theorem handleDownloadLocal_local (env : Env) (d f : CStr) (content : List Char)
    (hd : d = [] ∨ d.head? = some '/') (hslash : '/' ∉ f) (hlocal : getServerPort f = -1)
    (hfit : (env.home ++ "/S1".toList ++ d ++ '/' :: f).length < MAX_PATH_LENGTH)
    (hfile : env.fs (env.home ++ "/S1".toList ++ d ++ '/' :: f) = some content)
    (hmax : content.length ≤ 104857600)
    (hopen : env.fopenOk = true) (hsend : env.sendSizeOk = true)
    (hs : ∀ i, env.sendChunkOk i = true) (hr : env.freadErrAt = none)
    (hack : sizeAckReply (nextRecv env.clientIn)) :
    ∃ sends : List (List Char), sends.flatten = content ∧
      handleDownloadLocal env ("~/S1".toList ++ d ++ '/' :: f) =
        [.stat (env.home ++ "/S1".toList ++ d ++ '/' :: f),
          .fopenRead (env.home ++ "/S1".toList ++ d ++ '/' :: f),
          .send .client (ldText content.length), .recv .client (nextRecv env.clientIn)] ++
        sends.map (Event.send .client) ++
        [.fclose, .recv .client (nextRecv env.clientIn.tail)] := by
  obtain ⟨hstr, hP⟩ := downloadLocal_path env.home d f hd hslash hfit
  have hflen : f.length < MAX_PATH_LENGTH := by
    simp only [List.length_append, List.length_cons] at hfit; omega
  have hname : (("~/S1".toList ++ d ++ '/' :: f).drop (("~/S1".toList ++ d).length + 1)).take
      (MAX_PATH_LENGTH - 1) = f := by
    have : ("~/S1".toList ++ d ++ '/' :: f).drop (("~/S1".toList ++ d).length + 1) = f := by
      rw [← List.drop_drop, List.drop_left' rfl]
      rfl
    rw [this]
    exact List.take_of_length_le (by omega)
  obtain ⟨sends, hflat, hloop⟩ := freadLoop_complete env hs hr (content.length + 1) content 0
    (by omega)
  rw [← ack_test] at hack
  refine ⟨sends, hflat, ?_⟩
  unfold handleDownloadLocal
  simp only [hstr, hname, hlocal, hP, hfile, hopen, hsend, hack, hloop, ldText_fits _ hmax,
    ne_eq, not_true_eq_false, if_false, Bool.not_true, Bool.false_eq_true]
  rfl

/-! ## C7: upload, then download of the same path -/

/-- C7 as stated fails for the server directory `~/S1x`: `uploadf a.c ~/S1x` stores
the byte under the home directory as `/h/S1x/a.c` and replies SUCCESS, but `downlf`
of `~/S1x/a.c` looks the path up unexpanded and replies "ERROR: File not found". -/
theorem roundtrip_fails_without_slash :
    (processUploadf { home := "/h".toList, clientIn := [.data "1".toList, .data "a".toList] }
      ⟨"uploadf".toList, "a.c".toList, "~/S1x".toList⟩).events.getLast? =
      some (.send .client "SUCCESS".toList) ∧
    (processUploadf { home := "/h".toList, clientIn := [.data "1".toList, .data "a".toList] }
      ⟨"uploadf".toList, "a.c".toList, "~/S1x".toList⟩).fs "/h/S1x/a.c".toList =
      some "a".toList ∧
    handleDownloadLocal { home := "/h".toList, clientIn := [.data "SIZE_ACK".toList], fs :=
        (processUploadf { home := "/h".toList, clientIn := [.data "1".toList,
          .data "a".toList] } ⟨"uploadf".toList, "a.c".toList, "~/S1x".toList⟩).fs }
      "~/S1x/a.c".toList =
      [.stat "~/S1x/a.c".toList, .send .client "ERROR: File not found".toList] := by
  decide

/-- C7 amended: let `uploadf` name the server directory `~/S1` followed by `d`, with
`d` empty or beginning with a slash, and a file whose name `f` has no slash and
none of the extensions pdf, txt, zip; let the client declare the length `N` of
the bytes it then sends in chunks of at least one byte, `1 ≤ N ≤ 104857600`, and
let no call fail. Then the upload ends with SUCCESS and leaves the bytes under
the home directory at `/S1`, `d`, a slash and `f`; and a `downlf` of `~/S1`, `d`, a
slash and `f` on those files announces `N` in decimal and, once the client has
answered SIZE_ACK, sends exactly those bytes in order before it closes the
file. -/
theorem upload_download_roundtrip (env : Env) (cmd : Command) (d f : CStr)
    (sizeMsg : List Char) (chunks : List (List Char)) (rest : List RecvResult)
    (harg2 : cmd.arg2 = "~/S1".toList ++ d) (hd : d = [] ∨ d.head? = some '/')
    (hf : uploadFilename cmd.arg1 = f) (hslash : '/' ∉ f) (hlocal : getServerPort f = -1)
    (hlen : env.home.length + cmd.arg1.length + cmd.arg2.length < 1023)
    (hin : env.clientIn = .data sizeMsg :: (chunks.map .data ++ rest))
    (hsz : sizeMsg ≠ []) (hN : atol (cstrOf sizeMsg) = (chunks.flatten.length : Int))
    (hne : ∀ c ∈ chunks, c ≠ [])
    (hpos : 1 ≤ chunks.flatten.length) (hmax : chunks.flatten.length ≤ 104857600)
    (hmk : env.mkdirOk = true) (hready : env.sendReadyOk = true)
    (hack : env.sendAckOk = true) (hdir : env.dirOk = true) (hopen : env.fopenOk = true)
    (hw : ∀ i n, env.fwriteRet i n = n) (hclose : env.fcloseOk = true) :
    (processUploadf env cmd).events.getLast? = some (.send .client "SUCCESS".toList) ∧
    (processUploadf env cmd).fs (env.home ++ "/S1".toList ++ d ++ '/' :: f) =
      some chunks.flatten ∧
    ∀ env2 : Env, env2.home = env.home → env2.fs = (processUploadf env cmd).fs →
      env2.fopenOk = true → env2.sendSizeOk = true → (∀ i, env2.sendChunkOk i = true) →
      env2.freadErrAt = none → sizeAckReply (nextRecv env2.clientIn) →
      ∃ sends : List (List Char), sends.flatten = chunks.flatten ∧
        handleDownloadLocal env2 ("~/S1".toList ++ d ++ '/' :: f) =
          [.stat (env.home ++ "/S1".toList ++ d ++ '/' :: f),
            .fopenRead (env.home ++ "/S1".toList ++ d ++ '/' :: f),
            .send .client (ldText chunks.flatten.length),
            .recv .client (nextRecv env2.clientIn)] ++
          sends.map (Event.send .client) ++
          [.fclose, .recv .client (nextRecv env2.clientIn.tail)] := by
  have hfl : f.length ≤ cmd.arg1.length := hf ▸ uploadFilename_length cmd.arg1
  have h2len : cmd.arg2.length = 4 + d.length := by
    rw [harg2]; simp; omega
  have ha1 : snprintf MAX_PATH_LENGTH cmd.arg1 = cmd.arg1 :=
    snprintf_of_length (by simp only [MAX_PATH_LENGTH]; omega)
  have ha2 : snprintf MAX_PATH_LENGTH cmd.arg2 = cmd.arg2 :=
    snprintf_of_length (by simp only [MAX_PATH_LENGTH]; omega)
  have hsp : (strncmpEq cmd.arg2 "~/S1".toList 3 || strncmpEq cmd.arg2 "~S1".toList 2) = true := by
    rw [harg2]; simp [strncmpEq]
  have hfit : (env.home ++ "/S1".toList ++ d ++ '/' :: f).length < MAX_PATH_LENGTH := by
    simp only [List.length_append, List.length_cons, MAX_PATH_LENGTH]
    have : "/S1".toList.length = 3 := by decide
    omega
  have hfull : snprintf MAX_PATH_LENGTH (cmd.arg2 ++ '/' :: f) =
      "~/S1".toList ++ d ++ '/' :: f := by
    rw [harg2]
    apply snprintf_of_length
    simp only [List.length_append, List.length_cons, MAX_PATH_LENGTH]
    have : "~/S1".toList.length = 4 := by decide
    omega
  have hnext : nextRecv env.clientIn = .data sizeMsg := by rw [hin]; rfl
  have htail : env.clientIn.tail = chunks.map .data ++ rest := by rw [hin]; rfl
  have hret : 0 < (nextRecv env.clientIn).ret := by
    rw [hnext]
    simp only [RecvResult.ret]
    have := List.length_pos.mpr hsz
    omega
  have hatol : atol (cstrOf (nextRecv env.clientIn).buf) = (chunks.flatten.length : Int) := by
    rw [hnext]; exact hN
  have hv : 0 < (chunks.flatten.length : Int) ∧ (chunks.flatten.length : Int) ≤ 104857600 := by
    constructor <;> omega
  have hev := processUploadf_events _ env cmd (by rw [ha2]; exact hsp) hmk hready hret hatol
  have hfs := processUploadf_fs _ env cmd (by rw [ha2]; exact hsp) hmk hready hret hatol hv
  rw [if_pos hv, ha1, ha2, hf] at hev
  rw [ha1, ha2, hf] at hfs
  obtain ⟨hu1, hu2⟩ := handleUploadLocal_eq env (chunks.map .data ++ rest) d f
    (chunks.flatten.length : Int) hslash hfit hdir
  obtain ⟨hs1, hs2⟩ := storeLocal_complete env chunks rest
    (env.home ++ "/S1".toList ++ d ++ '/' :: f) (chunks.flatten.length : Int) hne rfl hopen hw
    hclose
  have htr : uploadTransfer env cmd.arg2 f (chunks.flatten.length : Int) =
      ⟨.send .client (lit "SIZE_ACK" 8) ::
        (handleUploadLocal env (chunks.map .data ++ rest)
          ("~/S1".toList ++ d ++ '/' :: f) (chunks.flatten.length : Int)).events,
        (handleUploadLocal env (chunks.map .data ++ rest)
          ("~/S1".toList ++ d ++ '/' :: f) (chunks.flatten.length : Int)).fs⟩ := by
    unfold uploadTransfer
    simp only [hlocal, hack, hfull, htail, ne_eq, not_true_eq_false, if_false, Bool.not_true,
      Bool.false_eq_true]
  rw [htr] at hev hfs
  simp only at hev hfs
  rw [hu1, hs1] at hev
  rw [hu2, hs2] at hfs
  have hfile : (processUploadf env cmd).fs (env.home ++ "/S1".toList ++ d ++ '/' :: f) =
      some chunks.flatten := by
    rw [hfs]; simp [FS.set]
  refine ⟨?_, hfile, ?_⟩
  · rw [hev]
    have : ∀ (a : List Event) (x y z : Event) (b : List Event) (u v t : Event),
        (a ++ x :: y :: (z :: b ++ [u, v, t])).getLast? = some t := by
      intro a x y z b u v t
      have e : a ++ x :: y :: (z :: b ++ [u, v, t]) = (a ++ x :: y :: z :: b ++ [u, v]) ++ [t] := by
        simp
      rw [e, List.getLast?_concat]
    exact this _ _ _ _ _ _ _ _
  · intro env2 hhome hfs2 hopen2 hsend2 hs hr hack2
    have := handleDownloadLocal_local env2 d f chunks.flatten hd hslash hlocal
      (by rw [hhome]; exact hfit) (by rw [hfs2, hhome]; exact hfile) hmax hopen2 hsend2 hs hr
      hack2
    rw [hhome] at this
    exact this

/-- C7 amended, for `uploadf docs/a.c ~/S1/x` with the three bytes "abc" sent as the
chunks "ab" and "c", then `downlf ~/S1/x/a.c`. -/
theorem upload_download_roundtrip_witness :
    (processUploadf { home := "/h".toList, clientIn := [.data "3".toList, .data "ab".toList,
        .data "c".toList] }
      ⟨"uploadf".toList, "docs/a.c".toList, "~/S1/x".toList⟩).fs "/h/S1/x/a.c".toList =
      some "abc".toList ∧
    ∃ sends : List (List Char), sends.flatten = "abc".toList ∧
      handleDownloadLocal { home := "/h".toList, clientIn := [.data "SIZE_ACK".toList], fs :=
          (processUploadf { home := "/h".toList, clientIn := [.data "3".toList,
            .data "ab".toList, .data "c".toList] }
            ⟨"uploadf".toList, "docs/a.c".toList, "~/S1/x".toList⟩).fs }
        "~/S1/x/a.c".toList =
        [.stat "/h/S1/x/a.c".toList, .fopenRead "/h/S1/x/a.c".toList,
          .send .client "3".toList, .recv .client (.data "SIZE_ACK".toList)] ++
        sends.map (Event.send .client) ++ [.fclose, .recv .client (.data [])] := by
  have T := upload_download_roundtrip
    { home := "/h".toList, clientIn := [.data "3".toList, .data "ab".toList,
      .data "c".toList] }
    ⟨"uploadf".toList, "docs/a.c".toList, "~/S1/x".toList⟩ "/x".toList "a.c".toList
    "3".toList ["ab".toList, "c".toList] [] rfl (Or.inr rfl) (by decide) (by decide)
    (by decide) (by decide) rfl (by decide) (by decide) (by decide) (by decide) (by decide)
    rfl rfl rfl rfl rfl (fun _ _ => rfl) rfl
  exact ⟨T.2.1, T.2.2 _ rfl rfl rfl rfl (fun _ => rfl) rfl ⟨by decide, by decide⟩⟩

/-! ## C11: the two replies `transferFileToServer` waits for -/

/-- C11 as stated fails: the shard answers the UPLOAD command with
"READY: disk full", which is not the token READY, and `transferFileToServer`
goes on to forward the size instead of reporting an error to the client. -/
theorem transfer_continues_on_longer_ready :
    (transferFileToServer { home := "/h".toList, shardIn := [.data "READY: disk full".toList] }
      [] "~/S3/n.txt".toList 8082 7).1 =
      [.socket, .connect 8082, .send .shard "UPLOAD ~/S3/n.txt".toList,
        .recv .shard (.data "READY: disk full".toList), .send .shard "7".toList,
        .recv .shard (.data []),
        .send .client "ERROR: Size acknowledgment failed".toList, .close .shard] ∧
    cstrOf (RecvResult.data "READY: disk full".toList).buf ≠ "READY".toList := by
  decide

/-- C11 amended: on every run of `transferFileToServer` that reaches the shard
(socket, address, connection and the sends to the shard do not fail), the run
goes past the first reply exactly when something was received whose text begins
with READY, and past the second exactly when something was received whose text
is SIZE_ACK. A first reply that fails the test ends the run with the error
"ERROR: Target server not ready" to the client, a second reply that fails ends
it with "ERROR: Size acknowledgment failed"; in both cases the shard connection
is closed and -1 is returned. When both pass, the client is sent SIZE_ACK. -/
theorem transfer_handshake_tokens (env : Env) (reads : List RecvResult) (dest : CStr)
    (port L : Int) (hs : env.socketOk = true) (hi : env.inetOk = true)
    (hc : env.connectOk = true) (hcmd : env.sendCmdOk = true) (hsz : env.sendSizeOk = true) :
    (¬ readyReply (nextRecv env.shardIn) →
      transferFileToServer env reads dest port L =
        ([.socket, .connect port,
          .send .shard (snprintf BUFFER_SIZE ("UPLOAD ".toList ++ dest)),
          .recv .shard (nextRecv env.shardIn),
          .send .client "ERROR: Target server not ready".toList, .close .shard], -1)) ∧
    (readyReply (nextRecv env.shardIn) → ¬ sizeAckReply (nextRecv env.shardIn.tail) →
      transferFileToServer env reads dest port L =
        ([.socket, .connect port,
          .send .shard (snprintf BUFFER_SIZE ("UPLOAD ".toList ++ dest)),
          .recv .shard (nextRecv env.shardIn),
          .send .shard (snprintf BUFFER_SIZE (ldTextInt L)),
          .recv .shard (nextRecv env.shardIn.tail),
          .send .client "ERROR: Size acknowledgment failed".toList, .close .shard], -1)) ∧
    (readyReply (nextRecv env.shardIn) → sizeAckReply (nextRecv env.shardIn.tail) →
      ∃ rest : List Event, (transferFileToServer env reads dest port L).1 =
        [.socket, .connect port,
          .send .shard (snprintf BUFFER_SIZE ("UPLOAD ".toList ++ dest)),
          .recv .shard (nextRecv env.shardIn),
          .send .shard (snprintf BUFFER_SIZE (ldTextInt L)),
          .recv .shard (nextRecv env.shardIn.tail),
          .send .client "SIZE_ACK".toList] ++ rest) := by
  have e30 : lit "ERROR: Target server not ready" 30 = "ERROR: Target server not ready".toList := by
    decide
  have e33 : lit "ERROR: Size acknowledgment failed" 33 =
      "ERROR: Size acknowledgment failed".toList := by decide
  refine ⟨?_, ?_, ?_⟩
  · intro h1
    have h1' : (decide ((nextRecv env.shardIn).ret ≤ 0) ||
        !strncmpEq (cstrOf (nextRecv env.shardIn).buf) "READY".toList 5) = true := by
      rw [← Bool.not_eq_false, ready_test]; exact h1
    unfold transferFileToServer
    simp only [hs, hi, hc, hcmd, h1', Bool.not_true, Bool.false_eq_true, if_false, if_true, e30]
    rfl
  · intro h1 h2
    have h1' := (ready_test _).mpr h1
    have h2' : (decide ((nextRecv env.shardIn.tail).ret ≤ 0) ||
        !strcmpEq (cstrOf (nextRecv env.shardIn.tail).buf) "SIZE_ACK".toList) = true := by
      rw [← Bool.not_eq_false, ack_test]; exact h2
    unfold transferFileToServer
    simp only [hs, hi, hc, hcmd, hsz, h1', h2', Bool.not_true, Bool.false_eq_true, if_false,
      if_true, e33]
    rfl
  · intro h1 h2
    exact transfer_handshake_passed env reads dest port L ⟨hs, hi, hc, hcmd, h1, hsz, h2⟩

/-- C11 amended, on a run whose first shard reply is "BUSY". -/
theorem transfer_handshake_tokens_witness :
    transferFileToServer { home := "/h".toList, shardIn := [.data "BUSY".toList] }
      [] "~/S3/n.txt".toList 8082 7 =
        ([.socket, .connect 8082, .send .shard "UPLOAD ~/S3/n.txt".toList,
          .recv .shard (.data "BUSY".toList),
          .send .client "ERROR: Target server not ready".toList, .close .shard], -1) :=
  ((transfer_handshake_tokens { home := "/h".toList, shardIn := [.data "BUSY".toList] }
      [] "~/S3/n.txt".toList 8082 7 rfl rfl rfl rfl rfl).1
    (fun h => absurd h.2 (by decide))).trans (by decide)

/-! ## Facts about the pump of `forwardDownloadRequest` -/

theorem sentToClient_append (a b : List Event) :
    sentToClient (a ++ b) = sentToClient a ++ sentToClient b := by
  simp [sentToClient, List.filterMap_append]

theorem relayLoop_sent (env : Env) (hs : ∀ i, env.sendChunkOk i = true) :
    ∀ (reads : List RecvResult) (i : Nat),
      sentToClient (relayLoop env reads i).1 = readsUntilClosed reads ∧
      (relayLoop env reads i).2 = true := by
  intro reads
  induction reads with
  | nil => intro i; exact ⟨rfl, rfl⟩
  | cons r rest ih =>
    intro i
    by_cases hr : 0 < r.ret
    · obtain ⟨ih1, ih2⟩ := ih (i + 1)
      simp only [relayLoop, hr, if_true, hs i, Bool.not_true, Bool.false_eq_true, if_false]
      refine ⟨?_, ih2⟩
      have : sentToClient (Event.recv .shard r :: Event.send .client r.buf ::
          (relayLoop env rest (i + 1)).1) =
          r.buf ++ sentToClient (relayLoop env rest (i + 1)).1 := by
        simp [sentToClient, Event.toClient]
      rw [this, ih1]
      simp [readsUntilClosed, hr]
    · simp [relayLoop, readsUntilClosed, hr, sentToClient, Event.toClient]

/-! ## C12, C13: forwarding a download -/

/-- C12 as stated fails: the shard announces the size 1 and then delivers the two
bytes "ab"; `forwardDownloadRequest` sends both to the client, one more than the
announced size. -/
theorem download_pump_exceeds_announced_size :
    forwardDownloadRequest { home := "/h".toList, clientIn := [.data "SIZE_ACK".toList], shardIn := [.data "1".toList,
        .data "ab".toList] } "~/S2/a.pdf".toList 8081 =
      [.socket, .connect 8081, .send .shard "DOWNLOAD ~/S2/a.pdf".toList,
        .recv .shard (.data "1".toList), .send .client "1".toList,
        .recv .client (.data "SIZE_ACK".toList), .send .shard "SIZE_ACK".toList,
        .recv .shard (.data "ab".toList), .send .client "ab".toList,
        .recv .shard (.data []), .send .shard "SUCCESS".toList, .close .shard] ∧
    atol "1".toList = 1 ∧ ("ab".toList.length : Int) > atol "1".toList := by
  decide

/-- C12 amended: on every run of `forwardDownloadRequest` whose handshake passes
(the shard is reached, its first reply is received and does not begin with
ERROR, the client answers SIZE_ACK) and on which no `send` fails, the client is
sent the text of the shard's first reply, the announced size, and after it
every byte of the reads from the shard connection up to the first read that
returns zero or less. The pump stops at that read, whatever size was announced. -/
theorem download_pump_relays_until_closed (env : Env) (path : CStr) (port : Int)
    (hs : env.socketOk = true) (hi : env.inetOk = true) (hc : env.connectOk = true)
    (hcmd : env.sendCmdOk = true) (hr : 0 < (nextRecv env.shardIn).ret)
    (he : strncmpEq (cstrOf (nextRecv env.shardIn).buf) "ERROR".toList 5 = false)
    (hsz : env.sendSizeOk = true) (hack : sizeAckReply (nextRecv env.clientIn))
    (hsa : env.sendAckOk = true) (hsend : ∀ i, env.sendChunkOk i = true) :
    sentToClient (forwardDownloadRequest env path port) =
      cstrOf (nextRecv env.shardIn).buf ++ readsUntilClosed env.shardIn.tail := by
  have hr' : ¬ (nextRecv env.shardIn).ret ≤ 0 := not_le.mpr hr
  have hack' := (ack_test _).mpr hack
  obtain ⟨h1, h2⟩ := relayLoop_sent env hsend env.shardIn.tail 0
  unfold forwardDownloadRequest
  simp only [hs, hi, hc, hcmd, hr', he, hsz, hack', hsa, h2, Bool.not_true, Bool.false_eq_true,
    if_false]
  rw [sentToClient_append, sentToClient_append, h1]
  simp [sentToClient, Event.toClient]

/-- C12 amended, on the run where the shard announces 1 and delivers "ab". -/
theorem download_pump_relays_until_closed_witness :
    sentToClient (forwardDownloadRequest { home := "/h".toList, clientIn := [.data "SIZE_ACK".toList], shardIn := [.data "1".toList,
        .data "ab".toList] } "~/S2/a.pdf".toList 8081) =
      "1ab".toList :=
  (download_pump_relays_until_closed { home := "/h".toList, clientIn := [.data "SIZE_ACK".toList], shardIn := [.data "1".toList,
        .data "ab".toList] } "~/S2/a.pdf".toList 8081
      rfl rfl rfl rfl (by decide) (by decide) rfl ⟨by decide, by decide⟩ rfl (fun _ => rfl)).trans
    (by decide)

/-- C13: when the shard's reply to the forwarded DOWNLOAD command begins with
ERROR, `forwardDownloadRequest` sends the client that reply, as the string the
buffer holds (all bytes of the reply when none is NUL), closes the shard
connection and returns: it reads nothing from the client, so waits for no
SIZE_ACK, reads nothing more from the shard, so relays no payload byte, and
sends the shard nothing after the DOWNLOAD command. -/
theorem download_error_reply_relayed (env : Env) (path : CStr) (port : Int)
    (hs : env.socketOk = true) (hi : env.inetOk = true) (hc : env.connectOk = true)
    (hcmd : env.sendCmdOk = true) (hr : 0 < (nextRecv env.shardIn).ret)
    (he : List.IsPrefix "ERROR".toList (cstrOf (nextRecv env.shardIn).buf)) :
    forwardDownloadRequest env path port =
      [.socket, .connect port,
        .send .shard (snprintf BUFFER_SIZE ("DOWNLOAD ".toList ++ path)),
        .recv .shard (nextRecv env.shardIn),
        .send .client (cstrOf (nextRecv env.shardIn).buf), .close .shard] ∧
    (NUL ∉ (nextRecv env.shardIn).buf →
      cstrOf (nextRecv env.shardIn).buf = (nextRecv env.shardIn).buf) := by
  have hr' : ¬ (nextRecv env.shardIn).ret ≤ 0 := not_le.mpr hr
  have he' : strncmpEq (cstrOf (nextRecv env.shardIn).buf) "ERROR".toList 5 = true := by
    rw [List.prefix_iff_eq_take] at he
    simp only [strncmpEq, beq_iff_eq]
    have h5 : "ERROR".toList.length = 5 := by decide
    rw [h5] at he
    rw [← he]
    decide
  constructor
  · unfold forwardDownloadRequest
    simp only [hs, hi, hc, hcmd, hr', he', Bool.not_true, Bool.false_eq_true, if_false, if_true]
    rfl
  · intro hn
    unfold cstrOf
    rw [List.takeWhile_eq_self_iff]
    intro c hcm
    have : c ≠ NUL := fun h => hn (h ▸ hcm)
    simpa using this

/-- C13 on the reply "ERROR: File not found". -/
theorem download_error_reply_relayed_witness :
    forwardDownloadRequest { home := "/h".toList, shardIn := [.data
        "ERROR: File not found".toList] } "~/S2/a.pdf".toList 8081 =
      [.socket, .connect 8081, .send .shard "DOWNLOAD ~/S2/a.pdf".toList,
        .recv .shard (.data "ERROR: File not found".toList),
        .send .client "ERROR: File not found".toList, .close .shard] :=
  ((download_error_reply_relayed { home := "/h".toList, shardIn := [.data
        "ERROR: File not found".toList] } "~/S2/a.pdf".toList 8081
      rfl rfl rfl rfl (by decide) (by decide)).1).trans (by decide)

/-! ## Facts about `modifyPathForServer` -/

theorem strncmpEq_home_false (home p : CStr) (c : Char) (hh : home.head? = some '/')
    (hc : c ≠ '/') : strncmpEq (c :: p) home home.length = false := by
  cases home with
  | nil => simp at hh
  | cons x xs =>
    simp only [List.head?_cons, Option.some.injEq] at hh
    subst hh
    simp [strncmpEq, hc]

theorem strstr_marker_after_home (home suffix : CStr)
    (h : strstr (home ++ "/S1".toList) "/S1/".toList = none) :
    strstr (home ++ "/S1/".toList ++ suffix) "/S1/".toList = some home.length := by
  induction home with
  | nil => simp [strstr, List.isPrefixOf]
  | cons c t ih =>
    have hsplit : ("/S1/".toList.isPrefixOf (c :: (t ++ "/S1".toList)) = false) ∧
        strstr (t ++ "/S1".toList) "/S1/".toList = none := by
      rw [List.cons_append, strstr] at h
      cases hp : "/S1/".toList.isPrefixOf (c :: (t ++ "/S1".toList)) with
      | true => rw [hp] at h; simp at h
      | false =>
        rw [hp] at h
        simp only [Bool.false_eq_true, if_false, Option.map_eq_none'] at h
        exact ⟨rfl, h⟩
    obtain ⟨hp, hrest⟩ := hsplit
    have hp2 : "/S1/".toList.isPrefixOf (c :: (t ++ "/S1/".toList ++ suffix)) = false := by
      rcases t with _ | ⟨a, _ | ⟨b, _ | ⟨d, t3⟩⟩⟩ <;>
        simp [List.isPrefixOf] at hp ⊢ <;> tauto
    have hi := ih hrest
    rw [List.cons_append, List.cons_append, strstr, hp2, hi]
    rfl

theorem modifyPathForServer_tilde (home pre rest old : CStr) (n : Int)
    (hpre : pre = "~/".toList ∨ pre = "~".toList) (hn : n = 2 ∨ n = 3 ∨ n = 4)
    (hh : home.head? = some '/')
    (hlen : (pre ++ "S1/".toList ++ rest).length < MAX_PATH_LENGTH) :
    modifyPathForServer home (pre ++ "S1/".toList ++ rest) old n =
      pre ++ 'S' :: ldTextInt n ++ '/' :: rest := by
  have hd : ldTextInt n = ['2'] ∨ ldTextInt n = ['3'] ∨ ldTextInt n = ['4'] := by
    rcases hn with h | h | h <;> subst h <;> decide
  rcases hpre with h | h <;> subst h
  · have h0 := strncmpEq_home_false home ("/S1/".toList ++ rest) '~' hh (by decide)
    have hl : ("~/S".toList ++ ldTextInt n ++ '/' :: rest).length < MAX_PATH_LENGTH := by
      rcases hd with h | h | h <;> rw [h] <;>
        simp [MAX_PATH_LENGTH] at hlen ⊢ <;> omega
    have e : ("~/".toList ++ "S1/".toList ++ rest) = '~' :: ("/S1/".toList ++ rest) := rfl
    rw [e]
    unfold modifyPathForServer
    rw [h0]
    have h1 : strncmpEq ('~' :: ("/S1/".toList ++ rest)) "~/S1/".toList 5 = true := by
      simp [strncmpEq]
    simp only [h1, if_true, Bool.false_eq_true, if_false]
    rw [snprintf_of_length]
    · rfl
    · simpa using hl
  · have h0 := strncmpEq_home_false home ("S1/".toList ++ rest) '~' hh (by decide)
    have hl : ("~S".toList ++ ldTextInt n ++ '/' :: rest).length < MAX_PATH_LENGTH := by
      rcases hd with h | h | h <;> rw [h] <;>
        simp [MAX_PATH_LENGTH] at hlen ⊢ <;> omega
    have e : ("~".toList ++ "S1/".toList ++ rest) = '~' :: ("S1/".toList ++ rest) := rfl
    rw [e]
    unfold modifyPathForServer
    rw [h0]
    have h1 : strncmpEq ('~' :: ("S1/".toList ++ rest)) "~/S1/".toList 5 = false := by
      simp [strncmpEq]
    have h2 : strncmpEq ('~' :: ("S1/".toList ++ rest)) "~S1/".toList 4 = true := by
      simp [strncmpEq]
    simp only [h1, h2, if_true, Bool.false_eq_true, if_false]
    rw [snprintf_of_length]
    · rfl
    · simpa using hl

/-! ## C14, C15: the shorthand and the expanded form in `modifyPathForServer` -/

/-- C14: for a path `pre ++ "S1/" ++ rest` with `pre` one of `~/` and `~` that fits
its buffer of `MAX_PATH_LENGTH` bytes, a shard number `n` of 2, 3 or 4 and a home
directory that begins with a slash, `modifyPathForServer` writes
`pre ++ "S<n>/" ++ rest`: the same path with the marker S1 replaced by S<n> and
the text after the marker unchanged; replacing the first S<n> of the result by
S1 gives the path back. -/
theorem modifyPathForServer_shorthand (home pre rest old : CStr) (n : Int)
    (hpre : pre = "~/".toList ∨ pre = "~".toList) (hn : n = 2 ∨ n = 3 ∨ n = 4)
    (hh : home.head? = some '/')
    (hlen : (pre ++ "S1/".toList ++ rest).length < MAX_PATH_LENGTH) :
    modifyPathForServer home (pre ++ "S1/".toList ++ rest) old n =
        pre ++ 'S' :: ldTextInt n ++ '/' :: rest ∧
      modifyPathForServer home (pre ++ "S1/".toList ++ rest) old n =
        replaceFirst "S1".toList ('S' :: ldTextInt n) (pre ++ "S1/".toList ++ rest) ∧
      replaceFirst ('S' :: ldTextInt n) "S1".toList
        (modifyPathForServer home (pre ++ "S1/".toList ++ rest) old n) =
        pre ++ "S1/".toList ++ rest := by
  have key := modifyPathForServer_tilde home pre rest old n hpre hn hh hlen
  refine ⟨key, ?_, ?_⟩
  · rw [key]
    rcases hpre with h | h <;> subst h <;>
      simp [replaceFirst, List.isPrefixOf]
  · rw [key]
    rcases hpre with h | h <;> subst h <;> rcases hn with h | h | h <;> subst h <;>
      simp [replaceFirst, List.isPrefixOf, ldTextInt, ldText, Nat.toDigits, Nat.toDigitsCore,
        Nat.digitChar]

/-- C14 on the path `~/S1/docs/a.pdf` and shard 3. -/
theorem modifyPathForServer_shorthand_witness :
    modifyPathForServer "/home/u".toList "~/S1/docs/a.pdf".toList [] 3 =
      "~/S3/docs/a.pdf".toList :=
  ((modifyPathForServer_shorthand "/home/u".toList "~/".toList "docs/a.pdf".toList [] 3
    (Or.inl rfl) (Or.inr (Or.inl rfl)) rfl (by decide)).1).trans (by decide)

/-- C15 as stated fails: with the home directory `/srv/S1/al` the expanded path
`/srv/S1/al/S1/docs` is translated for shard 2 to `~/S2/al/S1/docs`, not to
`~/S2/docs`. -/
theorem modifyPathForServer_marker_in_home :
    modifyPathForServer "/srv/S1/al".toList
        ("/srv/S1/al".toList ++ "/S1/".toList ++ "docs".toList) [] 2 =
      "~/S2/al/S1/docs".toList ∧
    modifyPathForServer "/srv/S1/al".toList
        ("/srv/S1/al".toList ++ "/S1/".toList ++ "docs".toList) [] 2 ≠
      "~/S2/".toList ++ "docs".toList := by
  decide

/-- C15 amended: for every home directory HOME in which, read with `/S1` appended,
the text `/S1/` does not occur (so that the marker after HOME is the first in the
expanded path), every suffix `rest` of at most 1018 bytes and every shard number
`n` of 2, 3 or 4, `modifyPathForServer` applied to `HOME ++ "/S1/" ++ rest` writes
`"~/S<n>/" ++ rest`. -/
theorem modifyPathForServer_expanded (home rest old : CStr) (n : Int)
    (hn : n = 2 ∨ n = 3 ∨ n = 4)
    (hm : strstr (home ++ "/S1".toList) "/S1/".toList = none)
    (hlen : rest.length ≤ 1018) :
    modifyPathForServer home (home ++ "/S1/".toList ++ rest) old n =
      "~/S".toList ++ ldTextInt n ++ '/' :: rest := by
  have hd : ldTextInt n = ['2'] ∨ ldTextInt n = ['3'] ∨ ldTextInt n = ['4'] := by
    rcases hn with h | h | h <;> subst h <;> decide
  have h0 : strncmpEq (home ++ "/S1/".toList ++ rest) home home.length = true := by
    simp [strncmpEq, List.append_assoc]
  have h1 := strstr_marker_after_home home rest hm
  have hl : ("~/S".toList ++ ldTextInt n ++ '/' :: rest).length < MAX_PATH_LENGTH := by
    rcases hd with h | h | h <;> rw [h] <;> simp [MAX_PATH_LENGTH] <;> omega
  have hdrop : List.drop (home.length + 4) (home ++ "/S1/".toList ++ rest) = rest := by
    rw [List.append_assoc, List.drop_append]
    rfl
  unfold modifyPathForServer
  simp only [h0, if_true, h1, hdrop]
  rw [snprintf_of_length hl]

/-- C15 amended, on the home directory `/home/u` and the suffix `docs/a.pdf`. -/
theorem modifyPathForServer_expanded_witness :
    modifyPathForServer "/home/u".toList "/home/u/S1/docs/a.pdf".toList [] 2 =
      "~/S2/docs/a.pdf".toList :=
  (modifyPathForServer_expanded "/home/u".toList "docs/a.pdf".toList [] 2 (Or.inl rfl)
    (by decide) (by decide)).trans (by decide)

/-! ## Facts about the `downlf` and `removef` handlers -/

theorem strrchr_not_mem {s : CStr} {c : Char} (h : strrchr s c = none) : c ∉ s := by
  induction s with
  | nil => simp
  | cons x xs ih =>
    rw [strrchr] at h
    cases hx : strrchr xs c with
    | some i => rw [hx] at h; simp at h
    | none =>
      rw [hx] at h
      have hne : ¬ x = c := by
        intro e
        simp [e] at h
      simp only [List.mem_cons, not_or]
      exact ⟨fun e => hne e.symm, ih hx⟩

theorem pathFilename_after_slash (pre rest : CStr) :
    pathFilename (pre ++ '/' :: rest) = pathFilename rest := by
  unfold pathFilename
  cases hr : strrchr rest '/' with
  | none =>
    rw [strrchr_append_cons pre rest '/' (strrchr_not_mem hr)]
    simp
  | some j =>
    have h := strrchr_append_some (pre ++ ['/']) rest '/' j hr
    rw [List.append_assoc, List.singleton_append] at h
    rw [h]
    simp only [List.length_append, List.length_singleton]
    have : List.drop (pre.length + 1 + j + 1) (pre ++ '/' :: rest) = List.drop (j + 1) rest := by
      have e : pre ++ '/' :: rest = (pre ++ ['/']) ++ rest := by simp
      rw [e, show pre.length + 1 + j + 1 = (pre ++ ['/']).length + (j + 1) by simp; omega,
        List.drop_append]
    rw [this]

theorem noShardContact_append (a b : List Event) :
    noShardContact (a ++ b) = (noShardContact a && noShardContact b) := by
  simp [noShardContact, List.all_append]

theorem freadLoop_noShardContact (env : Env) :
    ∀ (fuel : Nat) (unread : List Char) (i : Nat),
      noShardContact (freadLoop env fuel unread i).1 = true := by
  intro fuel
  induction fuel with
  | zero => intro unread i; rfl
  | succ n ih =>
    intro unread i
    unfold freadLoop
    dsimp only
    split_ifs
    · rfl
    · rfl
    · rfl
    · have := ih (unread.drop BUFFER_SIZE) (i + 1)
      simpa [noShardContact, Event.contactsShard] using this

theorem redirectPath_of_ext (sh : Shard) (rest : CStr)
    (hlen : ("~/S1/".toList ++ rest).length < MAX_PATH_LENGTH) :
    redirectPath ("~/S1/".toList ++ rest) sh.ext = some (sh.marker ++ '/' :: rest) := by
  have h5 : strncmpEq ("~/S1/".toList ++ rest) "~/S1/".toList 5 = true := by
    simp [strncmpEq]
  have hl : ∀ m : CStr, m.length = 5 → snprintf MAX_PATH_LENGTH (m ++ rest) = m ++ rest := by
    intro m hm
    apply snprintf_of_length
    simp only [List.length_append] at hlen ⊢
    have : "~/S1/".toList.length = 5 := by decide
    omega
  unfold redirectPath
  rw [if_pos h5]
  have hd : ("~/S1/".toList ++ rest).drop 5 = rest := by simp
  cases sh
  · simp only [Shard.ext, hd, hl "~/S2/".toList (by decide)]
    simp [strcmpEq, Shard.marker]
  · simp only [Shard.ext, hd, hl "~/S3/".toList (by decide)]
    simp [strcmpEq, Shard.marker]
  · simp only [Shard.ext, hd, hl "~/S4/".toList (by decide)]
    simp [strcmpEq, Shard.marker]

theorem handleDownloadLocal_redirected (env : Env) (path mp : CStr)
    (hp : getServerPort (pathFilename path) ≠ -1)
    (h : redirectPath path (getFileExtension (pathFilename path)) = some mp) :
    handleDownloadLocal env path =
      forwardDownloadRequest env mp (getServerPort (pathFilename path)) := by
  unfold handleDownloadLocal
  cases hk : strrchr path '/' <;> simp only [pathFilename, hk] at h hp ⊢ <;>
    simp only [hp, h, if_true, ne_eq, not_false_eq_true]

theorem handleDownloadLocal_as_given (env : Env) (path : CStr)
    (h1 : strncmpEq path "~/S1/".toList 5 = false) (h2 : strncmpEq path "~S1/".toList 4 = false)
    (hfit : path.length < MAX_PATH_LENGTH) :
    (handleDownloadLocal env path).head? = some (.stat path) ∧
      noShardContact (handleDownloadLocal env path) = true := by
  have hr : ∀ ext, redirectPath path ext = none := by
    intro ext
    simp only [redirectPath, h1, h2, Bool.false_eq_true, if_false]
  have hloop := freadLoop_noShardContact env
  unfold handleDownloadLocal
  simp only [hr, ite_self, h1, h2, Bool.false_eq_true, if_false, snprintf_of_length hfit]
  cases hfs : env.fs path with
  | none => exact ⟨rfl, rfl⟩
  | some content =>
    dsimp only
    split_ifs
    · exact ⟨rfl, rfl⟩
    · exact ⟨rfl, rfl⟩
    · exact ⟨rfl, by simp [noShardContact, Event.contactsShard]⟩
    · have hl := hloop (content.length + 1) content 0
      split <;> refine ⟨rfl, ?_⟩ <;>
        simp only [noShardContact_append, hl, Bool.and_true, Bool.true_and] <;>
        simp [noShardContact, Event.contactsShard]

theorem processRemovef_redirected (env : Env) (cmd : Command) (mp : CStr)
    (hfit : cmd.arg1.length < MAX_PATH_LENGTH)
    (hp : getServerPort (pathFilename cmd.arg1) ≠ -1)
    (h : redirectPath cmd.arg1 (getFileExtension (pathFilename cmd.arg1)) = some mp) :
    (processRemovef env cmd).events =
      forwardRemoveRequest env mp (getServerPort (pathFilename cmd.arg1)) := by
  have ht : cmd.arg1.take (MAX_PATH_LENGTH - 1) = cmd.arg1 :=
    List.take_of_length_le (by omega)
  unfold processRemovef
  simp only [ht, hp, h, if_true, ne_eq, not_false_eq_true]

theorem processRemovef_as_given (env : Env) (cmd : Command)
    (hh : cmd.arg1.head? = some '/') (hfit : cmd.arg1.length < MAX_PATH_LENGTH) :
    (processRemovef env cmd).events.head? = some (.stat cmd.arg1) ∧
      noShardContact (processRemovef env cmd).events = true := by
  have ht : cmd.arg1.take (MAX_PATH_LENGTH - 1) = cmd.arg1 :=
    List.take_of_length_le (by omega)
  obtain ⟨x, xs, hx⟩ : ∃ x xs, cmd.arg1 = x :: xs := by
    cases hc : cmd.arg1 with
    | nil => rw [hc] at hh; simp at hh
    | cons x xs => exact ⟨x, xs, rfl⟩
  have hx0 : x = '/' := by rw [hx] at hh; simpa using hh
  have h1 : strncmpEq cmd.arg1 "~/S1/".toList 5 = false := by
    rw [hx, hx0]; simp [strncmpEq]
  have h2 : strncmpEq cmd.arg1 "~S1/".toList 4 = false := by
    rw [hx, hx0]; simp [strncmpEq]
  have h3 : strncmpEq cmd.arg1 "~/".toList 2 = false := by
    rw [hx, hx0]; simp [strncmpEq]
  have h4 : ¬ cmd.arg1.head? = some '~' := by
    rw [hh]; decide
  have hr : ∀ ext, redirectPath cmd.arg1 ext = none := by
    intro ext
    simp only [redirectPath, h1, h2, Bool.false_eq_true, if_false]
  unfold processRemovef
  simp only [ht, hr, ite_self, h3, h4, Bool.false_eq_true, if_false, snprintf_of_length hfit]
  split_ifs <;> exact ⟨rfl, rfl⟩

/-! ## C16: the shorthand and the expanded form in `downlf` and `removef` -/

/-- C16 as stated fails: with the home directory `/home/u`, `downlf ~/S1/a.pdf` is
forwarded to S2 as `DOWNLOAD ~/S2/a.pdf`, while `downlf /home/u/S1/a.pdf` is not
forwarded at all: S1 looks the path up in its own files and answers that the
file is not found. The same holds for `removef`. -/
theorem expanded_form_not_forwarded :
    handleDownloadLocal { home := "/home/u".toList } "~/S1/a.pdf".toList =
      [.socket, .connect 8081, .send .shard "DOWNLOAD ~/S2/a.pdf".toList,
        .recv .shard (.data []), .send .client "ERROR: Target server error".toList,
        .close .shard] ∧
    handleDownloadLocal { home := "/home/u".toList }
        ("/home/u".toList ++ "/S1/".toList ++ "a.pdf".toList) =
      [.stat "/home/u/S1/a.pdf".toList, .send .client "ERROR: File not found".toList] ∧
    (processRemovef { home := "/home/u".toList }
        ⟨"removef".toList, "~/S1/a.pdf".toList, []⟩).events =
      [.socket, .connect 8081, .send .shard "REMOVE ~/S2/a.pdf".toList,
        .recv .shard (.data []), .send .client "ERROR: Target server error".toList,
        .close .shard] ∧
    (processRemovef { home := "/home/u".toList }
        ⟨"removef".toList, "/home/u".toList ++ "/S1/".toList ++ "a.pdf".toList, []⟩).events =
      [.stat "/home/u/S1/a.pdf".toList, .send .client "ERROR: File not found".toList] := by
  decide

/-- C16 amended: for every suffix `rest` whose file name has the extension of a
shard S<k> (pdf, txt or zip), with a home directory that begins with a slash and
paths that fit their buffers, a `downlf` or `removef` request given in the
shorthand form `~/S1/rest` is forwarded to S<k> under the path `~/S<k>/rest`;
the request given in the expanded form `HOME/S1/rest` is not forwarded: S1
makes no call on a shard connection and begins by looking the path up, as given,
in its own files. -/
theorem shorthand_forwarded_expanded_local (env : Env) (sh : Shard) (rest : CStr)
    (hext : getFileExtension (pathFilename rest) = sh.ext)
    (hh : env.home.head? = some '/')
    (hlen : (env.home ++ "/S1/".toList ++ rest).length < MAX_PATH_LENGTH) :
    handleDownloadLocal env ("~/S1/".toList ++ rest) =
      forwardDownloadRequest env (sh.marker ++ '/' :: rest) sh.port ∧
    (processRemovef env ⟨"removef".toList, "~/S1/".toList ++ rest, []⟩).events =
      forwardRemoveRequest env (sh.marker ++ '/' :: rest) sh.port ∧
    (handleDownloadLocal env (env.home ++ "/S1/".toList ++ rest)).head? =
      some (.stat (env.home ++ "/S1/".toList ++ rest)) ∧
    noShardContact (handleDownloadLocal env (env.home ++ "/S1/".toList ++ rest)) = true ∧
    (processRemovef env
        ⟨"removef".toList, env.home ++ "/S1/".toList ++ rest, []⟩).events.head? =
      some (.stat (env.home ++ "/S1/".toList ++ rest)) ∧
    noShardContact (processRemovef env
        ⟨"removef".toList, env.home ++ "/S1/".toList ++ rest, []⟩).events = true := by
  obtain ⟨x, xs, hx⟩ : ∃ x xs, env.home = x :: xs := by
    cases hc : env.home with
    | nil => rw [hc] at hh; simp at hh
    | cons x xs => exact ⟨x, xs, rfl⟩
  have hx0 : x = '/' := by rw [hx] at hh; simpa using hh
  have hshort : ("~/S1/".toList ++ rest).length < MAX_PATH_LENGTH := by
    rw [hx] at hlen
    simp only [List.length_append, List.length_cons] at hlen ⊢
    have : "~/S1/".toList.length = 5 := by decide
    have : "/S1/".toList.length = 4 := by decide
    omega
  have hname1 : pathFilename ("~/S1/".toList ++ rest) = pathFilename rest :=
    pathFilename_after_slash "~/S1".toList rest
  have hport : getServerPort (pathFilename rest) = sh.port := getServerPort_of_ext sh _ hext
  have hp1 : getServerPort (pathFilename ("~/S1/".toList ++ rest)) ≠ -1 := by
    rw [hname1, hport]; cases sh <;> decide
  have hred : redirectPath ("~/S1/".toList ++ rest)
      (getFileExtension (pathFilename ("~/S1/".toList ++ rest))) =
      some (sh.marker ++ '/' :: rest) := by
    rw [hname1, hext]; exact redirectPath_of_ext sh rest hshort
  have e1 : strncmpEq (env.home ++ "/S1/".toList ++ rest) "~/S1/".toList 5 = false := by
    rw [hx, hx0]; simp [strncmpEq]
  have e2 : strncmpEq (env.home ++ "/S1/".toList ++ rest) "~S1/".toList 4 = false := by
    rw [hx, hx0]; simp [strncmpEq]
  have ehead : (env.home ++ "/S1/".toList ++ rest).head? = some '/' := by
    rw [hx, hx0]; rfl
  refine ⟨?_, ?_, ?_, ?_, ?_, ?_⟩
  · rw [handleDownloadLocal_redirected env _ _ hp1 hred, hname1, hport]
  · rw [processRemovef_redirected env ⟨"removef".toList, "~/S1/".toList ++ rest, []⟩ _
      hshort hp1 hred]
    show forwardRemoveRequest env _ (getServerPort (pathFilename ("~/S1/".toList ++ rest))) = _
    rw [hname1, hport]
  · exact (handleDownloadLocal_as_given env _ e1 e2 hlen).1
  · exact (handleDownloadLocal_as_given env _ e1 e2 hlen).2
  · exact (processRemovef_as_given env
      ⟨"removef".toList, env.home ++ "/S1/".toList ++ rest, []⟩ ehead hlen).1
  · exact (processRemovef_as_given env
      ⟨"removef".toList, env.home ++ "/S1/".toList ++ rest, []⟩ ehead hlen).2

/-- C16 amended, on the home directory `/home/u` and the suffix `docs/n.txt`. -/
theorem shorthand_forwarded_expanded_local_witness :
    handleDownloadLocal { home := "/home/u".toList } "~/S1/docs/n.txt".toList =
      forwardDownloadRequest { home := "/home/u".toList } "~/S3/docs/n.txt".toList 8082 ∧
    noShardContact (handleDownloadLocal { home := "/home/u".toList }
      "/home/u/S1/docs/n.txt".toList) = true :=
  ⟨(shorthand_forwarded_expanded_local { home := "/home/u".toList } .s3 "docs/n.txt".toList
      (by decide) rfl (by decide)).1,
   (shorthand_forwarded_expanded_local { home := "/home/u".toList } .s3 "docs/n.txt".toList
      (by decide) rfl (by decide)).2.2.2.1⟩

/-! ## Facts about the listing sort -/

theorem strcmp_self (x : CStr) : strcmp x x = 0 := by
  induction x with
  | nil => rfl
  | cons a as ih => simp [strcmp, ih]

theorem strcmp_le_of_pos : ∀ x y : CStr, 0 < strcmp x y → strcmp y x ≤ 0 := by
  intro x
  induction x with
  | nil => intro y h; cases y <;> simp [strcmp] at h
  | cons a as ih =>
    intro y h
    cases y with
    | nil => simp [strcmp]
    | cons b bs =>
      simp only [strcmp] at h ⊢
      by_cases hab : a = b
      · subst hab
        simp only [if_true] at h ⊢
        exact ih bs h
      · have hba : ¬ b = a := fun e => hab e.symm
        simp only [hab, hba, if_false] at h ⊢
        by_cases hlt : a < b
        · simp [hlt] at h
        · have : b < a := lt_of_le_of_ne (not_lt.mp hlt) hba
          simp [this]

theorem strcmp_le_trans : ∀ x y z : CStr, strcmp x y ≤ 0 → strcmp y z ≤ 0 → strcmp x z ≤ 0 := by
  intro x
  induction x with
  | nil => intro y z _ _; cases z <;> simp [strcmp]
  | cons a as ih =>
    intro y z h1 h2
    cases y with
    | nil => simp [strcmp] at h1
    | cons b bs =>
      cases z with
      | nil => simp [strcmp] at h2
      | cons c cs =>
        simp only [strcmp] at h1 h2 ⊢
        by_cases hab : a = b
        · subst hab
          simp only [if_true] at h1
          by_cases hac : a = c
          · subst hac
            simp only [if_true] at h2 ⊢
            exact ih bs cs h1 h2
          · simp only [hac, if_false] at h2 ⊢
            exact h2
        · simp only [hab, if_false] at h1
          have hlt : a < b := by
            by_contra hn
            simp [hn] at h1
          by_cases hbc : b = c
          · subst hbc
            simp [hab, hlt]
          · simp only [hbc, if_false] at h2
            have hlt2 : b < c := by
              by_contra hn
              simp [hn] at h2
            have hac : a < c := lt_trans hlt hlt2
            simp [ne_of_lt hac, hac]

theorem exchangeMin_length (test : CStr → CStr → Bool) :
    ∀ (ys : List CStr) (x : CStr), (exchangeMin test x ys).2.length = ys.length := by
  intro ys
  induction ys with
  | nil => intro x; rfl
  | cons y ys ih =>
    intro x
    unfold exchangeMin
    split_ifs <;> simp [ih]

theorem exchangeMin_perm (test : CStr → CStr → Bool) :
    ∀ (ys : List CStr) (x : CStr),
      List.Perm ((exchangeMin test x ys).1 :: (exchangeMin test x ys).2) (x :: ys) := by
  intro ys
  induction ys with
  | nil => intro x; exact List.Perm.refl _
  | cons y ys ih =>
    intro x
    unfold exchangeMin
    split_ifs
    · exact (List.Perm.swap _ _ _).trans ((ih y).cons x)
    · exact ((List.Perm.swap _ _ _).trans ((ih x).cons y)).trans (List.Perm.swap _ _ _)

theorem exchangeSort_perm (test : CStr → CStr → Bool) :
    ∀ (n : Nat) (l : List CStr), List.Perm (exchangeSort test n l) l := by
  intro n
  induction n with
  | zero => intro l; exact List.Perm.refl _
  | succ n ih =>
    intro l
    cases l with
    | nil => exact List.Perm.refl _
    | cons x xs =>
      unfold exchangeSort
      exact ((ih _).cons _).trans (exchangeMin_perm test xs x)

theorem listSwapTest_iff (x y : CStr) :
    listSwapTest x y = true ↔ getFileExtension x = getFileExtension y ∧ 0 < strcmp x y := by
  simp [listSwapTest, strcmpEq]

theorem exchangeMin_ext :
    ∀ (ys : List CStr) (x : CStr),
      getFileExtension (exchangeMin listSwapTest x ys).1 = getFileExtension x := by
  intro ys
  induction ys with
  | nil => intro x; rfl
  | cons y ys ih =>
    intro x
    unfold exchangeMin
    split_ifs with h
    · rw [listSwapTest_iff] at h
      simp only
      rw [ih y, h.1]
    · exact ih x

theorem exchangeMin_le_first :
    ∀ (ys : List CStr) (x : CStr), strcmp (exchangeMin listSwapTest x ys).1 x ≤ 0 := by
  intro ys
  induction ys with
  | nil => intro x; simp [exchangeMin, strcmp_self]
  | cons y ys ih =>
    intro x
    unfold exchangeMin
    split_ifs with h
    · rw [listSwapTest_iff] at h
      exact strcmp_le_trans _ y x (ih y) (strcmp_le_of_pos x y h.2)
    · exact ih x

theorem exchangeMin_le_rest :
    ∀ (ys : List CStr) (x w : CStr), w ∈ (exchangeMin listSwapTest x ys).2 →
      getFileExtension w = getFileExtension x →
      strcmp (exchangeMin listSwapTest x ys).1 w ≤ 0 := by
  intro ys
  induction ys with
  | nil => intro x w hw; simp [exchangeMin] at hw
  | cons y ys ih =>
    intro x w hw he
    unfold exchangeMin at hw ⊢
    split_ifs at hw ⊢ with h
    · rw [listSwapTest_iff] at h
      simp only [List.mem_cons] at hw
      rcases hw with hw | hw
      · subst hw
        exact strcmp_le_trans _ y w (exchangeMin_le_first ys y) (strcmp_le_of_pos w y h.2)
      · exact ih y w hw (he.trans h.1)
    · simp only [List.mem_cons] at hw
      rcases hw with hw | hw
      · subst hw
        have hxy : strcmp x w ≤ 0 := by
          by_contra hn
          exact h ((listSwapTest_iff x w).mpr ⟨he.symm, not_le.mp hn⟩)
        exact strcmp_le_trans _ x w (exchangeMin_le_first ys x) hxy
      · exact ih x w hw he

theorem exchangeSort_classSorted :
    ∀ (n : Nat) (l : List CStr), l.length ≤ n → ClassSorted (exchangeSort listSwapTest n l) := by
  intro n
  induction n with
  | zero =>
    intro l hl
    have : l = [] := List.eq_nil_of_length_eq_zero (Nat.le_zero.mp hl)
    subst this
    exact List.Pairwise.nil
  | succ n ih =>
    intro l hl
    cases l with
    | nil => exact List.Pairwise.nil
    | cons x xs =>
      unfold exchangeSort
      apply List.Pairwise.cons
      · intro b hb he
        have hb2 : b ∈ (exchangeMin listSwapTest x xs).2 :=
          (exchangeSort_perm listSwapTest n _).subset hb
        exact exchangeMin_le_rest xs x b hb2 (he.symm.trans (exchangeMin_ext xs x))
      · apply ih
        rw [exchangeMin_length]
        simpa using hl

/-! ## Facts about the display loops -/

theorem emitPass_eq (marker : String) :
    ∀ (fs : List CStr) (resp : CStr),
      emitPass marker fs resp = (fs.filter (containsMarker marker)).foldl appendName resp := by
  intro fs
  induction fs with
  | nil => intro resp; rfl
  | cons f fs ih =>
    intro resp
    unfold emitPass at ih ⊢
    by_cases h : containsMarker marker f = true
    · simp only [List.foldl_cons, h, if_true, List.filter_cons_of_pos]
      exact ih _
    · simp only [List.foldl_cons, h, if_false, Bool.false_eq_true]
      rw [List.filter_cons_of_neg h]
      exact ih _

theorem listingOf_eq (l : List CStr) : listingOf l = (listedNames l).foldl appendName [] := by
  unfold listingOf listedNames
  simp only [emitPass_eq, List.foldl_append]

theorem containsMarker_ne_nil (marker : String) (hm : marker.toList ≠ []) (n : CStr)
    (h : containsMarker marker n = true) : n ≠ [] := by
  intro hn
  subst hn
  simp [containsMarker, strstr] at h
  exact hm h

theorem foldl_appendName (names : List CStr) (hne : ∀ n ∈ names, n ≠ []) :
    ∀ resp : CStr, resp ≠ [] →
      names.foldl appendName resp = if names = [] then resp else resp ++ '\n' :: joinLines names := by
  induction names with
  | nil => intro resp _; rfl
  | cons n ns ih =>
    intro resp hr
    have hpos : 0 < resp.length := List.length_pos.mpr hr
    have hn : n ≠ [] := hne n (by simp)
    have hstep : appendName resp n = resp ++ '\n' :: n := by
      simp [appendName, hpos]
    have hne2 : resp ++ '\n' :: n ≠ [] := by simp
    rw [List.foldl_cons, hstep, ih (fun m hm => hne m (by simp [hm])) _ hne2]
    cases ns with
    | nil => simp [joinLines]
    | cons g gs => simp [joinLines]

theorem foldl_appendName_nil (names : List CStr) (hne : ∀ n ∈ names, n ≠ []) :
    names.foldl appendName [] = joinLines names := by
  cases names with
  | nil => rfl
  | cons n ns =>
    have hn : n ≠ [] := hne n (by simp)
    have hstep : appendName [] n = n := by simp [appendName]
    rw [List.foldl_cons, hstep, foldl_appendName ns (fun m hm => hne m (by simp [hm])) n hn]
    cases ns with
    | nil => simp [joinLines]
    | cons g gs => simp [joinLines]

theorem listingOf_joinLines (l : List CStr) : listingOf l = joinLines (listedNames l) := by
  rw [listingOf_eq]
  apply foldl_appendName_nil
  intro n hn
  unfold listedNames at hn
  simp only [List.mem_append, List.mem_filter] at hn
  rcases hn with ((h | h) | h) | h
  · exact containsMarker_ne_nil ".c" (by decide) n h.2
  · exact containsMarker_ne_nil ".pdf" (by decide) n h.2
  · exact containsMarker_ne_nil ".txt" (by decide) n h.2
  · exact containsMarker_ne_nil ".zip" (by decide) n h.2

theorem classNames_sorted (ext : String) (l : List CStr) :
    (classNames ext l).Pairwise (fun a b => strcmp a b ≤ 0) := by
  have h := exchangeSort_classSorted l.length l (le_refl _)
  unfold classNames
  have h2 := List.Pairwise.filter (fun n => strcmpEq (getFileExtension n) ext.toList) h
  refine List.Pairwise.imp_of_mem ?_ h2
  intro a b ha hb hab
  simp only [List.mem_filter, strcmpEq, beq_iff_eq] at ha hb
  exact hab (ha.2.trans hb.2.symm)

theorem classNames_perm (ext : String) (l : List CStr) :
    List.Perm (classNames ext l)
      (l.filter (fun n => strcmpEq (getFileExtension n) ext.toList)) :=
  (exchangeSort_perm listSwapTest l.length l).filter _

theorem listedNames_of_ownMarker (l : List CStr) (h : ∀ n ∈ l, ownMarkerOnly n = true) :
    listedNames l =
      classNames "c" l ++ classNames "pdf" l ++ classNames "txt" l ++ classNames "zip" l := by
  have hmem : ∀ n ∈ exchangeSort listSwapTest l.length l, ownMarkerOnly n = true :=
    fun n hn => h n ((exchangeSort_perm listSwapTest l.length l).subset hn)
  unfold listedNames classNames
  simp only
  congr 1
  · congr 1
    · congr 1
      · apply List.filter_congr
        intro n hn
        have := hmem n hn
        simp only [ownMarkerOnly, Bool.and_eq_true, beq_iff_eq] at this
        exact this.1.1.1
      · apply List.filter_congr
        intro n hn
        have := hmem n hn
        simp only [ownMarkerOnly, Bool.and_eq_true, beq_iff_eq] at this
        exact this.1.1.2
    · apply List.filter_congr
      intro n hn
      have := hmem n hn
      simp only [ownMarkerOnly, Bool.and_eq_true, beq_iff_eq] at this
      exact this.1.2
  · apply List.filter_congr
    intro n hn
    have := hmem n hn
    simp only [ownMarkerOnly, Bool.and_eq_true, beq_iff_eq] at this
    exact this.2

theorem perm_insert_third (A B C D : List CStr) (x : CStr) :
    List.Perm (A ++ B ++ x :: C ++ D) (x :: (A ++ B ++ C ++ D)) := by
  have e1 : A ++ B ++ x :: C ++ D = (A ++ B) ++ x :: (C ++ D) := by simp
  have e2 : A ++ B ++ C ++ D = (A ++ B) ++ (C ++ D) := by simp
  rw [e1, e2]
  exact List.perm_middle

theorem filter_classes_perm (l : List CStr) (h : ∀ n ∈ l, listedClass n = true) :
    List.Perm
      (l.filter (fun n => strcmpEq (getFileExtension n) "c".toList) ++
        l.filter (fun n => strcmpEq (getFileExtension n) "pdf".toList) ++
        l.filter (fun n => strcmpEq (getFileExtension n) "txt".toList) ++
        l.filter (fun n => strcmpEq (getFileExtension n) "zip".toList)) l := by
  induction l with
  | nil => exact List.Perm.refl _
  | cons x xs ih =>
    have ih' := ih (fun n hn => h n (by simp [hn]))
    have hx := h x (by simp)
    simp only [listedClass, Bool.or_eq_true, strcmpEq, beq_iff_eq] at hx
    rcases hx with ((hx | hx) | hx) | hx
    · simp only [List.filter_cons, strcmpEq, hx]
      simpa using ih'
    · simp only [List.filter_cons, strcmpEq, hx]
      simp only [show (("pdf".toList == "c".toList) = false) by decide, beq_self_eq_true,
        show (("pdf".toList == "txt".toList) = false) by decide,
        show (("pdf".toList == "zip".toList) = false) by decide, if_true, if_false,
        Bool.false_eq_true]
      refine List.Perm.trans ?_ (ih'.cons x)
      simp only [List.append_assoc]
      exact List.perm_middle
    · simp only [List.filter_cons, strcmpEq, hx]
      simp only [show (("txt".toList == "c".toList) = false) by decide, beq_self_eq_true,
        show (("txt".toList == "pdf".toList) = false) by decide,
        show (("txt".toList == "zip".toList) = false) by decide, if_true, if_false,
        Bool.false_eq_true]
      refine List.Perm.trans ?_ (ih'.cons x)
      exact perm_insert_third _ _ _ _ x
    · simp only [List.filter_cons, strcmpEq, hx]
      simp only [show (("zip".toList == "c".toList) = false) by decide, beq_self_eq_true,
        show (("zip".toList == "pdf".toList) = false) by decide,
        show (("zip".toList == "txt".toList) = false) by decide, if_true, if_false,
        Bool.false_eq_true]
      refine List.Perm.trans ?_ (ih'.cons x)
      exact List.perm_middle

theorem listedNames_perm (l : List CStr) (h : ∀ n ∈ l, ownMarkerOnly n = true)
    (hc : ∀ n ∈ l, listedClass n = true) : List.Perm (listedNames l) l := by
  have hp := exchangeSort_perm listSwapTest l.length l
  rw [listedNames_of_ownMarker l h]
  unfold classNames
  exact (filter_classes_perm _ (fun n hn => hc n (hp.subset hn))).trans hp

/-! ## Facts about the paths and the names of a listing -/

theorem list_path_is_upload_dir (sh : Shard) (home d f : CStr) (hh : home.head? = some '/')
    (hext : getFileExtension f = sh.ext) (hslash : '/' ∉ f)
    (hlen : (sh.marker ++ '/' :: d ++ '/' :: f).length < MAX_PATH_LENGTH) :
    modifyPathForServer home ("~/S1".toList ++ '/' :: d) [] sh.number =
      dirPart (uploadDestPath ("~/S1".toList ++ '/' :: d) f (getFileExtension f)) := by
  have hm : sh.marker.length = 4 := by cases sh <;> rfl
  have hl : ("~/".toList ++ "S1/".toList ++ d).length < MAX_PATH_LENGTH := by
    simp only [List.length_append, List.length_cons, hm] at hlen
    have : ("~/".toList ++ "S1/".toList ++ d).length = 5 + d.length := by
      simp only [List.length_append]
      have h2 : "~/".toList.length = 2 := by decide
      have h3 : "S1/".toList.length = 3 := by decide
      omega
    omega
  have h1 := modifyPathForServer_tilde home "~/".toList d [] sh.number (Or.inl rfl)
    (by cases sh <;> simp [Shard.number]) hh hl
  have e : "~/".toList ++ "S1/".toList ++ d = "~/S1".toList ++ '/' :: d := rfl
  rw [e] at h1
  rw [h1, uploadDestPath_eq sh ('/' :: d) f hext hlen]
  unfold dirPart
  rw [strrchr_append_cons (sh.marker ++ '/' :: d) f '/' hslash]
  simp only [List.take_left']
  cases sh <;> rfl

theorem strrchr_split {s : CStr} {c : Char} {k : Nat} (h : strrchr s c = some k) :
    s = s.take k ++ c :: s.drop (k + 1) := by
  induction s generalizing k with
  | nil => simp [strrchr] at h
  | cons x xs ih =>
    rw [strrchr] at h
    cases hx : strrchr xs c with
    | some i =>
      rw [hx] at h
      simp only [Option.some.injEq] at h
      subst h
      have := ih hx
      simp only [List.take_succ_cons, List.drop_succ_cons, List.cons_append]
      rw [← this]
    | none =>
      rw [hx] at h
      by_cases hxc : x = c
      · simp only [hxc, if_true, Option.some.injEq] at h
        subst h
        simp [hxc]
      · simp [hxc] at h

theorem strstr_isSome_append (needle : CStr) :
    ∀ pre rest : CStr, needle.isPrefixOf rest = true → rest ≠ [] →
      (strstr (pre ++ rest) needle).isSome = true := by
  intro pre
  induction pre with
  | nil =>
    intro rest h hne
    cases rest with
    | nil => exact absurd rfl hne
    | cons c cs => simp [strstr, h]
  | cons p ps ih =>
    intro rest h hne
    rw [List.cons_append, strstr]
    split_ifs
    · rfl
    · have := ih rest h hne
      simpa using this

theorem marker_of_extension (n e : CStr) (he : e ≠ []) (h : getFileExtension n = e) :
    (strstr n ('.' :: e)).isSome = true := by
  unfold getFileExtension at h
  cases hk : strrchr n '.' with
  | none => rw [hk] at h; exact absurd h.symm he
  | some k =>
    rw [hk] at h
    cases k with
    | zero => exact absurd h.symm he
    | succ i =>
      simp only at h
      have hs := strrchr_split hk
      rw [h] at hs
      rw [hs]
      apply strstr_isSome_append
      · simp
      · simp

theorem extension_entries_taken (n : CStr) :
    (getFileExtension n = "c".toList → containsMarker ".c" n = true) ∧
    ∀ sh : Shard, getFileExtension n = sh.ext → containsMarker sh.listMarker n = true := by
  constructor
  · intro h
    exact marker_of_extension n "c".toList (by decide) h
  · intro sh h
    cases sh
    · exact marker_of_extension n "pdf".toList (by decide) h
    · exact marker_of_extension n "txt".toList (by decide) h
    · exact marker_of_extension n "zip".toList (by decide) h

/-! ## C17: the directory asked of a shard when the root is listed -/

/-- C17 fails on the code for the namespace root: `uploadf a.pdf ~/S1` sends S2 the
path `~/S2/a.pdf`, whose directory part is `~/S2`, but `dispfnames ~/S1` sends
each shard the command `LIST ` with an empty path, which a shard's `handleList`
rejects, so the uploaded file is not asked for. -/
theorem list_of_root_sends_empty_path :
    (processUploadf { home := "/home/u".toList, clientIn := [.data "3".toList] }
        ⟨"uploadf".toList, "a.pdf".toList, "~/S1".toList⟩).events =
      [.mkdirs "/home/u/S1".toList, .send .client "READY".toList,
        .recv .client (.data "3".toList), .socket, .connect 8081,
        .send .shard "UPLOAD ~/S2/a.pdf".toList, .recv .shard (.data []),
        .send .client "ERROR: Target server not ready".toList, .close .shard] ∧
    dirPart "~/S2/a.pdf".toList = "~/S2".toList ∧
    (processDispfnames { home := "/home/u".toList }
        ⟨"dispfnames".toList, "~/S1".toList, []⟩).map ListRun.events =
      some [.stat "/home/u/S1".toList,
        .socket, .connect 8081, .send .shard "LIST ".toList, .recv .shard (.data []),
        .close .shard,
        .socket, .connect 8082, .send .shard "LIST ".toList, .recv .shard (.data []),
        .close .shard,
        .socket, .connect 8083, .send .shard "LIST ".toList, .recv .shard (.data []),
        .close .shard,
        .send .client []] ∧
    modifyPathForServer "/home/u".toList "~/S1".toList [] 2 = [] ∧
    Shard.handleList .s2 "/home/u".toList true (some ["a.pdf".toList]) [] =
      some [.send .client "ERROR: Path must start with ~/S2".toList] := by
  decide

/-! ## C18, C19, C20: which names are listed, and in which order -/

/-- C18 fails on the code: S2 answers the LIST request with `notes.pdf` and
`thesis.copy.pdf`. Both have the extension pdf, and the second contains `.c`, so
the display loop for `.c` emits it first: the listing is `thesis.copy.pdf`,
`notes.pdf`, `thesis.copy.pdf`, in which a pdf name stands before a smaller one. -/
theorem listing_out_of_order :
    handleListLocal
        { home := "/home/u".toList, s2 := { reply := .data "notes.pdf\nthesis.copy.pdf".toList } }
        "~/S1/docs".toList =
      some ⟨[.stat "/home/u/S1/docs".toList,
        .socket, .connect 8081, .send .shard "LIST ~/S2/docs".toList,
        .recv .shard (.data "notes.pdf\nthesis.copy.pdf".toList), .close .shard,
        .socket, .connect 8082, .send .shard "LIST ~/S3/docs".toList,
        .recv .shard (.data []), .close .shard,
        .socket, .connect 8083, .send .shard "LIST ~/S4/docs".toList,
        .recv .shard (.data []), .close .shard,
        .send .client "thesis.copy.pdf\nnotes.pdf\nthesis.copy.pdf".toList],
        ["notes.pdf".toList, "thesis.copy.pdf".toList]⟩ ∧
    getFileExtension "thesis.copy.pdf".toList = "pdf".toList ∧
    getFileExtension "notes.pdf".toList = "pdf".toList ∧
    0 < strcmp "thesis.copy.pdf".toList "notes.pdf".toList := by
  decide

/-- C19 fails on the code: with `a.c` in the local directory and `a.c.zip` in the
answer of S4, the name `a.c.zip` is gathered once and listed twice, by the
display loop for `.c` and by the one for `.zip`. -/
theorem listing_repeats_name :
    handleListLocal
        { home := "/home/u".toList, s4 := { reply := .data "a.c.zip".toList }, entries := some [
          "a.c".toList] }
        "~/S1/src".toList =
      some ⟨[.stat "/home/u/S1/src".toList,
        .socket, .connect 8081, .send .shard "LIST ~/S2/src".toList,
        .recv .shard (.data []), .close .shard,
        .socket, .connect 8082, .send .shard "LIST ~/S3/src".toList,
        .recv .shard (.data []), .close .shard,
        .socket, .connect 8083, .send .shard "LIST ~/S4/src".toList,
        .recv .shard (.data "a.c.zip".toList), .close .shard,
        .send .client "a.c\na.c.zip\na.c.zip".toList],
        ["a.c".toList, "a.c.zip".toList]⟩ := by
  decide

/-- C20 fails on the code: `handleListLocal` takes the local entry `main.cpp`,
whose extension is cpp, and the `handleList` of S2 takes the entry `a.pdf.bak`,
whose extension is bak, because both look for the marker anywhere in the name. -/
theorem listing_takes_other_extensions :
    handleListLocal { home := "/home/u".toList, entries := some [".".toList, "..".toList,
        "main.cpp".toList, "notes.md".toList, "util.c".toList] } "~/S1/src".toList =
      some ⟨[.stat "/home/u/S1/src".toList,
        .socket, .connect 8081, .send .shard "LIST ~/S2/src".toList,
        .recv .shard (.data []), .close .shard,
        .socket, .connect 8082, .send .shard "LIST ~/S3/src".toList,
        .recv .shard (.data []), .close .shard,
        .socket, .connect 8083, .send .shard "LIST ~/S4/src".toList,
        .recv .shard (.data []), .close .shard,
        .send .client "main.cpp\nutil.c".toList],
        ["main.cpp".toList, "util.c".toList]⟩ ∧
    getFileExtension "main.cpp".toList = "cpp".toList ∧
    Shard.handleList .s2 "/home/u".toList true
        (some [".".toList, "..".toList, "b.pdf".toList, "a.pdf.bak".toList, "x.txt".toList])
        "~/S2/docs".toList =
      some [.stat "/home/u/S2/docs".toList, .send .client "a.pdf.bak\nb.pdf".toList] ∧
    getFileExtension "a.pdf.bak".toList = "bak".toList := by
  decide



/-! ## Facts about the `downltar` handlers -/

theorem connectPorts_append (a b : List Event) :
    connectPorts (a ++ b) = connectPorts a ++ connectPorts b := by
  simp [connectPorts, List.filterMap_append]

theorem relayLoop_connectPorts (env : Env) :
    ∀ (reads : List RecvResult) (i : Nat), connectPorts (relayLoop env reads i).1 = [] := by
  intro reads
  induction reads with
  | nil => intro i; rfl
  | cons r rest ih =>
    intro i
    unfold relayLoop
    split_ifs
    · rfl
    · have := ih (i + 1)
      simpa [connectPorts] using this
    · rfl

theorem tarPayload_connectPorts (env : Env) : connectPorts (tarPayload env) = [] := by
  have hl := relayLoop_connectPorts env env.shardIn.tail 0
  unfold tarPayload
  dsimp only
  split_ifs <;> simp only [connectPorts_append, hl, List.nil_append] <;> rfl

theorem tarSizeExchange_connectPorts (env : Env) (reply : CStr) :
    connectPorts (tarSizeExchange env reply) = [] := by
  have hl := tarPayload_connectPorts env
  unfold tarSizeExchange
  dsimp only
  split_ifs
  any_goals rfl
  simp only [connectPorts_append, hl, List.append_nil]
  rfl

theorem forwardTarRequest_connectPorts (env : Env) (ft : CStr) (port : Int) :
    connectPorts (forwardTarRequest env ft port) =
      if env.socketOk && env.inetOk then [port] else [] := by
  have hl := tarSizeExchange_connectPorts env (cstrOf (nextRecv env.shardIn).buf)
  unfold forwardTarRequest
  cases hs : env.socketOk
  · rfl
  · cases hi : env.inetOk
    · rfl
    · simp only [Bool.not_true, Bool.false_eq_true, if_false, Bool.and_self, if_true]
      split_ifs
      any_goals rfl
      rw [connectPorts_append]
      have : connectPorts (Event.recv .shard (nextRecv env.shardIn) ::
          tarSizeExchange env (cstrOf (nextRecv env.shardIn).buf)) = [] := hl
      rw [this]
      rfl

theorem forwardTarRequest_start (env : Env) (ft : CStr) (port : Int)
    (hs : env.socketOk = true) (hi : env.inetOk = true) (hc : env.connectOk = true) :
    ∃ rest : List Event, forwardTarRequest env ft port =
      [.socket, .connect port, .send .shard (snprintf BUFFER_SIZE ("TAR ".toList ++ ft))] ++
        rest := by
  unfold forwardTarRequest
  simp only [hs, hi, hc, Bool.not_true, Bool.false_eq_true, if_false]
  split_ifs <;> exact ⟨_, rfl⟩

theorem handleTarLocal_c_noShardContact (env : Env) :
    noShardContact (handleTarLocal env "c".toList) = true := by
  have hl := freadLoop_noShardContact env
  unfold handleTarLocal
  have hc : strcmpEq "c".toList "c".toList = true := by decide
  simp only [hc, if_true]
  cases hto : env.tarOut with
  | none => split_ifs <;> rfl
  | some content =>
    have h := hl (content.length + 1) content 0
    simp only
    split_ifs
    any_goals rfl
    split <;> simp only [noShardContact_append, h, Bool.and_true, Bool.true_and] <;> rfl

theorem freadLoop_systemCalls (env : Env) :
    ∀ (fuel : Nat) (unread : List Char) (i : Nat),
      systemCalls (freadLoop env fuel unread i).1 = [] := by
  intro fuel
  induction fuel with
  | zero => intro unread i; rfl
  | succ n ih =>
    intro unread i
    unfold freadLoop
    dsimp only
    split_ifs
    · rfl
    · rfl
    · rfl
    · have := ih (unread.drop BUFFER_SIZE) (i + 1)
      simpa [systemCalls] using this

theorem systemCalls_append (a b : List Event) :
    systemCalls (a ++ b) = systemCalls a ++ systemCalls b := by
  simp [systemCalls, List.filterMap_append]

theorem handleTarLocal_c_system (env : Env) :
    systemCalls (handleTarLocal env "c".toList) = [tarCommand env.home] := by
  have hl := freadLoop_systemCalls env
  unfold handleTarLocal
  have hc : strcmpEq "c".toList "c".toList = true := by decide
  simp only [hc, if_true]
  cases hto : env.tarOut with
  | none => split_ifs <;> rfl
  | some content =>
    have h := hl (content.length + 1) content 0
    simp only
    split_ifs
    any_goals rfl
    split <;> simp only [systemCalls_append, h, List.append_nil] <;> rfl

theorem tarPath_text : tarPath = "/tmp/c_files.tar".toList := by decide

theorem tarCommand_text (home : CStr) (h : home.length < MAX_PATH_LENGTH) :
    tarCommand home = "find ".toList ++ home ++
      "/S1 -name \"*.c\" -type f | tar -cf /tmp/c_files.tar -T -".toList := by
  have hlen : ("find ".toList ++ home ++ "/S1 -name \"*.c\" -type f | tar -cf ".toList ++
      "/tmp/c_files.tar".toList ++ " -T -".toList).length < MAX_PATH_LENGTH * 2 := by
    simp only [List.length_append, MAX_PATH_LENGTH] at h ⊢
    have e1 : "find ".toList.length = 5 := by decide
    have e2 : "/S1 -name \"*.c\" -type f | tar -cf ".toList.length = 34 := by decide
    have e3 : "/tmp/c_files.tar".toList.length = 16 := by decide
    have e4 : " -T -".toList.length = 5 := by decide
    rw [e1, e2, e3, e4]
    omega
  unfold tarCommand
  rw [tarPath_text, snprintf_of_length hlen]
  simp only [List.append_assoc]
  rfl

theorem relayLoop_systemCalls (env : Env) :
    ∀ (reads : List RecvResult) (i : Nat), systemCalls (relayLoop env reads i).1 = [] := by
  intro reads
  induction reads with
  | nil => intro i; rfl
  | cons r rest ih =>
    intro i
    unfold relayLoop
    split_ifs
    · rfl
    · have := ih (i + 1)
      simpa [systemCalls] using this
    · rfl

theorem tarPayload_systemCalls (env : Env) : systemCalls (tarPayload env) = [] := by
  have hl := relayLoop_systemCalls env env.shardIn.tail 0
  unfold tarPayload
  dsimp only
  split_ifs <;> simp only [systemCalls_append, hl, List.nil_append] <;> rfl

theorem tarSizeExchange_systemCalls (env : Env) (reply : CStr) :
    systemCalls (tarSizeExchange env reply) = [] := by
  have hl := tarPayload_systemCalls env
  unfold tarSizeExchange
  dsimp only
  split_ifs
  any_goals rfl
  simp only [systemCalls_append, hl, List.append_nil]
  rfl

theorem forwardTarRequest_systemCalls (env : Env) (ft : CStr) (port : Int) :
    systemCalls (forwardTarRequest env ft port) = [] := by
  have hl := tarSizeExchange_systemCalls env (cstrOf (nextRecv env.shardIn).buf)
  unfold forwardTarRequest
  dsimp only
  split_ifs
  any_goals rfl
  rw [systemCalls_append]
  have : systemCalls (Event.recv .shard (nextRecv env.shardIn) ::
      tarSizeExchange env (cstrOf (nextRecv env.shardIn).buf)) = [] := hl
  rw [this]
  rfl

theorem handleTarLocal_pdf (env : Env) :
    handleTarLocal env "pdf".toList = forwardTarRequest env "pdf".toList S2_PORT := by
  unfold handleTarLocal
  have h1 : strcmpEq "pdf".toList "c".toList = false := by decide
  have h2 : strcmpEq "pdf".toList "txt".toList = false := by decide
  have h3 : strcmpEq "pdf".toList "pdf".toList = true := by decide
  simp only [h1, h2, h3, if_true, Bool.false_eq_true, if_false]

theorem handleTarLocal_txt (env : Env) :
    handleTarLocal env "txt".toList = forwardTarRequest env "txt".toList S3_PORT := by
  unfold handleTarLocal
  have h1 : strcmpEq "txt".toList "c".toList = false := by decide
  have h2 : strcmpEq "txt".toList "txt".toList = true := by decide
  simp only [h1, h2, if_true, Bool.false_eq_true, if_false]

theorem handleTarLocal_c_head (env : Env) :
    ∃ rest : List Event, handleTarLocal env "c".toList = .system (tarCommand env.home) :: rest ∧
      systemCalls rest = [] := by
  have hl := freadLoop_systemCalls env
  unfold handleTarLocal
  have hc : strcmpEq "c".toList "c".toList = true := by decide
  simp only [hc, if_true]
  cases hto : env.tarOut with
  | none => split_ifs <;> exact ⟨_, rfl, rfl⟩
  | some content =>
    have h := hl (content.length + 1) content 0
    simp only
    split_ifs
    any_goals exact ⟨_, rfl, rfl⟩
    split
    all_goals
      refine ⟨_, by simp only [List.singleton_append, List.cons_append]; rfl, ?_⟩
      simp only [systemCalls_append, h, List.append_nil, List.nil_append]
      rfl

theorem handleTarLocal_c_run (env : Env) (content : List Char)
    (hsys : env.systemRet = 0) (htar : env.tarOut = some content)
    (hopen : env.fopenOk = true) (hsend : env.sendSizeOk = true)
    (hack : sizeAckReply (nextRecv env.clientIn))
    (hs : ∀ i, env.sendChunkOk i = true) (hr : env.freadErrAt = none) :
    ∃ sends : List (List Char), sends.flatten = content ∧
      handleTarLocal env "c".toList =
        [.system (tarCommand env.home), .stat tarPath, .fopenRead tarPath,
          .send .client (snprintf BUFFER_SIZE (ldText content.length)),
          .recv .client (nextRecv env.clientIn)] ++
        sends.map (Event.send .client) ++
        [.fclose, .remove tarPath, .recv .client (nextRecv env.clientIn.tail)] := by
  obtain ⟨sends, hflat, hloop⟩ :=
    freadLoop_complete env hs hr (content.length + 1) content 0 (Nat.le_succ _)
  refine ⟨sends, hflat, ?_⟩
  have hc : strcmpEq "c".toList "c".toList = true := by decide
  have h1 : ¬ (nextRecv env.clientIn).ret ≤ 0 := not_le.mpr hack.1
  have h2 : strcmpEq (cstrOf (nextRecv env.clientIn).buf) "SIZE_ACK".toList = true := by
    rw [hack.2]; decide
  unfold handleTarLocal
  simp only [hc, if_true, hsys, ne_eq, not_true_eq_false, if_false, htar, hopen, hsend,
    Bool.not_true, Bool.false_eq_true, h1, h2, decide_False, Bool.or_self, hloop]
  simp only [List.append_assoc, List.singleton_append, List.cons_append, List.nil_append]

/-! ## C21: where an archive request goes -/

/-- C21: a `downltar` request for the class pdf reaches shard 2 only and one for
txt shard 3 only: the only `connect` of the run is to port 8081, respectively
8082, once the connection stands the run begins with the command `TAR pdf`,
respectively `TAR txt`, sent to that shard, and S1 runs no command of its own.
A request for the class c makes no call on a shard connection: the run begins
with the one `system` call of the run, which (the home directory fitting a path
buffer) runs `find HOME/S1 -name "*.c" -type f | tar -cf /tmp/c_files.tar -T -`
on S1, and when nothing fails the archive `/tmp/c_files.tar` is opened, its
length announced, its bytes sent to the requester after SIZE_ACK, and the archive
removed. -/
theorem downltar_routing (env : Env) :
    connectPorts (handleTarLocal env "pdf".toList) =
      (if env.socketOk && env.inetOk then [8081] else []) ∧
    connectPorts (handleTarLocal env "txt".toList) =
      (if env.socketOk && env.inetOk then [8082] else []) ∧
    (env.socketOk = true → env.inetOk = true → env.connectOk = true →
      (∃ rest : List Event, handleTarLocal env "pdf".toList =
        [.socket, .connect 8081, .send .shard "TAR pdf".toList] ++ rest) ∧
      (∃ rest : List Event, handleTarLocal env "txt".toList =
        [.socket, .connect 8082, .send .shard "TAR txt".toList] ++ rest)) ∧
    systemCalls (handleTarLocal env "pdf".toList) = [] ∧
    systemCalls (handleTarLocal env "txt".toList) = [] ∧
    noShardContact (handleTarLocal env "c".toList) = true ∧
    (env.home.length < MAX_PATH_LENGTH →
      (∃ rest : List Event, handleTarLocal env "c".toList =
        .system ("find ".toList ++ env.home ++
          "/S1 -name \"*.c\" -type f | tar -cf /tmp/c_files.tar -T -".toList) :: rest ∧
        systemCalls rest = []) ∧
      (∀ content : List Char, env.systemRet = 0 → env.tarOut = some content →
        env.fopenOk = true → env.sendSizeOk = true → sizeAckReply (nextRecv env.clientIn) →
        (∀ i, env.sendChunkOk i = true) → env.freadErrAt = none →
        ∃ sends : List (List Char), sends.flatten = content ∧
          handleTarLocal env "c".toList =
            [.system ("find ".toList ++ env.home ++
                "/S1 -name \"*.c\" -type f | tar -cf /tmp/c_files.tar -T -".toList),
              .stat "/tmp/c_files.tar".toList, .fopenRead "/tmp/c_files.tar".toList,
              .send .client (snprintf BUFFER_SIZE (ldText content.length)),
              .recv .client (nextRecv env.clientIn)] ++
            sends.map (Event.send .client) ++
            [.fclose, .remove "/tmp/c_files.tar".toList,
              .recv .client (nextRecv env.clientIn.tail)])) := by
  refine ⟨?_, ?_, ?_, ?_, ?_, handleTarLocal_c_noShardContact env, ?_⟩
  · rw [handleTarLocal_pdf, forwardTarRequest_connectPorts]; rfl
  · rw [handleTarLocal_txt, forwardTarRequest_connectPorts]; rfl
  · intro hs hi hc
    rw [handleTarLocal_pdf, handleTarLocal_txt]
    exact ⟨forwardTarRequest_start env _ _ hs hi hc, forwardTarRequest_start env _ _ hs hi hc⟩
  · rw [handleTarLocal_pdf]; exact forwardTarRequest_systemCalls env _ _
  · rw [handleTarLocal_txt]; exact forwardTarRequest_systemCalls env _ _
  · intro hh
    have hcmd := tarCommand_text env.home hh
    have hpath := tarPath_text
    refine ⟨?_, ?_⟩
    · rw [← hcmd]; exact handleTarLocal_c_head env
    · intro content hsys htar hopen hsend hack hs hr
      rw [← hcmd, ← hpath]
      exact handleTarLocal_c_run env content hsys htar hopen hsend hack hs hr

/-- C21 on a request for the class c with the home directory `/home/u` and an
archive of three bytes: the command run on S1 and the whole run; and on a
request for the class pdf: the one connection is to port 8081. -/
theorem downltar_routing_witness :
    connectPorts (handleTarLocal
      { home := "/home/u".toList, tarOut := some "abc".toList, clientIn := [.data "SIZE_ACK".toList] }
      "pdf".toList) = [8081] ∧
    (∃ sends : List (List Char), sends.flatten = "abc".toList ∧
      handleTarLocal
        { home := "/home/u".toList, tarOut := some "abc".toList, clientIn := [.data "SIZE_ACK".toList] }
        "c".toList =
        [.system
            "find /home/u/S1 -name \"*.c\" -type f | tar -cf /tmp/c_files.tar -T -".toList,
          .stat "/tmp/c_files.tar".toList, .fopenRead "/tmp/c_files.tar".toList,
          .send .client "3".toList, .recv .client (.data "SIZE_ACK".toList)] ++
        sends.map (Event.send .client) ++
        [.fclose, .remove "/tmp/c_files.tar".toList, .recv .client (.data [])]) ∧
    handleTarLocal
      { home := "/home/u".toList, tarOut := some "abc".toList, clientIn := [.data "SIZE_ACK".toList] }
      "c".toList =
      [.system "find /home/u/S1 -name \"*.c\" -type f | tar -cf /tmp/c_files.tar -T -".toList,
        .stat "/tmp/c_files.tar".toList, .fopenRead "/tmp/c_files.tar".toList,
        .send .client "3".toList, .recv .client (.data "SIZE_ACK".toList),
        .send .client "abc".toList,
        .fclose, .remove "/tmp/c_files.tar".toList, .recv .client (.data [])] :=
  ⟨(downltar_routing
      { home := "/home/u".toList, tarOut := some "abc".toList, clientIn := [.data "SIZE_ACK".toList] }).1,
    ((downltar_routing
      { home := "/home/u".toList, tarOut := some "abc".toList, clientIn := [.data "SIZE_ACK".toList] }).2.2.2.2.2.2
      (by decide)).2 "abc".toList rfl rfl rfl rfl ⟨by decide, by decide⟩ (fun _ => rfl) rfl,
    by decide⟩

/-! ## Facts about rejected server directories -/

theorem processUploadf_rejected (env : Env) (cmd : Command)
    (h1 : strncmpEq (snprintf MAX_PATH_LENGTH cmd.arg2) "~/S1".toList 3 = false)
    (h2 : strncmpEq (snprintf MAX_PATH_LENGTH cmd.arg2) "~S1".toList 2 = false) :
    (processUploadf env cmd).events =
      [.send .client (lit "ERROR: Invalid path, must start with ~/S1 or ~S1" 47)] := by
  unfold processUploadf
  simp only [h1, h2, Bool.or_self, Bool.not_false, if_true]

/-! ## C22: the archive request for the class zip -/

/-- C22 fails on the code: for the class zip `handleTarLocal` opens no shard
connection and builds no archive, and sends an error that begins with ERROR, but
it gives `send` the count 38 for a message of 39 characters, so the text sent
ends in "not supporte" and does not contain the words "not supported". -/
theorem zip_archive_message_cut :
    handleTarLocal { home := "/home/u".toList } "zip".toList =
      [.send .client "ERROR: ZIP file archiving not supporte".toList] ∧
    "ERROR: ZIP file archiving not supported".toList.length = 39 ∧
    strstr "ERROR: ZIP file archiving not supporte".toList "not supported".toList = none ∧
    strstr "ERROR: ZIP file archiving not supporte".toList "ERROR".toList = some 0 := by
  decide

/-! ## C23: the path test of the `REMOVE` handler of S3 -/

/-- C23 fails on the code: the `handleRemove` of S3 compares only the first three
characters, `~/S`, so it accepts the path `~/S1/main.c` and removes the file
`/home/u/S1/main.c` of S1; the `handleRemove` of S2, which compares four, rejects
that path. -/
theorem s3_remove_accepts_foreign_path :
    (Shard.handleRemove .s3 { home := "/home/u".toList, fs := fun p =>
        if p = "/home/u/S1/main.c".toList then some "int".toList else none }
      "~/S1/main.c".toList).map Run.events =
      some [.stat "/home/u/S1/main.c".toList, .remove "/home/u/S1/main.c".toList,
        .send .client "SUCCESS".toList] ∧
    (Shard.handleRemove .s3 { home := "/home/u".toList, fs := fun p =>
        if p = "/home/u/S1/main.c".toList then some "int".toList else none }
      "~/S1/main.c".toList).map (fun r => r.fs "/home/u/S1/main.c".toList) = some none ∧
    (Shard.handleRemove .s2 { home := "/home/u".toList, fs := fun p =>
        if p = "/home/u/S1/main.c".toList then some "int".toList else none }
      "~/S1/main.c".toList).map Run.events =
      some [.send .client "ERROR: Path must start with ~/S2".toList] := by
  decide

/-! ## C24: the server directory of `uploadf` -/

/-- C24 fails on the code: the server directory `~/S2/docs` begins with neither
`~/S1` nor `~S1`, yet `uploadf a.c ~/S2/docs` is not rejected: the test compares
three characters, `~/S`, so S1 creates `/home/u/S2/docs`, sends READY and stores
the file there. A directory that fails both tests, `/etc`, gets the error. -/
theorem uploadf_accepts_other_namespace :
    (processUploadf { home := "/home/u".toList, clientIn := [.data "3".toList,
        .data "abc".toList] } ⟨"uploadf".toList, "a.c".toList, "~/S2/docs".toList⟩).events =
      [.mkdirs "/home/u/S2/docs".toList, .send .client "READY".toList,
        .recv .client (.data "3".toList), .send .client "SIZE_ACK".toList,
        .stat "/home/u/S2/docs".toList, .fopen "/home/u/S2/docs/a.c".toList,
        .recv .client (.data "abc".toList), .fwrite "abc".toList, .fclose,
        .stat "/home/u/S2/docs/a.c".toList, .send .client "SUCCESS".toList] ∧
    (processUploadf { home := "/home/u".toList, clientIn := [.data "3".toList,
        .data "abc".toList] } ⟨"uploadf".toList, "a.c".toList, "/etc".toList⟩).events =
      [.send .client "ERROR: Invalid path, must start with ~/S1 or ~S".toList] := by
  decide

/-! ## C28, C29: the shorthand `~S1/` -/

/-- C28 fails on the code: for `downlf ~S1/a.pdf` S1 sends S2 the command
`DOWNLOAD ~S2/a.pdf` and for `removef ~S1/a.pdf` the command `REMOVE ~S2/a.pdf`;
the path `~S2/a.pdf` does not begin with `~/S2`, so the `handleDownload` and the
`handleRemove` of S2 reject it, while they accept `~/S2/a.pdf`. -/
theorem tilde_shorthand_rejected_by_shard :
    handleDownloadLocal { home := "/home/u".toList, shardIn := [.data
        "ERROR: Path must start with ~/S2".toList] } "~S1/a.pdf".toList =
      [.socket, .connect 8081, .send .shard "DOWNLOAD ~S2/a.pdf".toList,
        .recv .shard (.data "ERROR: Path must start with ~/S2".toList),
        .send .client "ERROR: Path must start with ~/S2".toList, .close .shard] ∧
    (processRemovef { home := "/home/u".toList, shardIn := [.data
        "ERROR: Path must start with ~/S2".toList] }
      ⟨"removef".toList, "~S1/a.pdf".toList, []⟩).events =
      [.socket, .connect 8081, .send .shard "REMOVE ~S2/a.pdf".toList,
        .recv .shard (.data "ERROR: Path must start with ~/S2".toList),
        .send .client "ERROR: Path must start with ~/S2".toList, .close .shard] ∧
    Shard.handleDownload .s2 { home := "/home/u".toList, fs := fun p =>
        if p = "/home/u/S2/a.pdf".toList then some "%PDF".toList else none }
      "~S2/a.pdf".toList =
      some [.send .client "ERROR: Path must start with ~/S2".toList] ∧
    (Shard.handleRemove .s2 { home := "/home/u".toList, fs := fun p =>
        if p = "/home/u/S2/a.pdf".toList then some "%PDF".toList else none }
      "~S2/a.pdf".toList).map Run.events =
      some [.send .client "ERROR: Path must start with ~/S2".toList] ∧
    Shard.downloadPathOk .s2 "~/S2/a.pdf".toList = true ∧
    Shard.downloadPathOk .s2 "~S2/a.pdf".toList = false := by
  decide

/-- C29 fails on the code: with the home directory `/home/u`, the local path
resolution of upload, download and list maps `~S1/docs` to `/home/u/1/docs` (it
skips two characters, `~S`), not to `/home/u/S1/docs`, which is what it gives for
`~/S1/docs` and what `removef` gives for `~S1/...`. -/
theorem tilde_shorthand_resolves_outside_S1 :
    uploadActualDir "/home/u".toList "~S1/docs".toList = "/home/u/1/docs".toList ∧
    localActualPath "/home/u".toList "~S1/docs/a.c".toList = "/home/u/1/docs/a.c".toList ∧
    listActualPath "/home/u".toList "~S1/docs".toList = "/home/u/1/docs".toList ∧
    handleDownloadLocal { home := "/home/u".toList } "~S1/docs/a.c".toList =
      [.stat "/home/u/1/docs/a.c".toList, .send .client "ERROR: File not found".toList] ∧
    handleDownloadLocal { home := "/home/u".toList } "~/S1/docs/a.c".toList =
      [.stat "/home/u/S1/docs/a.c".toList, .send .client "ERROR: File not found".toList] ∧
    (processRemovef { home := "/home/u".toList }
      ⟨"removef".toList, "~S1/docs/a.c".toList, []⟩).events =
      [.stat "/home/u/S1/docs/a.c".toList, .send .client "ERROR: File not found".toList] ∧
    (processUploadf { home := "/home/u".toList, clientIn := [.data "3".toList,
        .data "abc".toList] } ⟨"uploadf".toList, "a.c".toList, "~S1/docs".toList⟩).events =
      [.mkdirs "/home/u/1/docs".toList, .send .client "READY".toList,
        .recv .client (.data "3".toList), .send .client "SIZE_ACK".toList,
        .stat "/home/u/1/docs".toList, .fopen "/home/u/1/docs/a.c".toList,
        .recv .client (.data "abc".toList), .fwrite "abc".toList, .fclose,
        .stat "/home/u/1/docs/a.c".toList, .send .client "SUCCESS".toList] := by
  decide

/-! ## C30: the byte counts of the fixed error messages -/

/-- C30 fails on the code: eleven of the thirty fixed error messages of `s1.c` are
sent with a byte count that is not the length of the text. When the socket
cannot be created the requester receives "ERROR: Could not create socke", one
character short; when a write to the file fails it receives
"ERROR: File write error" followed by a NUL byte. -/
theorem fixed_error_counts_differ :
    s1FixedErrors.filter (fun m => m.1.length != m.2) =
      [("ERROR: Could not create socket", 29),
      ("ERROR: Invalid server address", 28),
      ("ERROR: Could not connect to target server", 40),
      ("ERROR: File write error", 24),
      ("ERROR: Could not finalize file", 31),
      ("ERROR: File creation failed", 28),
      ("ERROR: File read error", 23),
      ("ERROR: ZIP file archiving not supported", 38),
      ("ERROR: Only .c, .txt, and .pdf file types are supported", 54),
      ("ERROR: Invalid path, must start with ~/S1 or ~S1", 47),
      ("ERROR: Could not receive file size", 33)] ∧
    (transferFileToServer { home := "/home/u".toList, socketOk := false } []
      "~/S2/a.pdf".toList 8081 3).1 =
      [.socket, .send .client "ERROR: Could not create socke".toList] ∧
    (processUploadf { home := "/home/u".toList, fwriteRet := fun _ _ => 0, clientIn := [
        .data "3".toList, .data "abc".toList] }
      ⟨"uploadf".toList, "a.c".toList, "~/S1/docs".toList⟩).events =
      [.mkdirs "/home/u/S1/docs".toList, .send .client "READY".toList,
        .recv .client (.data "3".toList), .send .client "SIZE_ACK".toList,
        .stat "/home/u/S1/docs".toList, .fopen "/home/u/S1/docs/a.c".toList,
        .recv .client (.data "abc".toList), .fwrite "abc".toList, .fclose,
        .remove "/home/u/S1/docs/a.c".toList,
        .send .client ("ERROR: File write error".toList ++ [NUL])] := by
  decide

/-! ## Facts about the end of the forwarding functions -/

theorem closesShard_append (a b : List Event) (h : closesShard b) : closesShard (a ++ b) := by
  unfold closesShard at *
  rw [List.getLast?_append, h]
  rfl

theorem closesShard_cons (e : Event) (b : List Event) (h : closesShard b) :
    closesShard (e :: b) := closesShard_append [e] b h

theorem relayLoop_closes (env : Env) :
    ∀ (reads : List RecvResult) (i : Nat), (relayLoop env reads i).2 = false →
      closesShard (relayLoop env reads i).1 := by
  intro reads
  induction reads with
  | nil => intro i h; simp [relayLoop] at h
  | cons r rest ih =>
    intro i h
    unfold relayLoop at h ⊢
    split_ifs at h ⊢ with h1 h2
    · rfl
    · exact closesShard_cons _ _ (closesShard_cons _ _ (ih (i + 1) h))

theorem recvLoop_shardSink_closes (L : Int) (env : Env) :
    ∀ (reads : List RecvResult) (total : Int) (i : Nat),
      (recvLoop L (shardSink env) reads total i).ending ≠ .complete →
      closesShard (recvLoop L (shardSink env) reads total i).events := by
  intro reads
  induction reads with
  | nil =>
    intro total i h
    unfold recvLoop at h ⊢
    split_ifs at h ⊢
    · rfl
    · exact absurd rfl h
  | cons r rest ih =>
    intro total i h
    unfold recvLoop at h ⊢
    split_ifs at h ⊢
    · rfl
    · rfl
    · exact closesShard_cons _ _ (closesShard_cons _ _ (ih _ _ h))
    · exact absurd rfl h

theorem transferPayload_closes (env : Env) (reads : List RecvResult) (L : Int) :
    closesShard (transferPayload env reads L).1 := by
  unfold transferPayload
  dsimp only
  cases he : (recvLoop L (shardSink env) reads 0 0).ending with
  | recvFailed =>
    simp only
    exact recvLoop_shardSink_closes L env reads 0 0 (by rw [he]; decide)
  | sinkFailed =>
    simp only
    exact recvLoop_shardSink_closes L env reads 0 0 (by rw [he]; decide)
  | complete =>
    simp only
    split_ifs <;> exact closesShard_append _ _ rfl

theorem transferFileToServer_closes (env : Env) (reads : List RecvResult) (dest : CStr)
    (port L : Int) (hs : env.socketOk = true) :
    closesShard (transferFileToServer env reads dest port L).1 := by
  have hp := transferPayload_closes env reads L
  unfold transferFileToServer
  simp only [hs, Bool.not_true, Bool.false_eq_true, if_false]
  split_ifs
  all_goals first
    | rfl
    | exact closesShard_append _ _ hp

theorem forwardDownloadRequest_closes (env : Env) (path : CStr) (port : Int)
    (hs : env.socketOk = true) : closesShard (forwardDownloadRequest env path port) := by
  have hl := relayLoop_closes env env.shardIn.tail 0
  unfold forwardDownloadRequest
  simp only [hs, Bool.not_true, Bool.false_eq_true, if_false]
  by_cases h1 : (!env.inetOk) = true
  · rw [if_pos h1]; rfl
  rw [if_neg h1]
  by_cases h2 : (!env.connectOk) = true
  · rw [if_pos h2]; rfl
  rw [if_neg h2]
  by_cases h3 : (!env.sendCmdOk) = true
  · rw [if_pos h3]; rfl
  rw [if_neg h3]
  by_cases h4 : (nextRecv env.shardIn).ret ≤ 0
  · rw [if_pos h4]; rfl
  rw [if_neg h4]
  by_cases h5 : strncmpEq (cstrOf (nextRecv env.shardIn).buf) "ERROR".toList 5 = true
  · rw [if_pos h5]; rfl
  rw [if_neg h5]
  by_cases h6 : (!env.sendSizeOk) = true
  · rw [if_pos h6]; rfl
  rw [if_neg h6]
  by_cases h7 : (decide ((nextRecv env.clientIn).ret ≤ 0) ||
      !strcmpEq (cstrOf (nextRecv env.clientIn).buf) "SIZE_ACK".toList) = true
  · rw [if_pos h7]; rfl
  rw [if_neg h7]
  by_cases h8 : (!env.sendAckOk) = true
  · rw [if_pos h8]; rfl
  rw [if_neg h8]
  by_cases h9 : (!(relayLoop env env.shardIn.tail 0).2) = true
  · rw [if_pos h9]
    exact closesShard_append _ _ (hl (by simpa using h9))
  · rw [if_neg h9]
    exact closesShard_append _ _ rfl

theorem forwardRemoveRequest_closes (env : Env) (path : CStr) (port : Int)
    (hs : env.socketOk = true) : closesShard (forwardRemoveRequest env path port) := by
  unfold forwardRemoveRequest
  simp only [hs, Bool.not_true, Bool.false_eq_true, if_false]
  split_ifs <;> rfl

theorem forwardListRequest_closes (link : ShardLink) (path : CStr) (port : Int)
    (response : CStr) (size : Nat) (hs : link.socketOk = true) :
    closesShard (forwardListRequest link path port response size).1 := by
  unfold forwardListRequest
  simp only [hs, Bool.not_true, Bool.false_eq_true, if_false]
  split_ifs <;> rfl

theorem tarPayload_closes (env : Env) : closesShard (tarPayload env) := by
  have hl := relayLoop_closes env env.shardIn.tail 0
  unfold tarPayload
  dsimp only
  split_ifs with h1
  · exact hl (by simpa using h1)
  · exact closesShard_append _ _ rfl
  · exact closesShard_append _ _ rfl

theorem tarSizeExchange_closes (env : Env) (reply : CStr) :
    closesShard (tarSizeExchange env reply) := by
  unfold tarSizeExchange
  dsimp only
  split_ifs
  all_goals first
    | rfl
    | exact closesShard_append _ _ (tarPayload_closes env)

theorem forwardTarRequest_closes (env : Env) (ft : CStr) (port : Int)
    (hs : env.socketOk = true) : closesShard (forwardTarRequest env ft port) := by
  unfold forwardTarRequest
  simp only [hs, Bool.not_true, Bool.false_eq_true, if_false]
  split_ifs
  all_goals first
    | rfl
    | exact closesShard_append _ _ (closesShard_cons _ _ (tarSizeExchange_closes env _))

/-! ## C26: the shard connection is closed on every path -/

/-- C26: on every run of `transferFileToServer`, `forwardDownloadRequest`,
`forwardRemoveRequest`, `forwardListRequest` and `forwardTarRequest` on which
`socket` returned a descriptor, the last call of the function is the `close` of
that descriptor, whatever failed or succeeded before. -/
theorem shard_socket_always_closed (env : Env) (link : ShardLink) (reads : List RecvResult)
    (path response : CStr) (port L : Int) (size : Nat) :
    (env.socketOk = true →
      closesShard (transferFileToServer env reads path port L).1 ∧
      closesShard (forwardDownloadRequest env path port) ∧
      closesShard (forwardRemoveRequest env path port) ∧
      closesShard (forwardTarRequest env path port)) ∧
    (link.socketOk = true →
      closesShard (forwardListRequest link path port response size).1) :=
  ⟨fun hs => ⟨transferFileToServer_closes env reads path port L hs,
      forwardDownloadRequest_closes env path port hs,
      forwardRemoveRequest_closes env path port hs,
      forwardTarRequest_closes env path port hs⟩,
    fun hs => forwardListRequest_closes link path port response size hs⟩

/-- C26 on a download whose shard reply is an error and on an upload for which the
connection to the shard fails. -/
theorem shard_socket_always_closed_witness :
    closesShard (forwardDownloadRequest { home := "/home/u".toList, shardIn := [.data
      "ERROR: File not found".toList] } "~/S2/a.pdf".toList 8081) ∧
    closesShard (transferFileToServer { home := "/home/u".toList, connectOk := false } []
      "~/S2/a.pdf".toList 8081 3).1 :=
  ⟨((shard_socket_always_closed { home := "/home/u".toList, shardIn := [.data
      "ERROR: File not found".toList] } {} [] "~/S2/a.pdf".toList [] 8081 3 0).1 rfl).2.1,
   ((shard_socket_always_closed { home := "/home/u".toList, connectOk := false } {} []
      "~/S2/a.pdf".toList [] 8081 3 0).1 rfl).1⟩

/-! ## Facts about `strtok` and the tokens of a line -/

theorem delims_contains (c : Char) :
    " \n".toList.contains c = (c == ' ' || c == '\n') := by
  show [' ', '\n'].contains c = _
  simp only [List.contains, List.elem]
  cases (c == ' ') <;> cases (c == '\n') <;> rfl

theorem runsBetween_eq (p : Char → Bool) :
    ∀ cs : CStr, runsBetween p cs =
      cs.takeWhile (fun c => !p c) ::
        (match cs.dropWhile (fun c => !p c) with
          | [] => []
          | _ :: r => runsBetween p r) := by
  intro cs
  induction cs with
  | nil => rfl
  | cons c cs ih =>
    by_cases hc : p c = true
    · simp [runsBetween, hc, List.takeWhile, List.dropWhile]
    · have hc' : p c = false := by simpa using hc
      rw [runsBetween, if_neg hc, ih]
      simp [List.takeWhile, List.dropWhile, hc']

theorem strtok_tokens :
    ∀ s : CStr,
      (lineTokens s = [] → strtok " \n".toList s = none) ∧
      (∀ t ts, lineTokens s = t :: ts →
        ∃ r, strtok " \n".toList s = some (t, r) ∧ lineTokens r = ts) := by
  intro s
  induction s with
  | nil =>
    constructor
    · intro _; rfl
    · intro t ts h; simp [lineTokens, runsBetween] at h
  | cons c cs ih =>
    by_cases hc : (c == ' ' || c == '\n') = true
    · have e1 : lineTokens (c :: cs) = lineTokens cs := by
        simp only [lineTokens, runsBetween, hc, if_true]
        rfl
      have e2 : strtok " \n".toList (c :: cs) = strtok " \n".toList cs := by
        simp only [strtok, List.dropWhile, delims_contains, hc]
      rw [e1, e2]
      exact ih
    · have hc' : (c == ' ' || c == '\n') = false := by simpa using hc
      have hrun := runsBetween_eq (fun c => c == ' ' || c == '\n') (c :: cs)
      have htw : (c :: cs).takeWhile (fun c => !(c == ' ' || c == '\n')) =
          c :: cs.takeWhile (fun c => !(c == ' ' || c == '\n')) := by
        simp [List.takeWhile, hc']
      have hdw : (c :: cs).dropWhile (fun c => !(c == ' ' || c == '\n')) =
          cs.dropWhile (fun c => !(c == ' ' || c == '\n')) := by
        simp [List.dropWhile, hc']
      have htok : lineTokens (c :: cs) =
          (c :: cs.takeWhile (fun c => !(c == ' ' || c == '\n'))) ::
            lineTokens ((cs.dropWhile (fun c => !(c == ' ' || c == '\n'))).drop 1) := by
        unfold lineTokens
        rw [hrun, htw, hdw]
        cases hd : cs.dropWhile (fun c => !(c == ' ' || c == '\n')) with
        | nil => simp [runsBetween]
        | cons x r => simp
      have hst : strtok " \n".toList (c :: cs) =
          some (c :: cs.takeWhile (fun c => !(c == ' ' || c == '\n')),
            (cs.dropWhile (fun c => !(c == ' ' || c == '\n'))).drop 1) := by
        simp only [strtok, delims_contains]
        have hd0 : (c :: cs).dropWhile (fun c => c == ' ' || c == '\n') = c :: cs := by
          simp [List.dropWhile, hc']
        rw [hd0, htw, hdw]
        rfl
      constructor
      · intro h; rw [htok] at h; exact absurd h (by simp)
      · intro t ts h
        rw [htok] at h
        simp only [List.cons.injEq] at h
        refine ⟨_, hst.trans ?_, h.2⟩
        rw [h.1]

/-! ## C27: `parseCommand` -/

/-- C27: for every input line, `parseCommand` sets `command` to the first token of
the line cut to 19 characters, `arg1` to the second and `arg2` to the third, each
cut to 1023 characters, a token being a maximal non-empty run of characters
other than space and newline; a field whose token is absent is empty, and the
tokens after the third play no part. -/
theorem parseCommand_tokens (input : CStr) :
    parseCommand input =
      ⟨((lineTokens input).getD 0 []).take 19, ((lineTokens input).getD 1 []).take 1023,
        ((lineTokens input).getD 2 []).take 1023⟩ := by
  unfold parseCommand
  obtain ⟨hn, hc⟩ := strtok_tokens input
  cases h0 : lineTokens input with
  | nil =>
    rw [hn h0]
    rfl
  | cons t1 ts1 =>
    obtain ⟨r1, hs1, hr1⟩ := hc t1 ts1 h0
    rw [hs1]
    obtain ⟨hn1, hc1⟩ := strtok_tokens r1
    cases h1 : ts1 with
    | nil =>
      rw [h1] at hr1
      simp only [hn1 hr1]
      rfl
    | cons t2 ts2 =>
      rw [h1] at hr1
      obtain ⟨r2, hs2, hr2⟩ := hc1 t2 ts2 hr1
      simp only [hs2]
      obtain ⟨hn2, hc2⟩ := strtok_tokens r2
      cases h2 : ts2 with
      | nil =>
        rw [h2] at hr2
        simp only [hn2 hr2]
        rfl
      | cons t3 ts3 =>
        rw [h2] at hr2
        obtain ⟨r3, hs3, _⟩ := hc2 t3 ts3 hr2
        simp only [hs3]
        rfl

/-- C27 on a line with five tokens and repeated separators. -/
theorem parseCommand_tokens_witness :
    parseCommand "uploadf  a.pdf ~/S1/docs extra more\n".toList =
      ⟨"uploadf".toList, "a.pdf".toList, "~/S1/docs".toList⟩ :=
  (parseCommand_tokens "uploadf  a.pdf ~/S1/docs extra more\n".toList).trans (by decide)

/-! ## Facts about the error replies -/

theorem errorReported_append_left (a b : List Event) (h : errorReported a = true) :
    errorReported (a ++ b) = true := by
  simp only [errorReported, List.any_append, Bool.or_eq_true] at *
  exact Or.inl h

theorem transferFileToServer_reports (env : Env) (reads : List RecvResult) (dest : CStr)
    (port L : Int) (hf : shardLegFails env) :
    errorReported (transferFileToServer env reads dest port L).1 = true := by
  unfold transferFileToServer
  dsimp only
  by_cases h1 : (!env.socketOk) = true
  · rw [if_pos h1]; rfl
  rw [if_neg h1]
  by_cases h2 : (!env.inetOk) = true
  · rw [if_pos h2]; rfl
  rw [if_neg h2]
  by_cases h3 : (!env.connectOk) = true
  · rw [if_pos h3]; rfl
  rw [if_neg h3]
  by_cases h4 : (!env.sendCmdOk) = true
  · rw [if_pos h4]; rfl
  rw [if_neg h4]
  by_cases h5 : (decide ((nextRecv env.shardIn).ret ≤ 0) ||
      !strncmpEq (cstrOf (nextRecv env.shardIn).buf) "READY".toList 5) = true
  · rw [if_pos h5]; rfl
  · exfalso
    apply hf
    simp only [Bool.or_eq_true, decide_eq_true_eq, not_or, not_le] at h5
    exact ⟨by simpa using h1, by simpa using h2, by simpa using h3, by simpa using h4, h5.1⟩

theorem forwardDownloadRequest_reports (env : Env) (path : CStr) (port : Int)
    (hf : shardLegFails env) : errorReported (forwardDownloadRequest env path port) = true := by
  unfold forwardDownloadRequest
  dsimp only
  by_cases h1 : (!env.socketOk) = true
  · rw [if_pos h1]; rfl
  rw [if_neg h1]
  by_cases h2 : (!env.inetOk) = true
  · rw [if_pos h2]; rfl
  rw [if_neg h2]
  by_cases h3 : (!env.connectOk) = true
  · rw [if_pos h3]; rfl
  rw [if_neg h3]
  by_cases h4 : (!env.sendCmdOk) = true
  · rw [if_pos h4]; rfl
  rw [if_neg h4]
  by_cases h5 : (nextRecv env.shardIn).ret ≤ 0
  · rw [if_pos h5]; rfl
  · exfalso
    apply hf
    exact ⟨by simpa using h1, by simpa using h2, by simpa using h3, by simpa using h4,
      not_le.mp h5⟩

theorem forwardRemoveRequest_reports (env : Env) (path : CStr) (port : Int)
    (hf : shardLegFails env) : errorReported (forwardRemoveRequest env path port) = true := by
  unfold forwardRemoveRequest
  dsimp only
  by_cases h1 : (!env.socketOk) = true
  · rw [if_pos h1]; rfl
  rw [if_neg h1]
  by_cases h2 : (!env.inetOk) = true
  · rw [if_pos h2]; rfl
  rw [if_neg h2]
  by_cases h3 : (!env.connectOk) = true
  · rw [if_pos h3]; rfl
  rw [if_neg h3]
  by_cases h4 : (!env.sendCmdOk) = true
  · rw [if_pos h4]; rfl
  rw [if_neg h4]
  by_cases h5 : (nextRecv env.shardIn).ret ≤ 0
  · rw [if_pos h5]; rfl
  · exfalso
    apply hf
    exact ⟨by simpa using h1, by simpa using h2, by simpa using h3, by simpa using h4,
      not_le.mp h5⟩

theorem forwardTarRequest_reports (env : Env) (ft : CStr) (port : Int)
    (hf : shardLegFails env) : errorReported (forwardTarRequest env ft port) = true := by
  unfold forwardTarRequest
  dsimp only
  by_cases h1 : (!env.socketOk) = true
  · rw [if_pos h1]; rfl
  rw [if_neg h1]
  by_cases h2 : (!env.inetOk) = true
  · rw [if_pos h2]; rfl
  rw [if_neg h2]
  by_cases h3 : (!env.connectOk) = true
  · rw [if_pos h3]; rfl
  rw [if_neg h3]
  by_cases h4 : (!env.sendCmdOk) = true
  · rw [if_pos h4]; rfl
  rw [if_neg h4]
  by_cases h5 : (nextRecv env.shardIn).ret ≤ 0
  · rw [if_pos h5]; rfl
  · exfalso
    apply hf
    exact ⟨by simpa using h1, by simpa using h2, by simpa using h3, by simpa using h4,
      not_le.mp h5⟩

theorem processUploadf_reports (env : Env) (cmd : Command) (hf : uploadRefused env cmd) :
    errorReported (processUploadf env cmd).events = true := by
  unfold processUploadf
  dsimp only
  by_cases h1 : (!(strncmpEq (snprintf MAX_PATH_LENGTH cmd.arg2) "~/S1".toList 3 ||
      strncmpEq (snprintf MAX_PATH_LENGTH cmd.arg2) "~S1".toList 2)) = true
  · rw [if_pos h1]; rfl
  rw [if_neg h1]
  by_cases h2 : (!env.mkdirOk) = true
  · rw [if_pos h2]; rfl
  rw [if_neg h2]
  have hm : env.mkdirOk = true := by simpa using h2
  have hp : ¬ (strncmpEq (snprintf MAX_PATH_LENGTH cmd.arg2) "~/S1".toList 3 = false ∧
      strncmpEq (snprintf MAX_PATH_LENGTH cmd.arg2) "~S1".toList 2 = false) := by
    intro hh
    apply h1
    rw [hh.1, hh.2]
    rfl
  rcases hf with hf | hf | ⟨hr, hf⟩
  · exact absurd hf hp
  · rw [hm] at hf; exact absurd hf (by decide)
  · have h3 : ¬ (!env.sendReadyOk) = true := by simp [hr]
    rw [if_neg h3]
    by_cases h4 : (nextRecv env.clientIn).ret ≤ 0
    · rw [if_pos h4]; rfl
    rw [if_neg h4]
    have h5 : (decide (atol (cstrOf (nextRecv env.clientIn).buf) ≤ 0) ||
        decide (atol (cstrOf (nextRecv env.clientIn).buf) > MAX_FILE_SIZE)) = true := by
      rcases hf with hf | hf | hf
      · exact absurd hf h4
      · simp [hf]
      · simp [hf]
    rw [if_pos h5]
    rfl

theorem handleTarLocal_reports (env : Env) (ft : CStr) (hf : archiveRefused env ft) :
    errorReported (handleTarLocal env ft) = true := by
  unfold handleTarLocal
  rcases hf with ⟨hc, ht, hp⟩ | ⟨hc, hf⟩
  · have e1 : strcmpEq ft "c".toList = false := by simpa [strcmpEq] using hc
    have e2 : strcmpEq ft "txt".toList = false := by simpa [strcmpEq] using ht
    have e3 : strcmpEq ft "pdf".toList = false := by simpa [strcmpEq] using hp
    simp only [e1, e2, e3, Bool.false_eq_true, if_false]
    split_ifs <;> rfl
  · subst hc
    have e1 : strcmpEq "c".toList "c".toList = true := by decide
    simp only [e1, if_true]
    by_cases h1 : env.systemRet ≠ 0
    · rw [if_pos h1]; rfl
    rw [if_neg h1]
    cases hto : env.tarOut with
    | none => rfl
    | some content =>
      simp only
      rcases hf with hf | hf | hf
      · exact absurd hf h1
      · rw [hto] at hf; exact absurd hf (by simp)
      · have : (!env.fopenOk) = true := by simp [hf]
        rw [if_pos this]
        rfl

theorem sentShard_iff (evs : List Event) (bs : List Char) :
    sentShard evs bs = true ↔ Event.send .shard bs ∈ evs := by
  simp [sentShard]

theorem relayedNonError_append_right (a b : List Event) (r : RecvResult)
    (h : relayedNonError b r = true) : relayedNonError (a ++ b) r = true := by
  unfold relayedNonError sentClient at *
  simp only [Bool.and_eq_true, decide_eq_true_eq, List.mem_append] at *
  exact ⟨h.1, Or.inr h.2⟩

theorem relayedNonError_cons (e : Event) (b : List Event) (r : RecvResult)
    (h : relayedNonError b r = true) : relayedNonError (e :: b) r = true :=
  relayedNonError_append_right [e] b r h

/-- The test `fflush(file) != 0 || fclose(file) != 0` of `handleUploadLocal`: when
`fflush` fails the file is removed without a call of `fclose`, when `fclose`
fails it is removed after that call. -/
theorem storeLocal_finalize_fails :
    (storeLocal { home := "/home/u".toList, fcloseOk := false, fflushOk := false } []
      "/home/u/S1/a.c".toList 0).events =
      [.fopen "/home/u/S1/a.c".toList, .remove "/home/u/S1/a.c".toList,
        .send .client (lit "ERROR: Could not finalize file" 31)] ∧
    (storeLocal { home := "/home/u".toList, fcloseOk := false } []
      "/home/u/S1/a.c".toList 0).events =
      [.fopen "/home/u/S1/a.c".toList, .fclose, .remove "/home/u/S1/a.c".toList,
        .send .client (lit "ERROR: Could not finalize file" 31)] := by
  decide

/-- The same test in `handleUpload` of `s4.c`. -/
theorem receiveFile_s4_finalize_fails :
    (Shard.receiveFile .s4 { home := "/home/u".toList, fcloseOk := false, fflushOk := false } []
      "/home/u/S4/a.zip".toList 0).events =
      [.fopen "/home/u/S4/a.zip".toList, .remove "/home/u/S4/a.zip".toList,
        .send .client (lit "ERROR: Could not finalize file" 30)] ∧
    (Shard.receiveFile .s4 { home := "/home/u".toList, fcloseOk := false } []
      "/home/u/S4/a.zip".toList 0).events =
      [.fopen "/home/u/S4/a.zip".toList, .fclose, .remove "/home/u/S4/a.zip".toList,
        .send .client (lit "ERROR: Could not finalize file" 30)] := by
  decide

/-- An `uploadf` run on which the `send` of READY fails ends there. -/
theorem uploadf_ready_send_fails :
    (processUploadf { home := "/home/u".toList, sendReadyOk := false }
      ⟨"uploadf".toList, "a.c".toList, "~/S1/d".toList⟩).events =
      [.mkdirs "/home/u/S1/d".toList, .send .client "READY".toList] := by
  decide

/-- An `uploadf` run of a pdf file on which the requester's connection fails
while the file is relayed: the error message goes to the shard. -/
theorem uploadf_relay_read_fails :
    (processUploadf
      { home := "/home/u".toList, clientIn := [.data "5".toList, .error], shardIn := [
          .data "READY".toList, .data "SIZE_ACK".toList] }
      ⟨"uploadf".toList, "x.pdf".toList, "~/S1/d".toList⟩).events =
      [.mkdirs "/home/u/S1/d".toList, .send .client "READY".toList,
        .recv .client (.data "5".toList), .socket, .connect 8081,
        .send .shard "UPLOAD ~/S2/d/x.pdf".toList, .recv .shard (.data "READY".toList),
        .send .shard "5".toList, .recv .shard (.data "SIZE_ACK".toList),
        .send .client "SIZE_ACK".toList, .recv .client .error,
        .send .shard "ERROR: File receive error".toList, .close .shard] := by
  decide

/-- A `downlf` run for a file of S1 on which the requester closes the connection in
place of sending SIZE_ACK: the file is closed and nothing more is sent. -/
theorem downlf_without_size_ack :
    handleDownloadLocal
      { home := "/home/u".toList, fs := fun p =>
          if p = "/home/u/S1/a.c".toList then some "abc".toList else none }
      "~/S1/a.c".toList =
      [.stat "/home/u/S1/a.c".toList, .fopenRead "/home/u/S1/a.c".toList,
        .send .client "3".toList, .recv .client (.data []), .fclose] := by
  decide

/-- A `downltar` run for the class c on which the `send` of the archive's length
fails: the archive is closed and removed and nothing more is sent. -/
theorem downltar_size_send_fails :
    handleTarLocal { home := "/home/u".toList, tarOut := some "abc".toList, sendSizeOk := false }
      "c".toList =
      [.system "find /home/u/S1 -name \"*.c\" -type f | tar -cf /tmp/c_files.tar -T -".toList,
        .stat "/tmp/c_files.tar".toList, .fopenRead "/tmp/c_files.tar".toList,
        .send .client "3".toList, .fclose, .remove "/tmp/c_files.tar".toList] := by
  decide

/-! ## C25: which failures are reported to the requester -/

end DFS
